import Mathlib

/-!
# cpp_image_resizer: the resize pipeline of `FFmpegResizer` and the converter

A shallow embedding of `src/FFmpegResizer.hpp` / `src/FFmpegResizer.cpp`, the
library that `src/task2.cpp` links against, of `class VideoConverter` of
`src/task2.cpp`, and of `ImageResizer::resizeImage` of `src/ImageResizer.cpp`.
(`src/task1.cpp` holds an earlier copy of the resizer class; its
`calculateHeight` is identical, its `resize` wraps the body in `try`/`catch`
and is not the one embedded here.)

* C `int` values are `Int`; the range of `int` is `INT_MIN .. INT_MAX`.
* A `double` is a rational or one of the three non-finite values. `CDouble.mul`
  and `CDouble.div` give the exact result of the operation;
  `CDouble.mulBinary64` and `CDouble.divBinary64` round it to binary64 (IEEE
  754, to nearest, a tie to the even significand), as the program does where
  `double` expressions are evaluated in binary64 (`FLT_EVAL_METHOD` 0, the
  x86-64 default). `FFmpegResizer.calculateHeight` is the method with the exact
  operations, `FFmpegResizer.calculateHeightBinary64` the method with the
  rounded ones; on `int` arguments the two agree whenever
  `originalHeight * targetWidth < 2 ^ 52`, so for every preset width.
* A pointer member is a `Bool`: `true` when it is not `nullptr`.
* What libav answers (open results, stream tables, packets, decode and encode
  return codes) is data: `MediaFile` for an input path, `LibAv` for the calls
  that do not depend on the input.
* A member function is a function from the object before the call to the
  way the call ends (`Outcome`) and the object after it. An exception leaves
  the object as it was at the `throw`; the library calls made so far are kept
  in the `trace` field, oldest first.
-/

/-! ## Numbers -/

/-- Smallest value of a C `int`. -/
def INT_MIN : Int := -2147483648

/-- Largest value of a C `int`. -/
def INT_MAX : Int := 2147483647

/-- A `double`, with finite values taken as exact rationals. -/
inductive CDouble where
  | finite (q : ℚ)
  | posInf
  | negInf
  | nan
  deriving DecidableEq

namespace CDouble

/-- Conversion `static_cast<double>(n)` of an `int`, also the implicit one. -/
def ofInt (n : Int) : CDouble := finite n

/-- Product of two doubles (`0 * inf` is NaN). -/
def mul : CDouble → CDouble → CDouble
  | finite a, finite b => finite (a * b)
  | nan, _ => nan
  | _, nan => nan
  | finite a, posInf => if 0 < a then posInf else if a < 0 then negInf else nan
  | finite a, negInf => if 0 < a then negInf else if a < 0 then posInf else nan
  | posInf, finite b => if 0 < b then posInf else if b < 0 then negInf else nan
  | negInf, finite b => if 0 < b then negInf else if b < 0 then posInf else nan
  | posInf, posInf => posInf
  | negInf, negInf => posInf
  | posInf, negInf => negInf
  | negInf, posInf => negInf

/-- Quotient of two doubles. A zero divisor is the `+0.0` an `int` zero
converts to: a positive value over it is `+inf`, a negative one `-inf`, and
`0 / 0` is NaN; nothing traps. -/
def div : CDouble → CDouble → CDouble
  | finite a, finite b =>
    if b ≠ 0 then finite (a / b)
    else if 0 < a then posInf else if a < 0 then negInf else nan
  | nan, _ => nan
  | _, nan => nan
  | finite _, posInf => finite 0
  | finite _, negInf => finite 0
  | posInf, finite b => if 0 ≤ b then posInf else negInf
  | negInf, finite b => if 0 ≤ b then negInf else posInf
  | posInf, posInf => nan
  | posInf, negInf => nan
  | negInf, posInf => nan
  | negInf, negInf => nan

/-- The C library `round`: nearest integer, halfway cases away from zero. -/
def round : CDouble → CDouble
  | finite q => finite (if 0 ≤ q then (⌊q + 1 / 2⌋ : Int) else -(⌊-q + 1 / 2⌋ : Int))
  | posInf => posInf
  | negInf => negInf
  | nan => nan

/-- Conversion `static_cast<int>(d)`: the fraction is dropped (towards zero);
the behaviour is undefined (`none`) when the truncated value is not an `int`,
in particular for infinities and NaN. -/
def toInt : CDouble → Option Int
  | finite q =>
    let t : Int := if 0 ≤ q then ⌊q⌋ else ⌈q⌉
    if INT_MIN ≤ t ∧ t ≤ INT_MAX then some t else none
  | _ => none

end CDouble

/-- Nearest integer to a rational, a tie going to the even neighbour. -/
def roundHalfEven (m : ℚ) : Int :=
  if m - ⌊m⌋ < 1 / 2 then ⌊m⌋
  else if 1 / 2 < m - ⌊m⌋ then ⌊m⌋ + 1
  else if ⌊m⌋ % 2 = 0 then ⌊m⌋
  else ⌊m⌋ + 1

namespace CDouble

/-- The binary64 value a real number rounds to in the default rounding mode
(to nearest, a tie to the even significand): an integer multiple of `2 ^ e`,
where `e` is 52 below the binary exponent of the number and at least -1074
(the spacing of the subnormal values); an infinity when the rounded magnitude
reaches `2 ^ 1024`. The sign of a zero is not kept. -/
def ofRat (x : ℚ) : CDouble :=
  if x = 0 then finite 0
  else
    let e : Int := max (Int.log 2 |x| - 52) (-1074)
    let y : ℚ := (roundHalfEven (x / 2 ^ e) : ℚ) * 2 ^ e
    if (2 : ℚ) ^ (1024 : Int) ≤ |y| then (if 0 < x then posInf else negInf) else finite y

/-- Rounding of the exact result of an operation to binary64. -/
def toBinary64 : CDouble → CDouble
  | finite q => ofRat q
  | posInf => posInf
  | negInf => negInf
  | nan => nan

/-- Conversion `static_cast<double>(n)` of an `int` in binary64, also the implicit one. -/
def ofIntBinary64 (n : Int) : CDouble := ofRat n

/-- Product of two doubles in binary64: the exact product, rounded. -/
def mulBinary64 (a b : CDouble) : CDouble := toBinary64 (mul a b)

/-- Quotient of two doubles in binary64: the exact quotient, rounded. -/
def divBinary64 (a b : CDouble) : CDouble := toBinary64 (div a b)

end CDouble

/-! ## Preset sizes (`FFmpegResizer.hpp`) -/

def SMALL_WIDTH : Int := 250
def MEDIUM_WIDTH : Int := 350
def LARGE_WIDTH : Int := 650

inductive ImageSize where
  | SMALL
  | MEDIUM
  | LARGE
  | CUSTOM
  deriving DecidableEq

namespace FFmpegResizer

/-- Method `FFmpegResizer::calculateHeight`:
`static_cast<int>(round(static_cast<double>(originalHeight) * targetWidth / originalWidth))`,
the product and the quotient taken as exact.
`none` is the undefined double-to-int conversion. -/
def calculateHeight (targetWidth originalWidth originalHeight : Int) : Option Int :=
  CDouble.toInt (CDouble.round
    (CDouble.div (CDouble.mul (CDouble.ofInt originalHeight) (CDouble.ofInt targetWidth))
      (CDouble.ofInt originalWidth)))

/-- Method `FFmpegResizer::calculateHeight` as the binary64 arithmetic of the compiled code
evaluates it: the same expression, the conversions, the product and the quotient each rounded
to binary64 (`round` of a binary64 value is a binary64 value).
`none` is the undefined double-to-int conversion. -/
def calculateHeightBinary64 (targetWidth originalWidth originalHeight : Int) : Option Int :=
  CDouble.toInt (CDouble.round
    (CDouble.divBinary64
      (CDouble.mulBinary64 (CDouble.ofIntBinary64 originalHeight)
        (CDouble.ofIntBinary64 targetWidth))
      (CDouble.ofIntBinary64 originalWidth)))

end FFmpegResizer

/-! ## What libav reports -/

inductive AVMediaType where
  | UNKNOWN
  | VIDEO
  | AUDIO
  | DATA
  | SUBTITLE
  | ATTACHMENT
  deriving DecidableEq

/-- The fields of `AVCodecParameters` the code reads. -/
structure AVCodecParameters where
  codec_type : AVMediaType
  codec_id : Nat
  width : Int
  height : Int
  codec_tag : Nat := 0
  deriving DecidableEq

/-- A packet delivered by `av_read_frame`, together with what the decoder
answers when the packet is handed to it: the result of `avcodec_send_packet`,
the result of the `avcodec_receive_frame` that follows, and the picture a
successful receive leaves in `frame`. -/
structure AVPacket where
  stream_index : Int
  sendRet : Int
  receiveRet : Int
  picture : Nat
  deriving DecidableEq

/-- An input path as libav sees it: the results of `avformat_open_input` and
`avformat_find_stream_info`, the stream table (`nb_streams`, `streams[i]->codecpar`)
and the packets `av_read_frame` returns, in demux order, before it reports a
negative code; `duration` is the field `AVFormatContext::duration`, an `int64_t`. -/
structure MediaFile where
  openRet : Int
  findStreamInfoRet : Int
  streams : List AVCodecParameters
  packets : List AVPacket
  duration : Int := 0
  deriving DecidableEq

/-- Results of the libav and C library calls that do not read the input: a
`Bool` is "the pointer returned is not null", an `Int` the return code. The
first group is used by `resize`, the second by `writeJPEG`. -/
structure LibAv where
  /-- Result of `avcodec_find_decoder(codec_id)` -/
  find_decoder : Nat → Bool
  /-- Result of `avcodec_alloc_context3(decoder)` -/
  alloc_context3 : Bool
  /-- Result of `avcodec_parameters_to_context` -/
  parameters_to_context : Int
  /-- Result of `avcodec_open2(codecContext, decoder, nullptr)` -/
  open2 : Int
  /-- Result of `av_frame_alloc()` for the member `frame` -/
  frame_alloc : Bool
  /-- Result of `av_packet_alloc()` for the member `packet` -/
  packet_alloc : Bool
  /-- Result of `sws_getContext(srcW, srcH, pix_fmt, dstW, dstH, RGB24, ...)` by source and
  destination size -/
  sws_getContext : Int → Int → Int → Int → Bool
  /-- Result of `av_image_alloc` -/
  image_alloc : Int
  /-- Result of `avcodec_find_encoder(AV_CODEC_ID_MJPEG)` -/
  find_encoder : Bool
  /-- Result of `avcodec_alloc_context3(jpegCodec)` -/
  jpeg_alloc_context3 : Bool
  /-- Result of `avcodec_open2(jpegContext, jpegCodec, nullptr)` -/
  jpeg_open2 : Int
  /-- Result of `av_frame_alloc()` for `jpegFrame` -/
  jpeg_frame_alloc : Bool
  /-- Result of `av_frame_get_buffer(jpegFrame, 0)` -/
  frame_get_buffer : Int
  /-- Result of `sws_getContext` for the RGB to YUV pass -/
  rgbToYuv_getContext : Bool
  /-- Result of `fopen(outputPath, "wb")` -/
  fopen : Bool
  /-- Result of `av_packet_alloc()` for `jpegPacket` -/
  jpeg_packet_alloc : Bool
  /-- Result of `avcodec_send_frame(jpegContext, jpegFrame)` -/
  send_frame : Int
  /-- Result of `avcodec_receive_packet(jpegContext, jpegPacket)` -/
  receive_packet : Int
  /-- the bytes of the packet a successful `avcodec_receive_packet` fills in -/
  encoded : List Nat

/-- The native resources of the pipeline, by the variable that owns them. -/
inductive Resource where
  | inputFormatContext
  | codecContext
  | swsContext
  | frame
  | packet
  | dstData
  | jpegContext
  | jpegFrame
  | rgbToYuvContext
  | outFile
  | jpegPacket
  | formatContext
  | rgbFrame
  | yuvFrame
  | pkt
  | f
  | outputFormatContext
  | pb
  | scaledFrame
  deriving DecidableEq

/-- Library calls recorded in the trace. -/
inductive Event where
  /-- a resource was allocated or opened -/
  | acquire (r : Resource)
  /-- a resource was freed or closed -/
  | release (r : Resource)
  /-- Call of `av_read_frame` that delivered a packet -/
  | read (p : AVPacket)
  /-- Call of `avcodec_send_packet` -/
  | sendPacket (p : AVPacket)
  /-- Call of `avcodec_receive_frame` -/
  | receiveFrame (p : AVPacket)
  /-- Call of `sws_scale` of the decoded picture into `dstData` -/
  | scale (picture : Nat)
  /-- Entry of `writeJPEG`, with the picture held in `dstData` -/
  | writeJPEG (picture : Option Nat) (dstWidth dstHeight : Int)
  /-- Call of `fwrite` with these bytes on the output file -/
  | fwrite (bytes : List Nat)
  /-- Call of `av_seek_frame(formatContext, -1, target, AVSEEK_FLAG_BACKWARD)` -/
  | seek (target : Int)
  /-- Entry of `saveFrameAsJPEG` with the picture of the RGB frame and the file name -/
  | saveFrameAsJPEG (picture : Nat) (filename : String)
  /-- Call of `resizer.resizeWithPreset(inputPath, outputPath, size)` -/
  | resizeWithPreset (inputPath outputPath : String) (size : ImageSize)
  /-- Call of `avformat_write_header` -/
  | writeHeader
  /-- Call of `av_interleaved_write_frame` with this packet -/
  | writeFrame (p : AVPacket)
  /-- Call of `av_write_trailer` -/
  | writeTrailer
  deriving DecidableEq

/-- The `std::runtime_error`s of `FFmpegResizer.cpp` and then those of `task2.cpp`,
one per `throw`. -/
inductive Exception where
  | couldNotGetDimensions
  | invalidPresetSize
  | errorOpeningInput
  | errorFindingStreamInfo
  | couldNotFindVideoStream
  | errorFindingDecoder
  | errorCopyingCodecParameters
  | errorOpeningCodec
  | couldNotAllocateFrameOrPacket
  | couldNotInitializeScalingContext
  | couldNotAllocateDestinationImage
  | couldNotFindJPEGEncoder
  | couldNotAllocateJPEGContext
  | couldNotOpenJPEGEncoder
  | couldNotAllocateJPEGFrameBuffer
  | couldNotOpenOutputFile
  | couldNotOpenInputFile
  | couldNotCreateOutputContext
  | couldNotAllocateStream
  | couldNotOpenOutputFileForMux
  | couldNotWriteOutputHeader
  | couldNotFindStreamInformation
  | couldNotFindVideoStreamForThumbnail
  | unsupportedCodec
  | failedToAllocateCodecContext
  | failedToCopyCodecParameters
  | failedToOpenCodec
  | failedToAllocateFrameOrPacket
  | errorWhileDecoding
  | couldNotInitializeThumbnailScalingContext
  | jpegCodecNotFound
  | couldNotAllocateJPEGCodecContext
  | couldNotOpenJPEGCodec
  | errorSendingFrameToJPEGEncoder
  | errorReceivingPacketFromJPEGEncoder
  | couldNotOpenThumbnailFile
  deriving DecidableEq

/-- The message of each exception (before the input path, where one is appended). -/
def Exception.what : Exception → String
  | couldNotGetDimensions => "Could not get original image dimensions"
  | invalidPresetSize => "Invalid preset size"
  | errorOpeningInput => "Error opening input file: "
  | errorFindingStreamInfo => "Error finding stream info for input file: "
  | couldNotFindVideoStream => "Could not find video stream in input file: "
  | errorFindingDecoder => "Error finding decoder for the video stream"
  | errorCopyingCodecParameters => "Error copying codec parameters to codec context"
  | errorOpeningCodec => "Error opening codec"
  | couldNotAllocateFrameOrPacket => "Could not allocate frame or packet"
  | couldNotInitializeScalingContext => "Could not initialize scaling context"
  | couldNotAllocateDestinationImage => "Could not allocate destination image"
  | couldNotFindJPEGEncoder => "Could not find JPEG encoder"
  | couldNotAllocateJPEGContext => "Could not allocate JPEG context"
  | couldNotOpenJPEGEncoder => "Could not open JPEG encoder"
  | couldNotAllocateJPEGFrameBuffer => "Could not allocate JPEG frame buffer"
  | couldNotOpenOutputFile => "Could not open output file"
  | couldNotOpenInputFile => "Could not open input file"
  | couldNotCreateOutputContext => "Could not create output context"
  | couldNotAllocateStream => "Could not allocate stream"
  | couldNotOpenOutputFileForMux => "Could not open output file"
  | couldNotWriteOutputHeader => "Could not write output header"
  | couldNotFindStreamInformation => "Could not find stream information"
  | couldNotFindVideoStreamForThumbnail => "Could not find video stream"
  | unsupportedCodec => "Unsupported codec"
  | failedToAllocateCodecContext => "Failed to allocate codec context"
  | failedToCopyCodecParameters => "Failed to copy codec parameters to codec context"
  | failedToOpenCodec => "Failed to open codec"
  | failedToAllocateFrameOrPacket => "Failed to allocate frame or packet"
  | errorWhileDecoding => "Error while decoding"
  | couldNotInitializeThumbnailScalingContext => "Could not initialize scaling context"
  | jpegCodecNotFound => "JPEG codec not found"
  | couldNotAllocateJPEGCodecContext => "Could not allocate JPEG codec context"
  | couldNotOpenJPEGCodec => "Could not open JPEG codec"
  | errorSendingFrameToJPEGEncoder => "Error sending frame to JPEG encoder"
  | errorReceivingPacketFromJPEGEncoder => "Error receiving packet from JPEG encoder"
  | couldNotOpenThumbnailFile => "Could not open output file"

/-- How a call ends: it returns, it throws, or it runs into undefined
behaviour (a null pointer dereferenced, an array read out of bounds, a
double converted to `int` out of range). -/
inductive Outcome (α : Type) where
  | returned (a : α)
  | threw (e : Exception)
  | undefined
  deriving DecidableEq

/-! ## The object -/

/-- The data members of `class FFmpegResizer` with their default member
initialisers, then two fields that are not members: `dstPicture`, the picture
`sws_scale` last wrote into the `dstData` buffer, and `trace`. -/
structure FFmpegResizer where
  inputFormatContext : Bool := false
  codecContext : Bool := false
  swsContext : Bool := false
  frame : Bool := false
  packet : Bool := false
  dstData : Bool := false
  videoStreamIndex : Int := -1
  originalWidth : Int := 0
  originalHeight : Int := 0
  dstPicture : Option Nat := none
  trace : List Event := []
  deriving DecidableEq

/-- A member function with result `α`. -/
@[reducible] def Method (α : Type) := FFmpegResizer → Outcome α × FFmpegResizer

namespace Method

/-- Normal completion with a value. -/
def ret {α : Type} (a : α) : Method α := fun s => (.returned a, s)

/-- Sequencing: what follows runs only when the first part returned. -/
def andThen {α β : Type} (m : Method α) (f : α → Method β) : Method β := fun s =>
  match m s with
  | (.returned a, s1) => f a s1
  | (.threw e, s1) => (.threw e, s1)
  | (.undefined, s1) => (.undefined, s1)

instance : Monad Method where
  pure := ret
  bind := andThen

/-- The statement `throw std::runtime_error(...)`. -/
def raise {α : Type} (e : Exception) : Method α := fun s => (.threw e, s)

/-- Undefined behaviour. -/
def undefinedBehaviour {α : Type} : Method α := fun s => (.undefined, s)

/-- Read the members. -/
def self : Method FFmpegResizer := fun s => (.returned s, s)

/-- Assign to members. -/
def update (f : FFmpegResizer → FFmpegResizer) : Method Unit := fun s => (.returned (), f s)

/-- Record a library call. -/
def log (e : Event) : Method Unit := update fun s => { s with trace := s.trace ++ [e] }

end Method

namespace FFmpegResizer

open Method

/-- The loop
`for (i = 0; i < nb_streams; i++) if (streams[i]->codecpar->codec_type == AVMEDIA_TYPE_VIDEO) ...`
run on the streams from index `i` on: the index and parameters at which the
body is entered, `none` when the loop runs to the end. -/
def findVideoStream : List AVCodecParameters → Nat → Option (Nat × AVCodecParameters)
  | [], _ => none
  | par :: rest, i =>
    if par.codec_type = AVMediaType.VIDEO then some (i, par) else findVideoStream rest (i + 1)

/-- Method `FFmpegResizer::getOriginalDimensions`: `some (width, height)` is `true`
with the two reference parameters assigned, `none` is `false`. -/
def getOriginalDimensions (input : MediaFile) : Method (Option (Int × Int)) := do
  if input.openRet < 0 then
    -- a failed avformat_open_input leaves the pointer null
    update fun s => { s with inputFormatContext := false }
    return none
  else
    update fun s => { s with inputFormatContext := true }
    log (.acquire .inputFormatContext)
    if input.findStreamInfoRet < 0 then
      log (.release .inputFormatContext)
      update fun s => { s with inputFormatContext := false }
      return none
    else
      match findVideoStream input.streams 0 with
      | some (_, par) =>
        log (.release .inputFormatContext)
        update fun s => { s with inputFormatContext := false }
        return some (par.width, par.height)
      | none =>
        log (.release .inputFormatContext)
        update fun s => { s with inputFormatContext := false }
        return none

/-- `FFmpegResizer::processPacket` on the packet just read. -/
def processPacket (p : AVPacket) (_dstWidth _dstHeight : Int) : Method Bool := do
  log (.sendPacket p)
  if p.sendRet < 0 then
    return false
  else
    log (.receiveFrame p)
    if p.receiveRet < 0 then
      return false
    else
      -- Scale the image
      log (.scale p.picture)
      update fun s => { s with dstPicture := some p.picture }
      return true

/-- `FFmpegResizer::writeJPEG`. The pointers `jpegFrame`, `rgbToYuvContext`
and `jpegPacket` are used without a null check, and the results of
`avcodec_send_frame` and `avcodec_receive_packet` are not read: the packet
written holds the encoded bytes when the receive succeeded and is the empty
packet of `av_packet_alloc` otherwise. -/
def writeJPEG (lib : LibAv) (dstWidth dstHeight : Int) : Method Unit := do
  log (.writeJPEG (← self).dstPicture dstWidth dstHeight)
  if !lib.find_encoder then
    raise .couldNotFindJPEGEncoder
  else if !lib.jpeg_alloc_context3 then
    raise .couldNotAllocateJPEGContext
  else
    log (.acquire .jpegContext)
    if lib.jpeg_open2 < 0 then
      log (.release .jpegContext)
      raise .couldNotOpenJPEGEncoder
    else if !lib.jpeg_frame_alloc then
      -- jpegFrame->width = dstWidth on a null jpegFrame
      undefinedBehaviour
    else
      log (.acquire .jpegFrame)
      if lib.frame_get_buffer < 0 then
        log (.release .jpegFrame)
        log (.release .jpegContext)
        raise .couldNotAllocateJPEGFrameBuffer
      else if !lib.rgbToYuv_getContext then
        -- sws_scale on a null context
        undefinedBehaviour
      else
        log (.acquire .rgbToYuvContext)
        if !lib.fopen then
          log (.release .rgbToYuvContext)
          log (.release .jpegFrame)
          log (.release .jpegContext)
          raise .couldNotOpenOutputFile
        else
          log (.acquire .outFile)
          if !lib.jpeg_packet_alloc then
            -- jpegPacket->data on a null jpegPacket
            undefinedBehaviour
          else
            log (.acquire .jpegPacket)
            -- avcodec_send_frame(jpegContext, jpegFrame);
            -- avcodec_receive_packet(jpegContext, jpegPacket);
            log (.fwrite (if 0 ≤ lib.receive_packet then lib.encoded else []))
            log (.release .outFile)
            log (.release .jpegPacket)
            log (.release .rgbToYuvContext)
            log (.release .jpegFrame)
            log (.release .jpegContext)

/-- `FFmpegResizer::cleanup`. Each libav free function used here also sets
the pointer it is given to null; `swsContext` is set to null by hand. -/
def cleanup : Method Unit := do
  if (← self).dstData then
    log (.release .dstData)
    update fun s => { s with dstData := false, dstPicture := none }
  if (← self).swsContext then
    log (.release .swsContext)
    update fun s => { s with swsContext := false }
  if (← self).frame then
    log (.release .frame)
    update fun s => { s with frame := false }
  if (← self).packet then
    log (.release .packet)
    update fun s => { s with packet := false }
  if (← self).codecContext then
    log (.release .codecContext)
    update fun s => { s with codecContext := false }
  if (← self).inputFormatContext then
    log (.release .inputFormatContext)
    update fun s => { s with inputFormatContext := false }

/-- The destructor `FFmpegResizer::~FFmpegResizer`. -/
def destroy : Method Unit := cleanup

/-- The read loop of `resize`,
`while (av_read_frame(inputFormatContext, packet) >= 0) { ... }`,
on the packets the input still has to deliver. -/
def readFrames (lib : LibAv) (dstWidth dstHeight : Int) : List AVPacket → Method Unit
  | [] => pure ()
  | p :: rest => do
    log (.read p)
    if p.stream_index = (← self).videoStreamIndex then
      if (← processPacket p dstWidth dstHeight) then
        -- Write output file (first frame only), then break
        writeJPEG lib dstWidth dstHeight
      else
        -- av_packet_unref(packet)
        readFrames lib dstWidth dstHeight rest
    else
      -- av_packet_unref(packet)
      readFrames lib dstWidth dstHeight rest

/-- The element `inputFormatContext->streams[videoStreamIndex]->codecpar`;
`none` when the index is outside the stream table. -/
def streamAt (streams : List AVCodecParameters) (videoStreamIndex : Int) :
    Option AVCodecParameters :=
  if 0 ≤ videoStreamIndex then streams.get? videoStreamIndex.toNat else none

/-- `FFmpegResizer::resize` of `FFmpegResizer.cpp`, up to the read loop:
the input is opened, the video stream selected, the decoder, frame, packet,
scaler and destination buffer set up. -/
def setup (input : MediaFile) (lib : LibAv) (dstWidth dstHeight : Int) : Method Unit := do
  -- Open input file and prepare input format context
  if input.openRet ≠ 0 then
    update fun s => { s with inputFormatContext := false }
    raise .errorOpeningInput
  else
    update fun s => { s with inputFormatContext := true }
    log (.acquire .inputFormatContext)
    -- Find stream info
    if input.findStreamInfoRet < 0 then
      raise .errorFindingStreamInfo
    else
      -- Find the video stream index
      match findVideoStream input.streams 0 with
      | some (i, _) => update fun s => { s with videoStreamIndex := i }
      | none => pure ()
      if (← self).videoStreamIndex = -1 then
        raise .couldNotFindVideoStream
      else
        -- Get codec context for the video stream
        match streamAt input.streams (← self).videoStreamIndex with
        | none => undefinedBehaviour
        | some codecParams =>
          if !lib.find_decoder codecParams.codec_id then
            raise .errorFindingDecoder
          else if !lib.alloc_context3 then
            -- avcodec_parameters_to_context on a null codecContext
            update fun s => { s with codecContext := false }
            undefinedBehaviour
          else
            update fun s => { s with codecContext := true }
            log (.acquire .codecContext)
            if lib.parameters_to_context < 0 then
              raise .errorCopyingCodecParameters
            else if lib.open2 < 0 then
              raise .errorOpeningCodec
            else
              -- Allocate frame and packet
              update fun s => { s with frame := lib.frame_alloc }
              if lib.frame_alloc then log (.acquire .frame)
              update fun s => { s with packet := lib.packet_alloc }
              if lib.packet_alloc then log (.acquire .packet)
              if !lib.frame_alloc || !lib.packet_alloc then
                raise .couldNotAllocateFrameOrPacket
              else
                -- Create scaling context
                update fun s => { s with
                  swsContext := lib.sws_getContext codecParams.width codecParams.height
                    dstWidth dstHeight }
                if !(← self).swsContext then
                  raise .couldNotInitializeScalingContext
                else
                  log (.acquire .swsContext)
                  -- Allocate destination image buffer
                  if lib.image_alloc < 0 then
                    raise .couldNotAllocateDestinationImage
                  else
                    update fun s => { s with dstData := true, dstPicture := none }
                    log (.acquire .dstData)

/-- `FFmpegResizer::resize` of `FFmpegResizer.cpp`: set-up, read loop,
`cleanup()`. There is no `try` block: a `throw` leaves at once. -/
def resize (input : MediaFile) (lib : LibAv) (dstWidth dstHeight : Int) : Method Unit := do
  setup input lib dstWidth dstHeight
  readFrames lib dstWidth dstHeight input.packets
  cleanup

/-- `FFmpegResizer::resizeWithPreset`. -/
def resizeWithPreset (input : MediaFile) (lib : LibAv) (size : ImageSize) : Method Unit := do
  match (← getOriginalDimensions input) with
  | none => raise .couldNotGetDimensions
  | some (originalWidth, originalHeight) =>
    let width : Method Int :=
      match size with
      | .SMALL => pure SMALL_WIDTH
      | .MEDIUM => pure MEDIUM_WIDTH
      | .LARGE => pure LARGE_WIDTH
      | .CUSTOM => raise .invalidPresetSize
    let targetWidth ← width
    match calculateHeight targetWidth originalWidth originalHeight with
    | none => undefinedBehaviour
    | some targetHeight => resize input lib targetWidth targetHeight

end FFmpegResizer


/-! ## Sequences of calls on one object -/

/-- A call a client makes on an `FFmpegResizer` object. -/
inductive Call where
  | getOriginalDimensions (input : MediaFile)
  | resize (input : MediaFile) (lib : LibAv) (dstWidth dstHeight : Int)

/-- A sequence of calls on one object, each made after the one before has returned. -/
def runCalls : List Call → Method Unit
  | [] => pure ()
  | Call.getOriginalDimensions input :: rest => do
    let _ ← FFmpegResizer.getOriginalDimensions input
    runCalls rest
  | Call.resize input lib dstWidth dstHeight :: rest => do
    FFmpegResizer.resize input lib dstWidth dstHeight
    runCalls rest

/-! ## Reading a trace -/

/-- A packet of the selected stream for which both `avcodec_send_packet` and
`avcodec_receive_frame` succeed: `processPacket` returns `true` on it. -/
def decodesToFrame (videoStreamIndex : Int) (p : AVPacket) : Bool :=
  decide (p.stream_index = videoStreamIndex) && decide (0 ≤ p.sendRet)
    && decide (0 ≤ p.receiveRet)

/-- The packets `av_read_frame` delivered, oldest first. -/
def packetsRead : List Event → List AVPacket
  | [] => []
  | Event.read p :: rest => p :: packetsRead rest
  | _ :: rest => packetsRead rest

/-- The packets handed to the decoder, oldest first. -/
def packetsSent : List Event → List AVPacket
  | [] => []
  | Event.sendPacket p :: rest => p :: packetsSent rest
  | _ :: rest => packetsSent rest

/-- The pictures scaled into the destination buffer, oldest first. -/
def scaledPictures : List Event → List Nat
  | [] => []
  | Event.scale picture :: rest => picture :: scaledPictures rest
  | _ :: rest => scaledPictures rest

/-- The calls of `writeJPEG`: the picture in the buffer and the size asked for. -/
def jpegCalls : List Event → List (Option Nat × Int × Int)
  | [] => []
  | Event.writeJPEG picture w h :: rest => (picture, w, h) :: jpegCalls rest
  | _ :: rest => jpegCalls rest

/-- The byte strings written with `fwrite`, oldest first. -/
def bytesWritten : List Event → List (List Nat)
  | [] => []
  | Event.fwrite bytes :: rest => bytes :: bytesWritten rest
  | _ :: rest => bytesWritten rest

/-! ## Sample inputs -/

/-- A library in which every call succeeds; a scaler exists for positive sizes. -/
def okLib : LibAv where
  find_decoder := fun _ => true
  alloc_context3 := true
  parameters_to_context := 0
  open2 := 0
  frame_alloc := true
  packet_alloc := true
  sws_getContext := fun srcW srcH dstW dstH =>
    decide (0 < srcW) && decide (0 < srcH) && decide (0 < dstW) && decide (0 < dstH)
  image_alloc := 0
  find_encoder := true
  jpeg_alloc_context3 := true
  jpeg_open2 := 0
  jpeg_frame_alloc := true
  frame_get_buffer := 0
  rgbToYuv_getContext := true
  fopen := true
  jpeg_packet_alloc := true
  send_frame := 0
  receive_packet := 0
  encoded := [255, 216, 255, 217]

/-- A 650x488 video stream. -/
def videoStream : AVCodecParameters :=
  { codec_type := AVMediaType.VIDEO, codec_id := 7, width := 650, height := 488 }

/-- An audio stream. -/
def audioStream : AVCodecParameters :=
  { codec_type := AVMediaType.AUDIO, codec_id := 86018, width := 0, height := 0 }

/-- An input with an audio stream (index 0) and a video stream (index 1): an audio packet,
a video packet for which the decoder has no frame yet (`AVERROR(EAGAIN)` is -11), then two
video packets that decode to pictures 7 and 8. -/
def sampleFile : MediaFile where
  openRet := 0
  findStreamInfoRet := 0
  streams := [audioStream, videoStream]
  packets :=
    [ { stream_index := 0, sendRet := 0, receiveRet := 0, picture := 5 },
      { stream_index := 1, sendRet := 0, receiveRet := -11, picture := 6 },
      { stream_index := 1, sendRet := 0, receiveRet := 0, picture := 7 },
      { stream_index := 1, sendRet := 0, receiveRet := 0, picture := 8 } ]

/-- An input whose only stream is video. -/
def videoOnlyFile : MediaFile where
  openRet := 0
  findStreamInfoRet := 0
  streams := [videoStream]
  packets := [ { stream_index := 0, sendRet := 0, receiveRet := 0, picture := 1 } ]

/-- An input whose only stream is audio. -/
def audioOnlyFile : MediaFile where
  openRet := 0
  findStreamInfoRet := 0
  streams := [audioStream]
  packets := [ { stream_index := 0, sendRet := 0, receiveRet := 0, picture := 2 } ]

/-- An input whose video stream reports no dimensions (width and height 0). -/
def zeroWidthFile : MediaFile where
  openRet := 0
  findStreamInfoRet := 0
  streams := [ { codec_type := AVMediaType.VIDEO, codec_id := 7, width := 0, height := 0 } ]
  packets := [ { stream_index := 0, sendRet := 0, receiveRet := 0, picture := 1 } ]

/-- An input with a video stream none of whose packets decodes: the decoder rejects the
first (`AVERROR_INVALIDDATA` is -1094995529) and has no frame for the second. -/
def undecodableFile : MediaFile where
  openRet := 0
  findStreamInfoRet := 0
  streams := [videoStream]
  packets :=
    [ { stream_index := 0, sendRet := -1094995529, receiveRet := -11, picture := 0 },
      { stream_index := 0, sendRet := 0, receiveRet := -11, picture := 0 } ]

/-- The library when the output path cannot be opened for writing. -/
def unwritableOutputLib : LibAv := { okLib with fopen := false }

/-- The library when the JPEG encoder rejects the frame (`AVERROR(EINVAL)` is -22) and, having
taken no frame, has no packet to give (`AVERROR(EAGAIN)` is -11). -/
def failingEncoderLib : LibAv := { okLib with send_frame := -22, receive_packet := -11 }

/-! ## The converter (`task2.cpp`) -/

/-- Value of `AVERROR(EAGAIN)` (with `EAGAIN` 11). -/
def AVERROR_EAGAIN : Int := -11

/-- Value of `AVERROR_EOF`, the negated tag `'E','O','F',' '`. -/
def AVERROR_EOF : Int := -541478725

/-- Value of `AVERROR_INVALIDDATA`, the negated tag `'I','N','D','A'`. -/
def AVERROR_INVALIDDATA : Int := -1094995529

/-- Value of `AV_NOPTS_VALUE`, the "no value" timestamp: the smallest `int64_t`. -/
def AV_NOPTS_VALUE : Int := -9223372036854775808

/-- A function of `class VideoConverter` (which has no data members), as a
function of its local state `σ`. -/
@[reducible] def Routine (σ α : Type) := σ → Outcome α × σ

namespace Routine

/-- Normal completion with a value. -/
def ret {σ α : Type} (a : α) : Routine σ α := fun s => (.returned a, s)

/-- Sequencing: what follows runs only when the first part returned. -/
def andThen {σ α β : Type} (m : Routine σ α) (g : α → Routine σ β) : Routine σ β := fun s =>
  match m s with
  | (.returned a, s1) => g a s1
  | (.threw e, s1) => (.threw e, s1)
  | (.undefined, s1) => (.undefined, s1)

instance {σ : Type} : Monad (Routine σ) where
  pure := ret
  bind := andThen

/-- The statement `throw std::runtime_error(...)`. -/
def raise {σ α : Type} (e : Exception) : Routine σ α := fun s => (.threw e, s)

/-- Undefined behaviour. -/
def undefinedBehaviour {σ α : Type} : Routine σ α := fun s => (.undefined, s)

/-- Read the local state. -/
def self {σ : Type} : Routine σ σ := fun s => (.returned s, s)

/-- Assign to local variables. -/
def update {σ : Type} (g : σ → σ) : Routine σ Unit := fun s => (.returned (), g s)

/-- The block `try { body } catch (const std::exception& e) { handler; throw; }`. -/
def tryCatchRethrow {σ α : Type} (body : Routine σ α) (handler : Routine σ Unit) :
    Routine σ α := fun s =>
  match body s with
  | (.threw e, s1) =>
    match handler s1 with
    | (.returned _, s2) => (.threw e, s2)
    | (.threw e2, s2) => (.threw e2, s2)
    | (.undefined, s2) => (.undefined, s2)
  | r => r

end Routine

/-- Results of the calls of `convertToMP4` on the output side. -/
structure MuxLib where
  /-- Result of `avformat_alloc_output_context2(&outputFormatContext, nullptr, "mp4", path)` -/
  alloc_output_context2 : Bool
  /-- Result of `avformat_new_stream`, by the number of output streams that exist already -/
  new_stream : Nat → Bool
  /-- Result of `avio_open(&outputFormatContext->pb, path, AVIO_FLAG_WRITE)` -/
  avio_open : Int
  /-- Result of `avformat_write_header` -/
  write_header : Int

/-- The state of a run of `convertToMP4`: the stream table of the output context
(`outputFormatContext->streams[k]->codecpar`, kept here after the context is freed)
and the trace. -/
structure ConvertToMP4 where
  outStreams : List AVCodecParameters := []
  trace : List Event := []
  deriving DecidableEq

/-- The local variables of a run of `extractThumbnail` (pointers as in `FFmpegResizer`;
`swsContext` is not set to null when the scaler is freed), the local object `resizer`,
and the trace of the function itself. -/
structure ExtractThumbnail where
  formatContext : Bool := false
  codecContext : Bool := false
  frame : Bool := false
  packet : Bool := false
  swsContext : Bool := false
  resizer : FFmpegResizer := {}
  trace : List Event := []
  deriving DecidableEq

/-- What `extractThumbnail` is given by its surroundings: `lib` answers the calls of
`extractThumbnail` and `saveFrameAsJPEG` themselves, `rgb_frame_alloc` is the
`av_frame_alloc()` for `rgbFrame`, `thumbnail` is the intermediate image as libav sees it
when the resizer opens it, and `resizerLib` answers the calls of each `resizeWithPreset`. -/
structure ThumbnailEnv where
  lib : LibAv
  rgb_frame_alloc : Bool
  thumbnail : MediaFile
  resizerLib : ImageSize → LibAv

namespace VideoConverter

open Routine

/-- Record a library call of `convertToMP4`. -/
def logMux (e : Event) : Routine ConvertToMP4 Unit :=
  update fun s => { s with trace := s.trace ++ [e] }

/-- Record a library call of `extractThumbnail`. -/
def log (e : Event) : Routine ExtractThumbnail Unit :=
  update fun s => { s with trace := s.trace ++ [e] }

/-- The stream loop of `convertToMP4`,
`for (i = 0; i < nb_streams; i++) if (streams[i] is video) { ... }`,
on the input streams still to visit. -/
def addVideoStreams (mux : MuxLib) : List AVCodecParameters → Routine ConvertToMP4 Unit
  | [] => pure ()
  | par :: rest => do
    if par.codec_type = AVMediaType.VIDEO then
      if !mux.new_stream (← self).outStreams.length then
        logMux (.release .inputFormatContext)
        logMux (.release .outputFormatContext)
        raise .couldNotAllocateStream
      else
        -- Copy codec parameters from input to output, then codec_tag = 0
        update fun s => { s with outStreams := s.outStreams ++ [{ par with codec_tag := 0 }] }
        addVideoStreams mux rest
    else
      addVideoStreams mux rest

/-- The packet loop of `convertToMP4`:
`while (av_read_frame(inputFormatContext, &packet) >= 0) { av_interleaved_write_frame(...); }`.
The result of the write is not read. -/
def copyPackets : List AVPacket → Routine ConvertToMP4 Unit
  | [] => pure ()
  | p :: rest => do
    logMux (.read p)
    logMux (.writeFrame p)
    -- av_packet_unref(&packet)
    copyPackets rest

/-- Function `VideoConverter::convertToMP4`. The result of `avcodec_parameters_copy` is not read;
the fields kept in `AVCodecParameters` here are copied before its only failing step. -/
def convertToMP4 (input : MediaFile) (mux : MuxLib) : Routine ConvertToMP4 Unit := do
  -- Open input file
  if input.openRet < 0 then
    raise .couldNotOpenInputFile
  else
    logMux (.acquire .inputFormatContext)
    -- Create output format context
    if !mux.alloc_output_context2 then
      logMux (.release .inputFormatContext)
      raise .couldNotCreateOutputContext
    else
      logMux (.acquire .outputFormatContext)
      -- Find video stream and add it to output context
      addVideoStreams mux input.streams
      -- Open output file
      if mux.avio_open < 0 then
        logMux (.release .inputFormatContext)
        logMux (.release .outputFormatContext)
        raise .couldNotOpenOutputFileForMux
      else
        logMux (.acquire .pb)
        -- Write the output file header
        logMux .writeHeader
        if mux.write_header < 0 then
          logMux (.release .inputFormatContext)
          logMux (.release .pb)
          logMux (.release .outputFormatContext)
          raise .couldNotWriteOutputHeader
        else
          -- Read packets from input and write them to output
          copyPackets input.packets
          -- Write the trailer
          logMux .writeTrailer
          logMux (.release .inputFormatContext)
          logMux (.release .pb)
          logMux (.release .outputFormatContext)

/-- The expression `duration / 10` of `extractThumbnail`: division of `int64_t`,
the quotient truncated towards zero. -/
def seekTarget (duration : Int) : Int := Int.tdiv duration 10

/-- Function `VideoConverter::saveFrameAsJPEG` on the RGB frame holding `picture`. The
pointers `yuvFrame`, `rgbToYuvContext` and `pkt` are used without a null check and the
result of `av_frame_get_buffer` is not read. -/
def saveFrameAsJPEG (lib : LibAv) (picture : Nat) (filename : String) :
    Routine ExtractThumbnail Unit := do
  log (.saveFrameAsJPEG picture filename)
  if !lib.find_encoder then
    raise .jpegCodecNotFound
  else if !lib.jpeg_alloc_context3 then
    raise .couldNotAllocateJPEGCodecContext
  else
    log (.acquire .jpegContext)
    if lib.jpeg_open2 < 0 then
      log (.release .jpegContext)
      raise .couldNotOpenJPEGCodec
    else if !lib.jpeg_frame_alloc then
      -- yuvFrame->format on a null yuvFrame
      undefinedBehaviour
    else
      log (.acquire .yuvFrame)
      if !lib.rgbToYuv_getContext then
        -- sws_scale on a null context
        undefinedBehaviour
      else
        log (.acquire .rgbToYuvContext)
        if lib.jpeg_packet_alloc then log (.acquire .pkt)
        if lib.send_frame < 0 then
          -- av_packet_free of a null pkt does nothing
          if lib.jpeg_packet_alloc then log (.release .pkt)
          log (.release .yuvFrame)
          log (.release .jpegContext)
          log (.release .rgbToYuvContext)
          raise .errorSendingFrameToJPEGEncoder
        else if !lib.jpeg_packet_alloc then
          -- avcodec_receive_packet into a null pkt
          undefinedBehaviour
        else if lib.receive_packet < 0 then
          log (.release .pkt)
          log (.release .yuvFrame)
          log (.release .jpegContext)
          log (.release .rgbToYuvContext)
          raise .errorReceivingPacketFromJPEGEncoder
        else if !lib.fopen then
          log (.release .pkt)
          log (.release .yuvFrame)
          log (.release .jpegContext)
          log (.release .rgbToYuvContext)
          raise .couldNotOpenThumbnailFile
        else
          log (.acquire .f)
          log (.fwrite lib.encoded)
          log (.release .f)
          log (.release .pkt)
          log (.release .yuvFrame)
          log (.release .jpegContext)
          log (.release .rgbToYuvContext)

/-- One statement `resizer.resizeWithPreset(inputPath, outputPath, size)` of
`extractThumbnail`. When the call throws, the local object `resizer` is destroyed as
the exception leaves its block, before the handler of `extractThumbnail` runs. -/
def callResizer (env : ThumbnailEnv) (inputPath outputPath : String) (size : ImageSize) :
    Routine ExtractThumbnail Unit := fun s =>
  let s1 := { s with trace := s.trace ++ [Event.resizeWithPreset inputPath outputPath size] }
  match FFmpegResizer.resizeWithPreset env.thumbnail (env.resizerLib size) size s1.resizer with
  | (.returned _, r) => (.returned (), { s1 with resizer := r })
  | (.threw e, r) => (.threw e, { s1 with resizer := (FFmpegResizer.destroy r).2 })
  | (.undefined, r) => (.undefined, { s1 with resizer := r })

/-- The part of the loop body of `extractThumbnail` that follows a decoded frame
("We have a valid video frame"), up to the `break`; `par` are the parameters of the
selected stream, which give `codecContext->width` and `height`. -/
def makeThumbnails (env : ThumbnailEnv) (par : AVCodecParameters) (picture : Nat)
    (thumbnailPath : String) : Routine ExtractThumbnail Unit := do
  update fun s => { s with
    swsContext := env.lib.sws_getContext par.width par.height par.width par.height }
  if !(← self).swsContext then
    raise .couldNotInitializeThumbnailScalingContext
  else
    log (.acquire .swsContext)
    -- Allocate RGB frame
    if !env.rgb_frame_alloc then
      -- rgbFrame->format on a null rgbFrame
      undefinedBehaviour
    else
      log (.acquire .rgbFrame)
      -- Convert frame to RGB
      log (.scale picture)
      -- Save the RGB frame as JPEG
      saveFrameAsJPEG env.lib picture thumbnailPath
      -- Cleanup
      log (.release .rgbFrame)
      log (.release .swsContext)
      -- Use FFmpegResizer to create different sizes
      update fun s => { s with resizer := {} }
      callResizer env thumbnailPath (thumbnailPath ++ "_small.jpg") ImageSize.SMALL
      callResizer env thumbnailPath (thumbnailPath ++ "_medium.jpg") ImageSize.MEDIUM
      callResizer env thumbnailPath (thumbnailPath ++ "_large.jpg") ImageSize.LARGE
      -- break: the block of `resizer` is left
      update fun s => { s with resizer := (FFmpegResizer.destroy s.resizer).2 }

/-- The loop `while (av_read_frame(formatContext, packet) >= 0) { ... }` of
`extractThumbnail`, on the packets the input still has to deliver. -/
def decodeLoop (env : ThumbnailEnv) (videoStreamIndex : Int) (par : AVCodecParameters)
    (thumbnailPath : String) : List AVPacket → Routine ExtractThumbnail Unit
  | [] => pure ()
  | p :: rest => do
    log (.read p)
    if p.stream_index = videoStreamIndex then
      log (.sendPacket p)
      if p.sendRet < 0 then
        -- av_packet_unref(packet); continue
        decodeLoop env videoStreamIndex par thumbnailPath rest
      else
        log (.receiveFrame p)
        if p.receiveRet = AVERROR_EAGAIN ∨ p.receiveRet = AVERROR_EOF then
          -- av_packet_unref(packet); continue
          decodeLoop env videoStreamIndex par thumbnailPath rest
        else if p.receiveRet < 0 then
          raise .errorWhileDecoding
        else
          -- We have a valid video frame; then break
          makeThumbnails env par p.picture thumbnailPath
    else
      -- av_packet_unref(packet)
      decodeLoop env videoStreamIndex par thumbnailPath rest

/-- The `try` block of `extractThumbnail`. -/
def extractBody (input : MediaFile) (thumbnailPath : String) (env : ThumbnailEnv) :
    Routine ExtractThumbnail Unit := do
  -- Open the input file
  if input.openRet < 0 then
    raise .couldNotOpenInputFile
  else
    update fun s => { s with formatContext := true }
    log (.acquire .formatContext)
    -- Retrieve stream information
    if input.findStreamInfoRet < 0 then
      raise .couldNotFindStreamInformation
    else
      -- Find the first video stream
      match FFmpegResizer.findVideoStream input.streams 0 with
      | none => raise .couldNotFindVideoStreamForThumbnail
      | some (videoStreamIndex, par) =>
        if !env.lib.find_decoder par.codec_id then
          raise .unsupportedCodec
        else if !env.lib.alloc_context3 then
          raise .failedToAllocateCodecContext
        else
          update fun s => { s with codecContext := true }
          log (.acquire .codecContext)
          if env.lib.parameters_to_context < 0 then
            raise .failedToCopyCodecParameters
          else if env.lib.open2 < 0 then
            raise .failedToOpenCodec
          else
            update fun s => { s with frame := env.lib.frame_alloc }
            if env.lib.frame_alloc then log (.acquire .frame)
            update fun s => { s with packet := env.lib.packet_alloc }
            if env.lib.packet_alloc then log (.acquire .packet)
            if !env.lib.frame_alloc || !env.lib.packet_alloc then
              raise .failedToAllocateFrameOrPacket
            else
              -- Seek to 10% of the video duration
              log (.seek (seekTarget input.duration))
              -- Read frames until we get a video frame
              decodeLoop env videoStreamIndex par thumbnailPath input.packets

/-- The four statements `if (codecContext) avcodec_free_context(&codecContext); ...`
that stand in the `catch` block and again after it. -/
def freeLocals : Routine ExtractThumbnail Unit := do
  if (← self).codecContext then
    log (.release .codecContext)
    update fun s => { s with codecContext := false }
  if (← self).formatContext then
    log (.release .formatContext)
    update fun s => { s with formatContext := false }
  if (← self).frame then
    log (.release .frame)
    update fun s => { s with frame := false }
  if (← self).packet then
    log (.release .packet)
    update fun s => { s with packet := false }

/-- Function `VideoConverter::extractThumbnail`. -/
def extractThumbnail (input : MediaFile) (thumbnailPath : String) (env : ThumbnailEnv) :
    Routine ExtractThumbnail Unit := do
  tryCatchRethrow (extractBody input thumbnailPath env) freeLocals
  freeLocals

end VideoConverter

/-! ## Resources in a trace -/

/-- Replay of the acquisitions and releases of a trace, from the resources `live` that
are held at its start: the resources held at its end, most recent first, or `none` when
a release meets a resource that is not held (released twice, or never acquired). -/
def heldAfter (live : List Resource) : List Event → Option (List Resource)
  | [] => some live
  | Event.acquire r :: rest => heldAfter (r :: live) rest
  | Event.release r :: rest => if r ∈ live then heldAfter (live.erase r) rest else none
  | _ :: rest => heldAfter live rest

/-- The packets handed to `av_interleaved_write_frame`, oldest first. -/
def packetsWritten : List Event → List AVPacket
  | [] => []
  | Event.writeFrame p :: rest => p :: packetsWritten rest
  | _ :: rest => packetsWritten rest

/-- The calls `resizer.resizeWithPreset(inputPath, outputPath, size)`, oldest first. -/
def resizeCalls : List Event → List (String × String × ImageSize)
  | [] => []
  | Event.resizeWithPreset inputPath outputPath size :: rest =>
    (inputPath, outputPath, size) :: resizeCalls rest
  | _ :: rest => resizeCalls rest

/-- The entries of `saveFrameAsJPEG`: picture and file name. -/
def savedFrames : List Event → List (Nat × String)
  | [] => []
  | Event.saveFrameAsJPEG picture filename :: rest => (picture, filename) :: savedFrames rest
  | _ :: rest => savedFrames rest

/-- The targets of the seeks, oldest first. -/
def seekTargets : List Event → List Int
  | [] => []
  | Event.seek target :: rest => target :: seekTargets rest
  | _ :: rest => seekTargets rest

/-! ## Sample surroundings of the converter -/

/-- An output side on which every call succeeds. -/
def okMux : MuxLib where
  alloc_output_context2 := true
  new_stream := fun _ => true
  avio_open := 0
  write_header := 0

/-- The intermediate thumbnail as the resizer finds it: one 650x488 video stream, one
packet that decodes to picture 7. -/
def thumbnailFile : MediaFile where
  openRet := 0
  findStreamInfoRet := 0
  streams := [videoStream]
  packets := [ { stream_index := 0, sendRet := 0, receiveRet := 0, picture := 7 } ]

/-- Surroundings in which every call of `extractThumbnail` and of the resizer succeeds. -/
def okThumbnailEnv : ThumbnailEnv where
  lib := okLib
  rgb_frame_alloc := true
  thumbnail := thumbnailFile
  resizerLib := fun _ => okLib

/-- Surroundings in which the thumbnail path cannot be opened for writing. -/
def unwritableThumbnailEnv : ThumbnailEnv := { okThumbnailEnv with lib := unwritableOutputLib }

/-- An input whose duration libav does not know. -/
def unknownDurationFile : MediaFile := { sampleFile with duration := AV_NOPTS_VALUE }

/-- An input with one video stream: the decoder rejects the first packet with
`AVERROR_INVALIDDATA` when it is sent, the second decodes to picture 9. -/
def corruptFirstPacketFile : MediaFile where
  openRet := 0
  findStreamInfoRet := 0
  streams := [videoStream]
  packets :=
    [ { stream_index := 0, sendRet := AVERROR_INVALIDDATA, receiveRet := 0, picture := 0 },
      { stream_index := 0, sendRet := 0, receiveRet := 0, picture := 9 } ]

/-- An input with a tagged video stream between two audio streams and a second video
stream after them; packets of streams 0, 1 and 3. -/
def fourStreamFile : MediaFile where
  openRet := 0
  findStreamInfoRet := 0
  streams :=
    [ audioStream,
      { codec_type := AVMediaType.VIDEO, codec_id := 27, width := 1280, height := 720,
        codec_tag := 828601953 },
      audioStream,
      { codec_type := AVMediaType.VIDEO, codec_id := 7, width := 650, height := 488,
        codec_tag := 1196444237 } ]
  packets :=
    [ { stream_index := 1, sendRet := 0, receiveRet := 0, picture := 1 },
      { stream_index := 0, sendRet := 0, receiveRet := 0, picture := 2 },
      { stream_index := 3, sendRet := 0, receiveRet := 0, picture := 3 } ]

/-- An output side on which the second `avformat_new_stream` fails. -/
def secondStreamFailsMux : MuxLib := { okMux with new_stream := fun k => decide (k < 1) }

/-- A very wide image: 1000x1. -/
def wideFile : MediaFile where
  openRet := 0
  findStreamInfoRet := 0
  streams := [ { codec_type := AVMediaType.VIDEO, codec_id := 7, width := 1000, height := 1 } ]
  packets := [ { stream_index := 0, sendRet := 0, receiveRet := 0, picture := 1 } ]

/-- Every handle member of the resizer is null. -/
def FFmpegResizer.allNull (s : FFmpegResizer) : Bool :=
  !s.inputFormatContext && !s.codecContext && !s.swsContext && !s.frame && !s.packet
    && !s.dstData

/-- Every handle member of the resizer is set. -/
def FFmpegResizer.allSet (s : FFmpegResizer) : Bool :=
  s.inputFormatContext && s.codecContext && s.swsContext && s.frame && s.packet && s.dstData

/-! ## The first resizer (`ImageResizer.h`, `ImageResizer.cpp`) -/

namespace ImageResizer

/-- The `enum class Size` of `ImageResizer`. -/
inductive Size where
  | SMALL
  | MEDIUM
  | LARGE
  deriving DecidableEq

/-- The enumerator values, `static_cast<int>(size)`. -/
def Size.toInt : Size → Int
  | Size.SMALL => 256
  | Size.MEDIUM => 512
  | Size.LARGE => 1024

end ImageResizer

/-- The state of a run of `ImageResizer::resizeImage`: the local pointer
`codecParameters` (`none` is `nullptr`), the lines written to `std::cerr` (each
before the input path, where one is appended) and the trace. -/
structure ResizeImage where
  codecParameters : Option AVCodecParameters := none
  cerr : List String := []
  trace : List Event := []
  deriving DecidableEq

namespace ImageResizer

open Routine

/-- Record a library call of `resizeImage`. -/
def log (e : Event) : Routine ResizeImage Unit :=
  update fun s => { s with trace := s.trace ++ [e] }

/-- The statement `std::cerr << message << ... << std::endl`. -/
def say (message : String) : Routine ResizeImage Unit :=
  update fun s => { s with cerr := s.cerr ++ [message] }

/-- The loop
`for (i = 0; i < nb_streams; ++i) { codecParameters = streams[i]->codecpar; if (codecParameters->codec_type == AVMEDIA_TYPE_VIDEO) break; }`
on the streams still to visit, from the current value of `codecParameters`: the value
of the pointer when the loop is left. The assignment comes before the test. -/
def searchVideoStream :
    List AVCodecParameters → Option AVCodecParameters → Option AVCodecParameters
  | [], codecParameters => codecParameters
  | par :: rest, _ =>
    if par.codec_type = AVMediaType.VIDEO then some par else searchVideoStream rest (some par)

/-- The loop `while (av_read_frame(formatContext, &packet) >= 0) { ... }` of
`resizeImage`; `swsContext` tells whether the scaler pointer is set. Only packets with
`stream_index == 0` are decoded; the result of `avcodec_send_packet` is not read. A packet
gives at most one frame here: the `avcodec_receive_frame` after a frame reports no more. -/
def decodeAndScale (swsContext : Bool) : List AVPacket → Routine ResizeImage Unit
  | [] => pure ()
  | p :: rest => do
    log (.read p)
    if p.stream_index = 0 then
      log (.sendPacket p)
      log (.receiveFrame p)
      if 0 ≤ p.receiveRet then
        if !swsContext then
          -- sws_scale on a null context
          undefinedBehaviour
        else
          log (.scale p.picture)
          -- av_packet_unref(&packet)
          decodeAndScale swsContext rest
      else
        decodeAndScale swsContext rest
    else
      decodeAndScale swsContext rest

/-- Function `ImageResizer::resizeImage`; `scaled_frame_alloc` is the result of the
`av_frame_alloc()` for `scaledFrame`. The results of `av_frame_get_buffer` and
`sws_getContext` are not read; `size * originalWidth` is a product of `int`s. -/
def resizeImage (input : MediaFile) (lib : LibAv) (scaled_frame_alloc : Bool) (size : Size) :
    Routine ResizeImage Bool := do
  if input.openRet < 0 then
    say "Could not open input file: "
    return false
  else
    log (.acquire .formatContext)
    if input.findStreamInfoRet < 0 then
      say "Could not find stream info for: "
      log (.release .formatContext)
      return false
    else
      -- Find the first video stream
      update fun s => { s with codecParameters := searchVideoStream input.streams none }
      match (← self).codecParameters with
      | none =>
        say "Could not find a video stream in: "
        log (.release .formatContext)
        return false
      | some codecParameters =>
        -- Open the codec
        if !lib.find_decoder codecParameters.codec_id then
          say "Could not find codec for: "
          log (.release .formatContext)
          return false
        else if !lib.alloc_context3 then
          say "Could not allocate codec context."
          log (.release .formatContext)
          return false
        else
          log (.acquire .codecContext)
          if lib.parameters_to_context < 0 then
            say "Could not copy codec parameters to context."
            log (.release .codecContext)
            log (.release .formatContext)
            return false
          else if lib.open2 < 0 then
            say "Could not open codec."
            log (.release .codecContext)
            log (.release .formatContext)
            return false
          else
            -- Create an AVFrame for the input image
            if lib.frame_alloc then log (.acquire .frame)
            if scaled_frame_alloc then log (.acquire .scaledFrame)
            if !lib.frame_alloc || !scaled_frame_alloc then
              say "Could not allocate frames."
              log (.release .codecContext)
              log (.release .formatContext)
              return false
            else
              -- Get the original width and height, calculate new dimensions
              let originalWidth := codecParameters.width
              let originalHeight := codecParameters.height
              let productWidth := size.toInt * originalWidth
              let productHeight := size.toInt * originalHeight
              if productWidth < INT_MIN ∨ INT_MAX < productWidth ∨ productHeight < INT_MIN
                  ∨ INT_MAX < productHeight then
                -- signed overflow
                undefinedBehaviour
              else
                let newWidth := Int.tdiv productWidth 1024
                let newHeight := Int.tdiv productHeight 1024
                -- Set up the scaling context
                let swsContext := lib.sws_getContext originalWidth originalHeight newWidth newHeight
                if swsContext then log (.acquire .swsContext)
                -- Read frames and resize
                decodeAndScale swsContext input.packets
                -- Cleanup
                if swsContext then log (.release .swsContext)
                log (.release .scaledFrame)
                log (.release .frame)
                log (.release .codecContext)
                log (.release .formatContext)
                return true

end ImageResizer

/-- An input with a video stream followed by an audio stream. -/
def videoThenAudioFile : MediaFile where
  openRet := 0
  findStreamInfoRet := 0
  streams := [videoStream, audioStream]
  packets := [ { stream_index := 0, sendRet := 0, receiveRet := 0, picture := 4 } ]

/-! ## Arithmetic of the aspect-ratio calculator -/

theorem FFmpegResizer.calculateHeight_value (targetWidth originalWidth originalHeight : Int)
    (hw : 0 < originalWidth) (hh : 0 ≤ originalHeight) (ht : 0 ≤ targetWidth) :
    FFmpegResizer.calculateHeight targetWidth originalWidth originalHeight
      = if (2 * originalHeight * targetWidth + originalWidth) / (2 * originalWidth) ≤ INT_MAX
        then some ((2 * originalHeight * targetWidth + originalWidth) / (2 * originalWidth))
        else none := by
  have hwq : (0 : ℚ) < (originalWidth : ℚ) := by exact_mod_cast hw
  have hne : ((originalWidth : Int) : ℚ) ≠ 0 := ne_of_gt hwq
  have hq0 : (0 : ℚ) ≤ (originalHeight : ℚ) * (targetWidth : ℚ) / (originalWidth : ℚ) := by
    have h1 : (0 : ℚ) ≤ (originalHeight : ℚ) := by exact_mod_cast hh
    have h2 : (0 : ℚ) ≤ (targetWidth : ℚ) := by exact_mod_cast ht
    positivity
  have hfl : ⌊(originalHeight : ℚ) * (targetWidth : ℚ) / (originalWidth : ℚ) + 1 / 2⌋
      = (2 * originalHeight * targetWidth + originalWidth) / (2 * originalWidth) := by
    have e : (originalHeight : ℚ) * (targetWidth : ℚ) / (originalWidth : ℚ) + 1 / 2
        = ((2 * originalHeight * targetWidth + originalWidth : Int) : ℚ)
            / (((2 * originalWidth).toNat : ℕ) : ℚ) := by
      have hn : (((2 * originalWidth).toNat : ℕ) : ℚ) = 2 * (originalWidth : ℚ) := by
        have : (((2 * originalWidth).toNat : ℕ) : Int) = 2 * originalWidth :=
          Int.toNat_of_nonneg (by omega)
        exact_mod_cast this
      rw [hn]
      push_cast
      field_simp
      ring
    rw [e, Rat.floor_intCast_div_natCast, Int.toNat_of_nonneg (by omega)]
  have hnn : 0 ≤ (2 * originalHeight * targetWidth + originalWidth) / (2 * originalWidth) :=
    Int.ediv_nonneg (by positivity) (by omega)
  simp only [FFmpegResizer.calculateHeight, CDouble.ofInt, CDouble.mul, CDouble.div,
    CDouble.round, CDouble.toInt, ne_eq, hne, not_false_eq_true, if_true, hq0, hfl]
  have hc : (0 : ℚ) ≤
      (((2 * originalHeight * targetWidth + originalWidth) / (2 * originalWidth) : Int) : ℚ) := by
    exact_mod_cast hnn
  simp only [hc, if_true, Int.floor_intCast]
  have hlo : INT_MIN ≤ (2 * originalHeight * targetWidth + originalWidth) / (2 * originalWidth) := by
    have : INT_MIN ≤ 0 := by decide
    omega
  simp [hlo]

/-- The quotient `(2 * a + w) / (2 * w)` is within half a unit of `a / w`,
the tie going up. -/
theorem FFmpegResizer.half_up_bounds (a w : Int) (hw : 0 < w) :
    2 * ((2 * a + w) / (2 * w)) * w - w ≤ 2 * a ∧ 2 * a < 2 * ((2 * a + w) / (2 * w)) * w + w := by
  have h1 := Int.emod_add_ediv (2 * a + w) (2 * w)
  have h2 := Int.emod_nonneg (2 * a + w) (show (2 * w) ≠ 0 by omega)
  have h3 := Int.emod_lt_of_pos (2 * a + w) (show 0 < 2 * w by omega)
  constructor <;> nlinarith

theorem FFmpegResizer.calculateHeight_zero_width (targetWidth originalHeight : Int) :
    FFmpegResizer.calculateHeight targetWidth 0 originalHeight = none := by
  simp only [FFmpegResizer.calculateHeight, CDouble.ofInt, CDouble.mul, CDouble.div]
  simp only [Int.cast_zero, ne_eq, not_true_eq_false, if_false]
  split_ifs <;> rfl

theorem roundHalfEven_error (m : ℚ) : |((roundHalfEven m : Int) : ℚ) - m| ≤ 1 / 2 := by
  have h1 := Int.floor_le m
  have h2 := Int.lt_floor_add_one m
  unfold roundHalfEven
  split_ifs with c1 c2 c3
  · rw [abs_le]; constructor <;> linarith
  · rw [abs_le]; push_cast; constructor <;> linarith
  · rw [abs_le]; constructor <;> linarith
  · rw [abs_le]; push_cast; constructor <;> linarith

theorem roundHalfEven_intCast (k : Int) : roundHalfEven (k : ℚ) = k := by
  unfold roundHalfEven
  simp

theorem roundHalfEven_eq_of_abs_lt (m : ℚ) (k : Int) (h : |(k : ℚ) - m| < 1 / 2) :
    roundHalfEven m = k := by
  rw [abs_lt] at h
  have h1 := Int.floor_le m
  have h2 := Int.lt_floor_add_one m
  unfold roundHalfEven
  split_ifs with c1 c2 c3
  · have h3 : ((k - ⌊m⌋ : Int) : ℚ) < 1 := by push_cast; linarith [h.2]
    have h4 : ((-1 : Int) : ℚ) < ((k - ⌊m⌋ : Int) : ℚ) := by push_cast; linarith [h.1]
    have h5 : k - ⌊m⌋ < 1 := by exact_mod_cast h3
    have h6 : -1 < k - ⌊m⌋ := by exact_mod_cast h4
    omega
  · have h3 : ((k - ⌊m⌋ : Int) : ℚ) < 2 := by push_cast; linarith [h.2]
    have h4 : ((0 : Int) : ℚ) < ((k - ⌊m⌋ : Int) : ℚ) := by push_cast; linarith [h.1]
    have h5 : k - ⌊m⌋ < 2 := by exact_mod_cast h3
    have h6 : 0 < k - ⌊m⌋ := by exact_mod_cast h4
    omega
  · exfalso
    have e : m - ⌊m⌋ = 1 / 2 := le_antisymm (not_lt.mp c2) (not_lt.mp c1)
    have h3 : ((k - ⌊m⌋ : Int) : ℚ) < 1 := by push_cast; linarith [h.2]
    have h4 : ((0 : Int) : ℚ) < ((k - ⌊m⌋ : Int) : ℚ) := by push_cast; linarith [h.1]
    have h5 : k - ⌊m⌋ < 1 := by exact_mod_cast h3
    have h6 : 0 < k - ⌊m⌋ := by exact_mod_cast h4
    omega
  · exfalso
    have e : m - ⌊m⌋ = 1 / 2 := le_antisymm (not_lt.mp c2) (not_lt.mp c1)
    have h3 : ((k - ⌊m⌋ : Int) : ℚ) < 1 := by push_cast; linarith [h.2]
    have h4 : ((0 : Int) : ℚ) < ((k - ⌊m⌋ : Int) : ℚ) := by push_cast; linarith [h.1]
    have h5 : k - ⌊m⌋ < 1 := by exact_mod_cast h3
    have h6 : 0 < k - ⌊m⌋ := by exact_mod_cast h4
    omega

/-- Rounding of a positive real whose binary exponent `L` is known and at least -1022,
the rounded value staying below `2 ^ 1024`. -/
theorem CDouble.ofRat_of_exponent (x : ℚ) (L : Int) (hL : -1022 ≤ L)
    (h1 : (2 : ℚ) ^ L ≤ x) (h2 : x < (2 : ℚ) ^ (L + 1))
    (h3 : |((roundHalfEven (x / 2 ^ (L - 52)) : Int) : ℚ) * 2 ^ (L - 52)| < 2 ^ (1024 : Int)) :
    CDouble.ofRat x
      = CDouble.finite (((roundHalfEven (x / 2 ^ (L - 52)) : Int) : ℚ) * 2 ^ (L - 52)) := by
  have hx : 0 < x := lt_of_lt_of_le (by positivity) h1
  have hlog : Int.log 2 x = L := by
    apply le_antisymm
    · have := (Int.lt_zpow_iff_log_lt (R := ℚ) (b := 2) (by norm_num) hx (x := L + 1)).mp
        (by exact_mod_cast h2)
      omega
    · exact (Int.zpow_le_iff_le_log (R := ℚ) (b := 2) (by norm_num) hx).mp (by exact_mod_cast h1)
  unfold CDouble.ofRat
  rw [if_neg (ne_of_gt hx), abs_of_pos hx, hlog]
  have hmax : max (L - 52) (-1074) = L - 52 := max_eq_left (by omega)
  simp only [hmax]
  rw [if_neg (not_le.mpr h3)]

/-- Rounding in the normal range: the value is finite and within a relative `2 ^ -53`. -/
theorem CDouble.ofRat_normal (x : ℚ) (hlo : (2 : ℚ) ^ (-1022 : Int) ≤ x)
    (hhi : x < (2 : ℚ) ^ (1023 : Int)) :
    ∃ y : ℚ, CDouble.ofRat x = CDouble.finite y ∧ |y - x| ≤ x / 2 ^ 53 := by
  have hx : 0 < x := lt_of_lt_of_le (by positivity) hlo
  have h1 : (2 : ℚ) ^ Int.log 2 x ≤ x := by
    exact_mod_cast Int.zpow_log_le_self (R := ℚ) (b := 2) (by norm_num) hx
  have h2 : x < (2 : ℚ) ^ (Int.log 2 x + 1) := by
    exact_mod_cast Int.lt_zpow_succ_log_self (R := ℚ) (b := 2) (by norm_num) x
  have hL : -1022 ≤ Int.log 2 x :=
    (Int.zpow_le_iff_le_log (R := ℚ) (b := 2) (by norm_num) hx).mp (by exact_mod_cast hlo)
  generalize Int.log 2 x = L at h1 h2 hL
  have he : (0 : ℚ) < 2 ^ (L - 52) := by positivity
  have herr := roundHalfEven_error (x / 2 ^ (L - 52))
  have hpow : (2 : ℚ) ^ (L - 52) = 2 ^ L / 2 ^ 53 * 2 := by
    rw [zpow_sub₀ (by norm_num)]
    norm_num
    ring
  have key : |((roundHalfEven (x / 2 ^ (L - 52)) : Int) : ℚ) * 2 ^ (L - 52) - x| ≤ x / 2 ^ 53 := by
    have e : ((roundHalfEven (x / 2 ^ (L - 52)) : Int) : ℚ) * 2 ^ (L - 52) - x
        = (((roundHalfEven (x / 2 ^ (L - 52)) : Int) : ℚ) - x / 2 ^ (L - 52)) * 2 ^ (L - 52) := by
      field_simp
    rw [e, abs_mul, abs_of_pos he]
    have h4 : |((roundHalfEven (x / 2 ^ (L - 52)) : Int) : ℚ) - x / 2 ^ (L - 52)| * 2 ^ (L - 52)
        ≤ 1 / 2 * 2 ^ (L - 52) := mul_le_mul_of_nonneg_right herr (le_of_lt he)
    have h5 : (1 : ℚ) / 2 * 2 ^ (L - 52) = 2 ^ L / 2 ^ 53 := by rw [hpow]; ring
    have h6 : (2 : ℚ) ^ L / 2 ^ 53 ≤ x / 2 ^ 53 := div_le_div_of_nonneg_right h1 (by positivity)
    linarith
  refine ⟨_, CDouble.ofRat_of_exponent x L hL h1 h2 ?_, key⟩
  have h7 := abs_le.mp key
  have h8 : x / 2 ^ 53 ≤ x := div_le_self (le_of_lt hx) (by norm_num)
  have h9 : (2 : ℚ) ^ (1024 : Int) = 2 * 2 ^ (1023 : Int) := by norm_num
  rw [abs_lt, h9]
  constructor <;> linarith [h7.1, h7.2]

/-- A positive multiple `a / 2 ^ j` of a power of two with `a` below `2 ^ 53` is a binary64
value: rounding leaves it unchanged. -/
theorem CDouble.ofRat_dyadic (a : Int) (j : Nat) (ha : 0 < a) (ha2 : a < 2 ^ 53) (hj : j ≤ 1) :
    CDouble.ofRat ((a : ℚ) / 2 ^ j) = CDouble.finite ((a : ℚ) / 2 ^ j) := by
  have haq : (0 : ℚ) < (a : ℚ) := by exact_mod_cast ha
  have haq1 : (1 : ℚ) ≤ (a : ℚ) := by exact_mod_cast ha
  have haq2 : (a : ℚ) < 2 ^ 53 := by exact_mod_cast ha2
  have hx : (0 : ℚ) < (a : ℚ) / 2 ^ j := by positivity
  have h1 : (2 : ℚ) ^ Int.log 2 ((a : ℚ) / 2 ^ j) ≤ (a : ℚ) / 2 ^ j := by
    exact_mod_cast Int.zpow_log_le_self (R := ℚ) (b := 2) (by norm_num) hx
  have h2 : (a : ℚ) / 2 ^ j < (2 : ℚ) ^ (Int.log 2 ((a : ℚ) / 2 ^ j) + 1) := by
    exact_mod_cast Int.lt_zpow_succ_log_self (R := ℚ) (b := 2) (by norm_num) ((a : ℚ) / 2 ^ j)
  have hLlo : -(j : Int) ≤ Int.log 2 ((a : ℚ) / 2 ^ j) := by
    apply (Int.zpow_le_iff_le_log (R := ℚ) (b := 2) (by norm_num) hx).mp
    have : ((2 : ℕ) : ℚ) ^ (-(j : Int)) = 1 / 2 ^ j := by
      rw [zpow_neg, zpow_natCast]; norm_num
    rw [this]
    exact div_le_div_of_nonneg_right haq1 (by positivity)
  have hLhi : Int.log 2 ((a : ℚ) / 2 ^ j) < 53 - (j : Int) := by
    apply (Int.lt_zpow_iff_log_lt (R := ℚ) (b := 2) (by norm_num) hx).mp
    have : ((2 : ℕ) : ℚ) ^ (53 - (j : Int)) = 2 ^ 53 / 2 ^ j := by
      rw [zpow_sub₀ (by norm_num), zpow_natCast]; norm_num
    rw [this]
    exact div_lt_div_of_pos_right haq2 (by positivity)
  generalize Int.log 2 ((a : ℚ) / 2 ^ j) = L at h1 h2 hLlo hLhi
  obtain ⟨n, hn⟩ : ∃ n : Nat, (n : Int) = 52 - L - j := ⟨(52 - L - j).toNat, by omega⟩
  have hm : (a : ℚ) / 2 ^ j / 2 ^ (L - 52) = ((a * 2 ^ n : Int) : ℚ) := by
    have e1 : (2 : ℚ) ^ (L - 52) = 1 / (2 ^ j * 2 ^ n) := by
      have : L - 52 = -((j : Int) + (n : Int)) := by omega
      rw [this, zpow_neg, zpow_add₀ (by norm_num), zpow_natCast, zpow_natCast]
      norm_num
    rw [e1]
    push_cast
    field_simp
    ring
  have hy : ((roundHalfEven ((a : ℚ) / 2 ^ j / 2 ^ (L - 52)) : Int) : ℚ) * 2 ^ (L - 52)
      = (a : ℚ) / 2 ^ j := by
    rw [hm, roundHalfEven_intCast, ← hm]
    field_simp
    ring
  have hfin := CDouble.ofRat_of_exponent ((a : ℚ) / 2 ^ j) L (by omega) h1 h2
    (by
      rw [hy, abs_of_pos hx]
      have : (a : ℚ) / 2 ^ j ≤ (a : ℚ) := div_le_self (le_of_lt haq) (one_le_pow₀ (by norm_num))
      have h9 : (2 : ℚ) ^ 53 ≤ (2 : ℚ) ^ (1024 : Int) := by norm_num
      linarith)
  rw [hfin, hy]

theorem CDouble.ofRat_intCast (n : Int) (h0 : 0 ≤ n) (h1 : n < 2 ^ 53) :
    CDouble.ofRat (n : ℚ) = CDouble.finite (n : ℚ) := by
  rcases eq_or_lt_of_le h0 with h | h
  · subst h
    simp [CDouble.ofRat]
  · have := CDouble.ofRat_dyadic n 0 h h1 (by norm_num)
    simpa using this

theorem CDouble.toInt_round_nonneg (q : ℚ) (hq : 0 ≤ q) :
    CDouble.toInt (CDouble.round (CDouble.finite q))
      = if ⌊q + 1 / 2⌋ ≤ INT_MAX then some ⌊q + 1 / 2⌋ else none := by
  have hf : 0 ≤ ⌊q + 1 / 2⌋ := Int.floor_nonneg.mpr (by linarith)
  have hc : (0 : ℚ) ≤ ((⌊q + 1 / 2⌋ : Int) : ℚ) := by exact_mod_cast hf
  simp only [CDouble.round, CDouble.toInt, hq, if_true, hc, Int.floor_intCast]
  have hlo : INT_MIN ≤ ⌊q + 1 / 2⌋ := by
    have : INT_MIN ≤ 0 := by decide
    omega
  simp only [hlo, true_and]

/-- The binary64 evaluation of `calculateHeight` on `int` arguments with a positive product:
the conversions are exact, the product `P` and the quotient `Q` are each within a relative
`2 ^ -53` of the exact result of their operation, and the product is exact below `2 ^ 53`. -/
theorem FFmpegResizer.calculateHeightBinary64_steps (targetWidth originalWidth originalHeight : Int)
    (hw : 0 < originalWidth) (hwm : originalWidth ≤ INT_MAX)
    (hh : 0 ≤ originalHeight) (hhm : originalHeight ≤ INT_MAX)
    (ht : 0 ≤ targetWidth) (htm : targetWidth ≤ INT_MAX)
    (hp : 0 < originalHeight * targetWidth) :
    ∃ P Q : ℚ,
      |P - (originalHeight : ℚ) * targetWidth| ≤ (originalHeight : ℚ) * targetWidth / 2 ^ 53
      ∧ (originalHeight * targetWidth < 2 ^ 53 → P = (originalHeight : ℚ) * targetWidth)
      ∧ 0 < P
      ∧ CDouble.ofRat (P / originalWidth) = CDouble.finite Q
      ∧ |Q - P / originalWidth| ≤ P / originalWidth / 2 ^ 53
      ∧ FFmpegResizer.calculateHeightBinary64 targetWidth originalWidth originalHeight
          = CDouble.toInt (CDouble.round (CDouble.finite Q)) := by
  simp only [INT_MAX] at hwm hhm htm
  have hwq : (0 : ℚ) < (originalWidth : ℚ) := by exact_mod_cast hw
  have hwq1 : (1 : ℚ) ≤ (originalWidth : ℚ) := by exact_mod_cast hw
  have hwq2 : (originalWidth : ℚ) ≤ 2147483647 := by exact_mod_cast hwm
  have hhq : (0 : ℚ) ≤ (originalHeight : ℚ) := by exact_mod_cast hh
  have hhq2 : (originalHeight : ℚ) ≤ 2147483647 := by exact_mod_cast hhm
  have htq : (0 : ℚ) ≤ (targetWidth : ℚ) := by exact_mod_cast ht
  have htq2 : (targetWidth : ℚ) ≤ 2147483647 := by exact_mod_cast htm
  have hpq1 : (1 : ℚ) ≤ (originalHeight : ℚ) * targetWidth := by exact_mod_cast hp
  have hpq2 : (originalHeight : ℚ) * targetWidth ≤ 2147483647 * 2147483647 :=
    mul_le_mul hhq2 htq2 htq (by norm_num)
  have c1 : CDouble.ofIntBinary64 originalHeight = CDouble.finite originalHeight :=
    CDouble.ofRat_intCast originalHeight hh (by omega)
  have c2 : CDouble.ofIntBinary64 targetWidth = CDouble.finite targetWidth :=
    CDouble.ofRat_intCast targetWidth ht (by omega)
  have c3 : CDouble.ofIntBinary64 originalWidth = CDouble.finite originalWidth :=
    CDouble.ofRat_intCast originalWidth (le_of_lt hw) (by omega)
  obtain ⟨P, hP, hPerr⟩ := CDouble.ofRat_normal ((originalHeight : ℚ) * targetWidth)
    (le_trans (by norm_num) hpq1) (lt_of_le_of_lt hpq2 (by norm_num))
  have hPb := abs_le.mp hPerr
  have hP0 : 0 < P := by
    have : (originalHeight : ℚ) * targetWidth / 2 ^ 53 ≤ (originalHeight : ℚ) * targetWidth / 2 :=
      div_le_div_of_nonneg_left (by linarith) (by norm_num) (by norm_num)
    linarith [hPb.1]
  have hPlo : (1 : ℚ) / 2 ≤ P := by
    have : (originalHeight : ℚ) * targetWidth / 2 ^ 53 ≤ (originalHeight : ℚ) * targetWidth / 2 :=
      div_le_div_of_nonneg_left (by linarith) (by norm_num) (by norm_num)
    linarith [hPb.1]
  have hPhi : P ≤ 2 * (2147483647 * 2147483647) := by
    have : (originalHeight : ℚ) * targetWidth / 2 ^ 53 ≤ (originalHeight : ℚ) * targetWidth :=
      div_le_self (by linarith) (by norm_num)
    linarith [hPb.2]
  have hq1 : (2 : ℚ) ^ (-1022 : Int) ≤ P / originalWidth := by
    have h1 : (1 : ℚ) / 2 / 2147483647 ≤ P / originalWidth :=
      div_le_div₀ (le_of_lt hP0) hPlo hwq hwq2
    exact le_trans (by norm_num) h1
  have hq2 : P / originalWidth < (2 : ℚ) ^ (1023 : Int) := by
    have h1 : P / originalWidth ≤ P := div_le_self (le_of_lt hP0) hwq1
    exact lt_of_le_of_lt (le_trans h1 hPhi) (by norm_num)
  obtain ⟨Q, hQ, hQerr⟩ := CDouble.ofRat_normal (P / originalWidth) hq1 hq2
  refine ⟨P, Q, hPerr, ?_, hP0, hQ, hQerr, ?_⟩
  · intro hsmall
    have hex := CDouble.ofRat_intCast (originalHeight * targetWidth) (le_of_lt hp) hsmall
    push_cast at hex
    rw [hP] at hex
    exact CDouble.finite.inj hex
  · have hne : (originalWidth : ℚ) ≠ 0 := ne_of_gt hwq
    simp only [FFmpegResizer.calculateHeightBinary64, c1, c2, c3, CDouble.mulBinary64,
      CDouble.divBinary64, CDouble.mul, CDouble.toBinary64, hP, CDouble.div, ne_eq, hne,
      not_false_eq_true, if_true, hQ]

theorem FFmpegResizer.calculateHeightBinary64_zero_product
    (targetWidth originalWidth originalHeight : Int)
    (hw : 0 < originalWidth) (hwm : originalWidth ≤ INT_MAX)
    (hh : 0 ≤ originalHeight) (hhm : originalHeight ≤ INT_MAX)
    (ht : 0 ≤ targetWidth) (htm : targetWidth ≤ INT_MAX)
    (hp : originalHeight * targetWidth = 0) :
    FFmpegResizer.calculateHeightBinary64 targetWidth originalWidth originalHeight = some 0 := by
  simp only [INT_MAX] at hwm hhm htm
  have hwq : (0 : ℚ) < (originalWidth : ℚ) := by exact_mod_cast hw
  have hne : (originalWidth : ℚ) ≠ 0 := ne_of_gt hwq
  have c1 : CDouble.ofIntBinary64 originalHeight = CDouble.finite originalHeight :=
    CDouble.ofRat_intCast originalHeight hh (by omega)
  have c2 : CDouble.ofIntBinary64 targetWidth = CDouble.finite targetWidth :=
    CDouble.ofRat_intCast targetWidth ht (by omega)
  have c3 : CDouble.ofIntBinary64 originalWidth = CDouble.finite originalWidth :=
    CDouble.ofRat_intCast originalWidth (le_of_lt hw) (by omega)
  have hpq : (originalHeight : ℚ) * targetWidth = 0 := by exact_mod_cast hp
  have z : CDouble.ofRat 0 = CDouble.finite 0 := by simp [CDouble.ofRat]
  simp only [FFmpegResizer.calculateHeightBinary64, c1, c2, c3, CDouble.mulBinary64,
    CDouble.divBinary64, CDouble.mul, CDouble.toBinary64, hpq, z, CDouble.div, ne_eq, hne,
    not_false_eq_true, if_true, zero_div]
  rw [CDouble.toInt_round_nonneg 0 (le_refl 0)]
  norm_num [INT_MAX]

/-- The binary64 quotient `Q` of the evaluation is within a relative `3 / 2 ^ 53` of the exact
quotient of the arguments. -/
theorem FFmpegResizer.calculateHeightBinary64_quotient
    (targetWidth originalWidth originalHeight : Int)
    (hw : 0 < originalWidth) (hwm : originalWidth ≤ INT_MAX)
    (hh : 0 ≤ originalHeight) (hhm : originalHeight ≤ INT_MAX)
    (ht : 0 ≤ targetWidth) (htm : targetWidth ≤ INT_MAX)
    (hp : 0 < originalHeight * targetWidth) :
    ∃ Q : ℚ, 0 ≤ Q
      ∧ |Q - (originalHeight : ℚ) * targetWidth / originalWidth|
          ≤ 3 * ((originalHeight : ℚ) * targetWidth / originalWidth) / 2 ^ 53
      ∧ FFmpegResizer.calculateHeightBinary64 targetWidth originalWidth originalHeight
          = if ⌊Q + 1 / 2⌋ ≤ INT_MAX then some ⌊Q + 1 / 2⌋ else none := by
  obtain ⟨P, Q, hPerr, -, hP0, -, hQerr, hcalc⟩ :=
    FFmpegResizer.calculateHeightBinary64_steps targetWidth originalWidth originalHeight
      hw hwm hh hhm ht htm hp
  have hwq : (0 : ℚ) < (originalWidth : ℚ) := by exact_mod_cast hw
  have hpq : (0 : ℚ) < (originalHeight : ℚ) * targetWidth := by exact_mod_cast hp
  have hq0 : (0 : ℚ) < (originalHeight : ℚ) * targetWidth / originalWidth := div_pos hpq hwq
  have hPb := abs_le.mp hPerr
  have hQb := abs_le.mp hQerr
  have ha : |P / originalWidth - (originalHeight : ℚ) * targetWidth / originalWidth|
      ≤ (originalHeight : ℚ) * targetWidth / originalWidth / 2 ^ 53 := by
    have e : P / originalWidth - (originalHeight : ℚ) * targetWidth / originalWidth
        = (P - (originalHeight : ℚ) * targetWidth) / originalWidth := by ring
    have e2 : (originalHeight : ℚ) * targetWidth / originalWidth / 2 ^ 53
        = (originalHeight : ℚ) * targetWidth / 2 ^ 53 / originalWidth := by ring
    rw [e, e2, abs_div, abs_of_pos hwq]
    exact div_le_div_of_nonneg_right hPerr (le_of_lt hwq)
  have hab := abs_le.mp ha
  generalize (originalHeight : ℚ) * targetWidth / originalWidth = q at hq0 ha hab ⊢
  generalize P / (originalWidth : ℚ) = a at hQerr hQb ha hab
  have hu : q / 2 ^ 53 ≤ q := div_le_self (le_of_lt hq0) (by norm_num)
  have ha2 : a ≤ 2 * q := by linarith [hab.2]
  have ha0 : 0 ≤ a := by linarith [hab.1]
  have hau : a / 2 ^ 53 ≤ 2 * q / 2 ^ 53 := div_le_div_of_nonneg_right ha2 (by positivity)
  have hQ0 : 0 ≤ Q := by
    have : a / 2 ^ 53 ≤ a := div_le_self ha0 (by norm_num)
    linarith [hQb.1]
  refine ⟨Q, hQ0, ?_, ?_⟩
  · rw [abs_le]
    constructor
    · linarith [hQb.1, hab.1]
    · linarith [hQb.2, hab.2]
  · rw [hcalc, CDouble.toInt_round_nonneg Q hQ0]

/-- Below a product of `2 ^ 52` the binary64 evaluation of `calculateHeight` on `int`
arguments gives what exact arithmetic gives. -/
theorem FFmpegResizer.calculateHeightBinary64_eq_exact
    (targetWidth originalWidth originalHeight : Int)
    (hw : 0 < originalWidth) (hwm : originalWidth ≤ INT_MAX)
    (hh : 0 ≤ originalHeight) (hhm : originalHeight ≤ INT_MAX)
    (ht : 0 ≤ targetWidth) (htm : targetWidth ≤ INT_MAX)
    (hsmall : originalHeight * targetWidth < 2 ^ 52) :
    FFmpegResizer.calculateHeightBinary64 targetWidth originalWidth originalHeight
      = FFmpegResizer.calculateHeight targetWidth originalWidth originalHeight := by
  rw [FFmpegResizer.calculateHeight_value targetWidth originalWidth originalHeight hw hh ht]
  rcases eq_or_lt_of_le (mul_nonneg hh ht) with hp | hp
  · rw [FFmpegResizer.calculateHeightBinary64_zero_product targetWidth originalWidth
      originalHeight hw hwm hh hhm ht htm hp.symm]
    have e : 2 * originalHeight * targetWidth + originalWidth = originalWidth := by
      rw [mul_assoc, ← hp]; ring
    have e2 : originalWidth / (2 * originalWidth) = 0 :=
      Int.ediv_eq_zero_of_lt (le_of_lt hw) (by omega)
    rw [e, e2]
    simp [INT_MAX]
  · obtain ⟨P, Q, -, hPex, hP0, hQ, hQerr, hcalc⟩ :=
      FFmpegResizer.calculateHeightBinary64_steps targetWidth originalWidth originalHeight
        hw hwm hh hhm ht htm hp
    have hPe : P = (originalHeight : ℚ) * targetWidth := hPex (by omega)
    have hwq : (0 : ℚ) < (originalWidth : ℚ) := by exact_mod_cast hw
    have hwq1 : (1 : ℚ) ≤ (originalWidth : ℚ) := by exact_mod_cast hw
    have hpq : (0 : ℚ) < (originalHeight : ℚ) * targetWidth := by exact_mod_cast hp
    have hpq2 : (originalHeight : ℚ) * targetWidth < 2 ^ 52 := by exact_mod_cast hsmall
    have hd := Int.ediv_add_emod (2 * originalHeight * targetWidth + originalWidth)
      (2 * originalWidth)
    have hr0 := Int.emod_nonneg (2 * originalHeight * targetWidth + originalWidth)
      (show (2 * originalWidth) ≠ 0 by omega)
    have hr1 := Int.emod_lt_of_pos (2 * originalHeight * targetWidth + originalWidth)
      (show 0 < 2 * originalWidth by omega)
    generalize (2 * originalHeight * targetWidth + originalWidth) / (2 * originalWidth) = n
      at hd ⊢
    generalize (2 * originalHeight * targetWidth + originalWidth) % (2 * originalWidth) = r
      at hd hr0 hr1
    have hdq : 2 * (originalWidth : ℚ) * n + r
        = 2 * originalHeight * targetWidth + originalWidth := by exact_mod_cast hd
    have hrq0 : (0 : ℚ) ≤ (r : ℚ) := by exact_mod_cast hr0
    have hrq1 : (r : ℚ) + 1 ≤ 2 * originalWidth := by exact_mod_cast hr1
    -- the exact quotient, in units of `d = 1 / (2 * originalWidth)`
    have hd0 : (0 : ℚ) < 1 / (2 * (originalWidth : ℚ)) := by positivity
    have hq : P / originalWidth + 1 / 2 = n + r * (1 / (2 * (originalWidth : ℚ))) := by
      rw [hPe]
      field_simp
      linear_combination (-(2 * (originalWidth : ℚ))) * hdq
    have hqd : P / originalWidth / 2 ^ 53 < 1 / (2 * (originalWidth : ℚ)) := by
      have e : P / originalWidth / 2 ^ 53
          = (originalHeight : ℚ) * targetWidth / 2 ^ 52 * (1 / (2 * (originalWidth : ℚ))) := by
        rw [hPe, div_div, div_mul_div_comm, mul_one]
        congr 1
        ring
      rw [e]
      have : (originalHeight : ℚ) * targetWidth / 2 ^ 52 < 1 := by
        rw [div_lt_one (by norm_num)]
        exact hpq2
      calc (originalHeight : ℚ) * targetWidth / 2 ^ 52 * (1 / (2 * (originalWidth : ℚ)))
          < 1 * (1 / (2 * (originalWidth : ℚ))) := mul_lt_mul_of_pos_right this hd0
        _ = 1 / (2 * (originalWidth : ℚ)) := one_mul _
    have hdw : 2 * (originalWidth : ℚ) * (1 / (2 * (originalWidth : ℚ))) = 1 := by
      field_simp
    have hrd : ((r : ℚ) + 1) * (1 / (2 * (originalWidth : ℚ))) ≤ 1 := by
      calc ((r : ℚ) + 1) * (1 / (2 * (originalWidth : ℚ)))
          ≤ 2 * (originalWidth : ℚ) * (1 / (2 * (originalWidth : ℚ))) :=
            mul_le_mul_of_nonneg_right hrq1 (le_of_lt hd0)
        _ = 1 := hdw
    have hQb := abs_le.mp hQerr
    have hQ0 : 0 ≤ Q := by
      have h1 : 0 ≤ P / originalWidth := le_of_lt (div_pos hP0 hwq)
      have : P / originalWidth / 2 ^ 53 ≤ P / originalWidth := div_le_self h1 (by norm_num)
      linarith [hQb.1]
    have hfloor : ⌊Q + 1 / 2⌋ = n := by
      rw [Int.floor_eq_iff]
      constructor
      · rcases eq_or_lt_of_le hr0 with hr | hr
        · -- a tie: the quotient is a binary64 value
          have hqn : P / originalWidth = ((2 * n - 1 : Int) : ℚ) / 2 ^ 1 := by
            have : (r : ℚ) = 0 := by exact_mod_cast hr.symm
            rw [this, zero_mul, add_zero] at hq
            push_cast
            linarith
          have hqpos : (0 : ℚ) < ((2 * n - 1 : Int) : ℚ) / 2 ^ 1 := by
            rw [← hqn]; exact div_pos hP0 hwq
          have hn1 : (0 : ℚ) < ((2 * n - 1 : Int) : ℚ) := by
            have := hqpos
            norm_num at this
            linarith
          have hn2 : ((2 * n - 1 : Int) : ℚ) < 2 ^ 53 := by
            have h1 : P / originalWidth ≤ P := div_le_self (le_of_lt hP0) hwq1
            have h2 : ((2 * n - 1 : Int) : ℚ) = 2 * (P / originalWidth) := by
              rw [hqn]; ring
            rw [h2, hPe] at *
            linarith
          have hex := CDouble.ofRat_dyadic (2 * n - 1) 1 (by exact_mod_cast hn1)
            (by exact_mod_cast hn2) (le_refl 1)
          rw [← hqn, hQ] at hex
          have hQe : Q = P / originalWidth := CDouble.finite.inj hex
          rw [hQe]
          have : (r : ℚ) = 0 := by exact_mod_cast hr.symm
          rw [this, zero_mul, add_zero] at hq
          linarith
        · have hrq : (1 : ℚ) ≤ (r : ℚ) := by exact_mod_cast hr
          have : 1 * (1 / (2 * (originalWidth : ℚ))) ≤ (r : ℚ) * (1 / (2 * (originalWidth : ℚ))) :=
            mul_le_mul_of_nonneg_right hrq (le_of_lt hd0)
          linarith [hQb.1]
      · have : ((r : ℚ) + 1) * (1 / (2 * (originalWidth : ℚ)))
            = (r : ℚ) * (1 / (2 * (originalWidth : ℚ))) + 1 / (2 * (originalWidth : ℚ)) := by ring
        linarith [hQb.2]
    rw [hcalc, CDouble.toInt_round_nonneg Q hQ0, hfloor]

/-- For the preset widths the binary64 evaluation of `calculateHeight` on `int` dimensions is
the exact one. -/
theorem FFmpegResizer.calculateHeightBinary64_preset (targetWidth originalWidth originalHeight : Int)
    (hw : 0 < originalWidth) (hwm : originalWidth ≤ INT_MAX)
    (hh : 0 ≤ originalHeight) (hhm : originalHeight ≤ INT_MAX)
    (ht : targetWidth = SMALL_WIDTH ∨ targetWidth = MEDIUM_WIDTH ∨ targetWidth = LARGE_WIDTH) :
    FFmpegResizer.calculateHeightBinary64 targetWidth originalWidth originalHeight
      = FFmpegResizer.calculateHeight targetWidth originalWidth originalHeight := by
  simp only [SMALL_WIDTH, MEDIUM_WIDTH, LARGE_WIDTH] at ht
  have hhm2 := hhm
  simp only [INT_MAX] at hhm2
  apply FFmpegResizer.calculateHeightBinary64_eq_exact targetWidth originalWidth originalHeight
    hw hwm hh hhm (by omega) (by simp only [INT_MAX]; omega)
  rcases ht with h | h | h <;> subst h <;> omega

/-- The binary64 evaluation of `calculateHeight` when the product is below `2 ^ 53`, in terms
of the rounded quotient. -/
theorem FFmpegResizer.calculateHeightBinary64_of_quotient
    (targetWidth originalWidth originalHeight : Int)
    (hw : 0 < originalWidth) (hwm : originalWidth ≤ INT_MAX)
    (hh : 0 ≤ originalHeight) (hhm : originalHeight ≤ INT_MAX)
    (ht : 0 ≤ targetWidth) (htm : targetWidth ≤ INT_MAX)
    (hp : 0 < originalHeight * targetWidth) (hsmall : originalHeight * targetWidth < 2 ^ 53)
    (Q : ℚ) (hQ0 : 0 ≤ Q)
    (hQ : CDouble.ofRat (((originalHeight * targetWidth : Int) : ℚ) / ((originalWidth : Int) : ℚ))
      = CDouble.finite Q) :
    FFmpegResizer.calculateHeightBinary64 targetWidth originalWidth originalHeight
      = if ⌊Q + 1 / 2⌋ ≤ INT_MAX then some ⌊Q + 1 / 2⌋ else none := by
  obtain ⟨P, Q2, -, hPex, -, hQ2, -, hcalc⟩ :=
    FFmpegResizer.calculateHeightBinary64_steps targetWidth originalWidth originalHeight
      hw hwm hh hhm ht htm hp
  rw [hPex hsmall] at hQ2
  push_cast at hQ
  rw [hQ] at hQ2
  rw [hcalc, ← CDouble.finite.inj hQ2, CDouble.toInt_round_nonneg Q hQ0]

/-- With the double intermediate taken as exact, a returned height is within half a pixel of
the exact ratio-preserving height. -/
theorem FFmpegResizer.calculateHeight_half_pixel (targetWidth originalWidth originalHeight : Int)
    (hw : 0 < originalWidth) (hh : 0 ≤ originalHeight) (ht : 0 ≤ targetWidth) (H : Int)
    (hH : FFmpegResizer.calculateHeight targetWidth originalWidth originalHeight = some H) :
    2 * |H * originalWidth - originalHeight * targetWidth| ≤ originalWidth := by
  have hv := FFmpegResizer.calculateHeight_value targetWidth originalWidth originalHeight hw hh ht
  have hb := FFmpegResizer.half_up_bounds (originalHeight * targetWidth) originalWidth hw
  rw [← mul_assoc] at hb
  rw [hv] at hH
  split_ifs at hH with hr
  have hHe : (2 * originalHeight * targetWidth + originalWidth) / (2 * originalWidth) = H :=
    Option.some.inj hH
  rw [hHe] at hb
  have habs : |H * originalWidth - originalHeight * targetWidth| * 2 ≤ originalWidth := by
    rcases abs_cases (H * originalWidth - originalHeight * targetWidth) with ⟨h, -⟩ | ⟨h, -⟩ <;>
      rw [h] <;> nlinarith [hb.1, hb.2]
  linarith

/-- C2, amended: for `int` arguments with `originalWidth > 0` and non-negative `originalHeight`
and `targetWidth`, every height `H` that `calculateHeight` returns in binary64 arithmetic
satisfies `|H*originalWidth - originalHeight*targetWidth| < originalWidth` (less than one pixel
from the exact ratio-preserving height); when `originalHeight*targetWidth < 2^52` it satisfies
`2 * |H*originalWidth - originalHeight*targetWidth| ≤ originalWidth` (at most half a pixel); and
a height is returned whenever the exactly rounded value is below `INT_MAX`. -/
theorem calculateHeightBinary64_within_one_pixel (targetWidth originalWidth originalHeight : Int)
    (hw : 0 < originalWidth) (hwm : originalWidth ≤ INT_MAX)
    (hh : 0 ≤ originalHeight) (hhm : originalHeight ≤ INT_MAX)
    (ht : 0 ≤ targetWidth) (htm : targetWidth ≤ INT_MAX) :
    (∀ H, FFmpegResizer.calculateHeightBinary64 targetWidth originalWidth originalHeight = some H →
        |H * originalWidth - originalHeight * targetWidth| < originalWidth)
      ∧ (originalHeight * targetWidth < 2 ^ 52 →
          ∀ H, FFmpegResizer.calculateHeightBinary64 targetWidth originalWidth originalHeight
              = some H →
            2 * |H * originalWidth - originalHeight * targetWidth| ≤ originalWidth)
      ∧ ((2 * originalHeight * targetWidth + originalWidth) / (2 * originalWidth) < INT_MAX →
          ∃ H, FFmpegResizer.calculateHeightBinary64 targetWidth originalWidth originalHeight
              = some H) := by
  have hwq : (0 : ℚ) < (originalWidth : ℚ) := by exact_mod_cast hw
  refine ⟨?_, ?_, ?_⟩
  · intro H hH
    rcases eq_or_lt_of_le (mul_nonneg hh ht) with hp | hp
    · rw [FFmpegResizer.calculateHeightBinary64_zero_product targetWidth originalWidth
        originalHeight hw hwm hh hhm ht htm hp.symm] at hH
      have : H = 0 := (Option.some.inj hH).symm
      rw [this, ← hp]
      simpa using hw
    · obtain ⟨Q, hQ0, hQerr, hcalc⟩ :=
        FFmpegResizer.calculateHeightBinary64_quotient targetWidth originalWidth originalHeight
          hw hwm hh hhm ht htm hp
      rw [hcalc] at hH
      split_ifs at hH with hr
      have hHe : ⌊Q + 1 / 2⌋ = H := Option.some.inj hH
      have hf1 := Int.floor_le (Q + 1 / 2)
      have hf2 := Int.lt_floor_add_one (Q + 1 / 2)
      rw [hHe] at hf1 hf2 hr
      have hHq : (H : ℚ) ≤ 2147483647 := by
        simp only [INT_MAX] at hr
        exact_mod_cast hr
      have hpq : (0 : ℚ) < (originalHeight : ℚ) * targetWidth := by exact_mod_cast hp
      have hq0 : (0 : ℚ) < (originalHeight : ℚ) * targetWidth / originalWidth := div_pos hpq hwq
      have hqw : (originalHeight : ℚ) * targetWidth / originalWidth * originalWidth
          = (originalHeight : ℚ) * targetWidth := by field_simp
      have hQb := abs_le.mp hQerr
      generalize (originalHeight : ℚ) * targetWidth / originalWidth = q at hq0 hqw hQerr hQb
      have hone : |(H : ℚ) - q| < 1 := by
        rw [abs_lt]
        constructor <;> linarith [hQb.1, hQb.2]
      have hmul : |(H : ℚ) - q| * originalWidth < 1 * originalWidth :=
        mul_lt_mul_of_pos_right hone hwq
      have e : |(H : ℚ) - q| * originalWidth
          = |(H : ℚ) * originalWidth - (originalHeight : ℚ) * targetWidth| := by
        rw [← abs_of_pos hwq, ← abs_mul, abs_of_pos hwq, sub_mul, hqw]
      rw [e, one_mul] at hmul
      exact_mod_cast hmul
  · intro hsmall H hH
    rw [FFmpegResizer.calculateHeightBinary64_eq_exact targetWidth originalWidth originalHeight
      hw hwm hh hhm ht htm hsmall] at hH
    exact FFmpegResizer.calculateHeight_half_pixel targetWidth originalWidth originalHeight
      hw hh ht H hH
  · intro hr
    rcases eq_or_lt_of_le (mul_nonneg hh ht) with hp | hp
    · exact ⟨0, FFmpegResizer.calculateHeightBinary64_zero_product targetWidth originalWidth
        originalHeight hw hwm hh hhm ht htm hp.symm⟩
    · obtain ⟨Q, hQ0, hQerr, hcalc⟩ :=
        FFmpegResizer.calculateHeightBinary64_quotient targetWidth originalWidth originalHeight
          hw hwm hh hhm ht htm hp
      have hb := FFmpegResizer.half_up_bounds (originalHeight * targetWidth) originalWidth hw
      rw [← mul_assoc] at hb
      simp only [INT_MAX] at hr
      generalize (2 * originalHeight * targetWidth + originalWidth) / (2 * originalWidth) = n
        at hb hr
      have hnq : (n : ℚ) + 1 ≤ 2147483647 := by exact_mod_cast hr
      have hb2 : 2 * ((originalHeight : ℚ) * targetWidth) < 2 * n * originalWidth + originalWidth := by
        have := hb.2
        rw [mul_assoc] at this
        exact_mod_cast this
      have hpq : (0 : ℚ) < (originalHeight : ℚ) * targetWidth := by exact_mod_cast hp
      have hq0 : (0 : ℚ) < (originalHeight : ℚ) * targetWidth / originalWidth := div_pos hpq hwq
      have hqn : (originalHeight : ℚ) * targetWidth / originalWidth < n + 1 / 2 := by
        rw [div_lt_iff₀ hwq]
        linarith
      have hQb := abs_le.mp hQerr
      generalize (originalHeight : ℚ) * targetWidth / originalWidth = q at hq0 hqn hQerr hQb
      have hf1 := Int.floor_le (Q + 1 / 2)
      have hlt : ((⌊Q + 1 / 2⌋ : Int) : ℚ) < ((2147483648 : Int) : ℚ) := by
        push_cast
        linarith [hQb.2]
      have hlt2 : ⌊Q + 1 / 2⌋ < 2147483648 := by exact_mod_cast hlt
      have hle : ⌊Q + 1 / 2⌋ ≤ INT_MAX := by
        simp only [INT_MAX]
        omega
      exact ⟨⌊Q + 1 / 2⌋, by rw [hcalc, if_pos hle]⟩

theorem calculateHeightBinary64_within_one_pixel_witness :
    (∀ H, FFmpegResizer.calculateHeightBinary64 250 650 488 = some H →
        |H * 650 - 488 * 250| < 650)
      ∧ ((488 : Int) * 250 < 2 ^ 52 →
          ∀ H, FFmpegResizer.calculateHeightBinary64 250 650 488 = some H →
            2 * |H * 650 - 488 * 250| ≤ 650)
      ∧ ((2 * 488 * 250 + 650) / (2 * 650) < INT_MAX →
          ∃ H, FFmpegResizer.calculateHeightBinary64 250 650 488 = some H) :=
  calculateHeightBinary64_within_one_pixel 250 650 488 (by decide) (by decide) (by decide)
    (by decide) (by decide) (by decide)

/-- C2, an input that refutes the half-pixel bound: in binary64 arithmetic
`calculateHeight(4194304, 1073741825, 1073741953)` is 4194305, because the quotient
`4194304.4999999995...` rounds to the binary64 value `4194304.5`, which `round` takes up; for
that height `2 * |H*originalWidth - originalHeight*targetWidth|` is `originalWidth + 1`. -/
theorem calculateHeightBinary64_exceeds_half_pixel :
    FFmpegResizer.calculateHeightBinary64 4194304 1073741825 1073741953 = some 4194305
      ∧ ¬ (2 * |(4194305 : Int) * 1073741825 - 1073741953 * 4194304| ≤ 1073741825) := by
  constructor
  · have hk : roundHalfEven ((4503600168435712 : ℚ) / 1073741825 / 2 ^ ((22 : Int) - 52))
        = 4503600164241408 := by
      apply roundHalfEven_eq_of_abs_lt
      rw [abs_lt]
      norm_num
    have hQ : CDouble.ofRat (((1073741953 * 4194304 : Int) : ℚ) / ((1073741825 : Int) : ℚ))
        = CDouble.finite (8388609 / 2) := by
      have h := CDouble.ofRat_of_exponent ((4503600168435712 : ℚ) / 1073741825) 22 (by norm_num)
        (by norm_num) (by norm_num) (by rw [hk]; rw [abs_lt]; norm_num)
      rw [hk] at h
      norm_num at h ⊢
      exact h
    have hfl : ⌊(8388609 : ℚ) / 2 + 1 / 2⌋ = 4194305 := by
      rw [Int.floor_eq_iff]
      norm_num
    rw [FFmpegResizer.calculateHeightBinary64_of_quotient 4194304 1073741825 1073741953
      (by norm_num) (by norm_num [INT_MAX]) (by norm_num) (by norm_num [INT_MAX]) (by norm_num)
      (by norm_num [INT_MAX]) (by norm_num) (by norm_num) (8388609 / 2) (by norm_num) hQ, hfl]
    simp [INT_MAX]
  · norm_num

/-! ## Stream selection -/

theorem FFmpegResizer.findVideoStream_first (pre : List AVCodecParameters)
    (par : AVCodecParameters) (post : List AVCodecParameters) (i : Nat)
    (hpre : ∀ q ∈ pre, q.codec_type ≠ AVMediaType.VIDEO)
    (hpar : par.codec_type = AVMediaType.VIDEO) :
    FFmpegResizer.findVideoStream (pre ++ par :: post) i = some (i + pre.length, par) := by
  induction pre generalizing i with
  | nil => simp [FFmpegResizer.findVideoStream, hpar]
  | cons q rest ih =>
    have hq : q.codec_type ≠ AVMediaType.VIDEO := hpre q (by simp)
    have hrest : ∀ r ∈ rest, r.codec_type ≠ AVMediaType.VIDEO := fun r hr => hpre r (by simp [hr])
    have hstep := ih (i + 1) hrest
    show FFmpegResizer.findVideoStream (q :: (rest ++ par :: post)) i = _
    simp only [FFmpegResizer.findVideoStream, hq, if_false, List.length_cons]
    rw [hstep]
    congr 2
    omega

theorem FFmpegResizer.findVideoStream_eq_none (streams : List AVCodecParameters) (i : Nat) :
    FFmpegResizer.findVideoStream streams i = none
      ↔ ∀ q ∈ streams, q.codec_type ≠ AVMediaType.VIDEO := by
  induction streams generalizing i with
  | nil => simp [FFmpegResizer.findVideoStream]
  | cons q rest ih =>
    by_cases hq : q.codec_type = AVMediaType.VIDEO
    · simp [FFmpegResizer.findVideoStream, hq]
    · simp [FFmpegResizer.findVideoStream, hq, ih (i + 1)]

/-- C4: when the container opens and its stream info is found, `getOriginalDimensions`
returns `true` with the width and height of the first video-typed stream in container order,
and returns `false` exactly when no stream is video-typed; in both cases it returns (nothing is
thrown), the container is closed again and the only library calls are the open and the close
(no packet is read or decoded). When the container cannot be opened it returns `false`,
again without throwing and with no call recorded. -/
theorem getOriginalDimensions_first_video_stream (input : MediaFile) (s : FFmpegResizer) :
    (0 ≤ input.openRet → 0 ≤ input.findStreamInfoRet →
      (∀ pre par post, input.streams = pre ++ par :: post →
          (∀ q ∈ pre, q.codec_type ≠ AVMediaType.VIDEO) → par.codec_type = AVMediaType.VIDEO →
          FFmpegResizer.getOriginalDimensions input s
            = (Outcome.returned (some (par.width, par.height)),
                { s with inputFormatContext := false,
                         trace := s.trace ++ [Event.acquire Resource.inputFormatContext,
                                              Event.release Resource.inputFormatContext] }))
      ∧ ((FFmpegResizer.getOriginalDimensions input s).1 = Outcome.returned none
          ↔ ∀ q ∈ input.streams, q.codec_type ≠ AVMediaType.VIDEO)
      ∧ (∃ r, (FFmpegResizer.getOriginalDimensions input s).1 = Outcome.returned r)
      ∧ (FFmpegResizer.getOriginalDimensions input s).2
          = { s with inputFormatContext := false,
                     trace := s.trace ++ [Event.acquire Resource.inputFormatContext,
                                          Event.release Resource.inputFormatContext] })
    ∧ (input.openRet < 0 →
        FFmpegResizer.getOriginalDimensions input s
          = (Outcome.returned none, { s with inputFormatContext := false })) := by
  constructor
  · intro hopen hinfo
    have h1 : ¬ input.openRet < 0 := by omega
    have h2 : ¬ input.findStreamInfoRet < 0 := by omega
    refine ⟨?_, ?_, ?_, ?_⟩
    · intro pre par post hs hpre hpar
      have hf := FFmpegResizer.findVideoStream_first pre par post 0 hpre hpar
      rw [← hs] at hf
      simp [FFmpegResizer.getOriginalDimensions, h1, h2, hf, bind, pure, Method.andThen,
        Method.ret, Method.update, Method.log]
    · rw [← FFmpegResizer.findVideoStream_eq_none input.streams 0]
      cases hf : FFmpegResizer.findVideoStream input.streams 0 with
      | none =>
        simp [FFmpegResizer.getOriginalDimensions, h1, h2, hf, bind, pure, Method.andThen,
          Method.ret, Method.update, Method.log]
      | some ip =>
        simp [FFmpegResizer.getOriginalDimensions, h1, h2, hf, bind, pure, Method.andThen,
          Method.ret, Method.update, Method.log]
    · cases hf : FFmpegResizer.findVideoStream input.streams 0 with
      | none =>
        simp [FFmpegResizer.getOriginalDimensions, h1, h2, hf, bind, pure, Method.andThen,
          Method.ret, Method.update, Method.log]
      | some ip =>
        simp [FFmpegResizer.getOriginalDimensions, h1, h2, hf, bind, pure, Method.andThen,
          Method.ret, Method.update, Method.log]
    · cases hf : FFmpegResizer.findVideoStream input.streams 0 with
      | none =>
        simp [FFmpegResizer.getOriginalDimensions, h1, h2, hf, bind, pure, Method.andThen,
          Method.ret, Method.update, Method.log]
      | some ip =>
        simp [FFmpegResizer.getOriginalDimensions, h1, h2, hf, bind, pure, Method.andThen,
          Method.ret, Method.update, Method.log]
  · intro hopen
    simp [FFmpegResizer.getOriginalDimensions, hopen, bind, pure, Method.andThen,
      Method.ret, Method.update]

/-! ## Presets -/

/-- C3: when the probe of the input succeeds with dimensions `(w, h)`, `w > 0`,
`resizeWithPreset` with SMALL, MEDIUM, LARGE continues as `resize` with target width 250, 350,
650 and target height `calculateHeight(width, w, h)`, the object being as the probe left it;
that height exists for `h ≥ 0` whenever the rounded value is in `int` range; and for a 650x488
input SMALL gives 250x188. -/
theorem resizeWithPreset_target_size (input : MediaFile) (lib : LibAv) (s s1 : FFmpegResizer)
    (w h : Int)
    (hprobe : FFmpegResizer.getOriginalDimensions input s = (Outcome.returned (some (w, h)), s1))
    (hw : 0 < w) :
    (∀ H, FFmpegResizer.calculateHeight 250 w h = some H →
        FFmpegResizer.resizeWithPreset input lib ImageSize.SMALL s
          = FFmpegResizer.resize input lib 250 H s1)
      ∧ (∀ H, FFmpegResizer.calculateHeight 350 w h = some H →
        FFmpegResizer.resizeWithPreset input lib ImageSize.MEDIUM s
          = FFmpegResizer.resize input lib 350 H s1)
      ∧ (∀ H, FFmpegResizer.calculateHeight 650 w h = some H →
        FFmpegResizer.resizeWithPreset input lib ImageSize.LARGE s
          = FFmpegResizer.resize input lib 650 H s1)
      ∧ (0 ≤ h → ∀ width ∈ [250, 350, 650], (2 * h * width + w) / (2 * w) ≤ INT_MAX →
          FFmpegResizer.calculateHeight width w h = some ((2 * h * width + w) / (2 * w)))
      ∧ FFmpegResizer.calculateHeight 250 650 488 = some 188 := by
  refine ⟨?_, ?_, ?_, ?_, ?_⟩
  · intro H hH
    simp [FFmpegResizer.resizeWithPreset, hprobe, hH, bind, pure, Method.andThen, Method.ret,
      SMALL_WIDTH]
  · intro H hH
    simp [FFmpegResizer.resizeWithPreset, hprobe, hH, bind, pure, Method.andThen, Method.ret,
      MEDIUM_WIDTH]
  · intro H hH
    simp [FFmpegResizer.resizeWithPreset, hprobe, hH, bind, pure, Method.andThen, Method.ret,
      LARGE_WIDTH]
  · intro hh width hmem hr
    have ht : 0 ≤ width := by
      simp only [List.mem_cons, List.mem_singleton, List.not_mem_nil, or_false] at hmem
      omega
    rw [FFmpegResizer.calculateHeight_value width w h hw hh ht, if_pos hr]
  · rw [FFmpegResizer.calculateHeight_value 250 650 488 (by decide) (by decide) (by decide)]
    decide

/-! ## The read loop -/

@[simp] theorem packetsRead_append (xs ys : List Event) :
    packetsRead (xs ++ ys) = packetsRead xs ++ packetsRead ys := by
  induction xs with
  | nil => rfl
  | cons e rest ih => cases e <;> simp [packetsRead, ih]

@[simp] theorem packetsSent_append (xs ys : List Event) :
    packetsSent (xs ++ ys) = packetsSent xs ++ packetsSent ys := by
  induction xs with
  | nil => rfl
  | cons e rest ih => cases e <;> simp [packetsSent, ih]

@[simp] theorem scaledPictures_append (xs ys : List Event) :
    scaledPictures (xs ++ ys) = scaledPictures xs ++ scaledPictures ys := by
  induction xs with
  | nil => rfl
  | cons e rest ih => cases e <;> simp [scaledPictures, ih]

@[simp] theorem jpegCalls_append (xs ys : List Event) :
    jpegCalls (xs ++ ys) = jpegCalls xs ++ jpegCalls ys := by
  induction xs with
  | nil => rfl
  | cons e rest ih => cases e <;> simp [jpegCalls, ih]

/-- What `writeJPEG` adds to the trace: its own entry, then only events of its local
resources and the `fwrite`. -/
theorem FFmpegResizer.writeJPEG_trace (lib : LibAv) (w h : Int) (s : FFmpegResizer) :
    packetsRead (FFmpegResizer.writeJPEG lib w h s).2.trace = packetsRead s.trace
      ∧ packetsSent (FFmpegResizer.writeJPEG lib w h s).2.trace = packetsSent s.trace
      ∧ scaledPictures (FFmpegResizer.writeJPEG lib w h s).2.trace = scaledPictures s.trace
      ∧ jpegCalls (FFmpegResizer.writeJPEG lib w h s).2.trace
          = jpegCalls s.trace ++ [(s.dstPicture, w, h)] := by
  simp only [FFmpegResizer.writeJPEG, bind, pure, Method.andThen, Method.ret, Method.update,
    Method.log, Method.self, Method.raise, Method.undefinedBehaviour, ite_apply]
  split_ifs <;>
    simp [packetsRead, packetsSent, scaledPictures, jpegCalls]

/-- Method `cleanup` returns, leaves every handle null, and adds only releases to the trace. -/
theorem FFmpegResizer.cleanup_spec (s : FFmpegResizer) :
    (FFmpegResizer.cleanup s).1 = Outcome.returned ()
      ∧ (FFmpegResizer.cleanup s).2.inputFormatContext = false
      ∧ (FFmpegResizer.cleanup s).2.codecContext = false
      ∧ (FFmpegResizer.cleanup s).2.swsContext = false
      ∧ (FFmpegResizer.cleanup s).2.frame = false
      ∧ (FFmpegResizer.cleanup s).2.packet = false
      ∧ (FFmpegResizer.cleanup s).2.dstData = false
      ∧ packetsRead (FFmpegResizer.cleanup s).2.trace = packetsRead s.trace
      ∧ packetsSent (FFmpegResizer.cleanup s).2.trace = packetsSent s.trace
      ∧ scaledPictures (FFmpegResizer.cleanup s).2.trace = scaledPictures s.trace
      ∧ jpegCalls (FFmpegResizer.cleanup s).2.trace = jpegCalls s.trace := by
  obtain ⟨a, b, c, d, e, f, v, ow, oh, pic, t⟩ := s
  cases a <;> cases b <;> cases c <;> cases d <;> cases e <;> cases f <;>
    simp [FFmpegResizer.cleanup, bind, pure, Method.andThen, Method.ret, Method.update,
      Method.log, Method.self, packetsRead, packetsSent, scaledPictures, jpegCalls]

/-- The read loop: which packets it reads, sends to the decoder, scales and hands to
`writeJPEG`, and that it returns when no packet decodes. -/
theorem FFmpegResizer.readFrames_spec (lib : LibAv) (w h : Int) (ps : List AVPacket)
    (s : FFmpegResizer) :
    packetsRead (FFmpegResizer.readFrames lib w h ps s).2.trace
        = packetsRead s.trace
          ++ (ps.takeWhile (fun p => !decodesToFrame s.videoStreamIndex p)
            ++ (ps.find? (decodesToFrame s.videoStreamIndex)).toList)
      ∧ packetsSent (FFmpegResizer.readFrames lib w h ps s).2.trace
        = packetsSent s.trace
          ++ ((ps.takeWhile (fun p => !decodesToFrame s.videoStreamIndex p)
            ++ (ps.find? (decodesToFrame s.videoStreamIndex)).toList).filter
              (fun p => decide (p.stream_index = s.videoStreamIndex)))
      ∧ scaledPictures (FFmpegResizer.readFrames lib w h ps s).2.trace
        = scaledPictures s.trace
          ++ ((ps.find? (decodesToFrame s.videoStreamIndex)).map (fun p => p.picture)).toList
      ∧ jpegCalls (FFmpegResizer.readFrames lib w h ps s).2.trace
        = jpegCalls s.trace
          ++ ((ps.find? (decodesToFrame s.videoStreamIndex)).map
                (fun p => (some p.picture, w, h))).toList
      ∧ (ps.find? (decodesToFrame s.videoStreamIndex) = none →
          (FFmpegResizer.readFrames lib w h ps s).1 = Outcome.returned ()) := by
  induction ps generalizing s with
  | nil =>
    simp [FFmpegResizer.readFrames, pure, Method.ret]
  | cons p rest ih =>
    by_cases h1 : p.stream_index = s.videoStreamIndex
    · by_cases h2 : p.sendRet < 0
      · have hd : decodesToFrame s.videoStreamIndex p = false := by
          simp [decodesToFrame, h1]; omega
        have hi := ih { s with trace := s.trace ++ [Event.read p, Event.sendPacket p] }
        simp only [FFmpegResizer.readFrames, FFmpegResizer.processPacket, bind, pure,
          Method.andThen, Method.ret, Method.update, Method.log, Method.self, h1, h2, if_true,
          List.append_assoc, List.singleton_append] 
        simp only [List.takeWhile_cons, List.find?_cons, hd, Bool.not_false, if_true] 
        simp [packetsRead, packetsSent, scaledPictures, jpegCalls, h1] at hi ⊢
        exact hi
      · by_cases h3 : p.receiveRet < 0
        · have hd : decodesToFrame s.videoStreamIndex p = false := by
            simp [decodesToFrame, h1]; omega
          have hi := ih { s with trace := s.trace ++ [Event.read p, Event.sendPacket p,
            Event.receiveFrame p] }
          simp only [FFmpegResizer.readFrames, FFmpegResizer.processPacket, bind, pure,
            Method.andThen, Method.ret, Method.update, Method.log, Method.self, h1, h2, h3,
            if_true, if_false, List.append_assoc, List.singleton_append]
          simp only [List.takeWhile_cons, List.find?_cons, hd, Bool.not_false, if_true]
          simp [packetsRead, packetsSent, scaledPictures, jpegCalls, h1] at hi ⊢
          exact hi
        · have hd : decodesToFrame s.videoStreamIndex p = true := by
            simp [decodesToFrame, h1]; omega
          have hj := FFmpegResizer.writeJPEG_trace lib w h
            { s with dstPicture := some p.picture,
                     trace := s.trace ++ [Event.read p, Event.sendPacket p,
                       Event.receiveFrame p, Event.scale p.picture] }
          simp only [FFmpegResizer.readFrames, FFmpegResizer.processPacket, bind, pure,
            Method.andThen, Method.ret, Method.update, Method.log, Method.self, h1, h2, h3,
            if_true, if_false, List.append_assoc, List.singleton_append]
          simp only [List.takeWhile_cons, List.find?_cons, hd, Bool.not_true, if_false]
          simp [packetsRead, packetsSent, scaledPictures, jpegCalls, h1] at hj ⊢
          exact hj
    · have hd : decodesToFrame s.videoStreamIndex p = false := by
        simp [decodesToFrame, h1]
      have hi := ih { s with trace := s.trace ++ [Event.read p] }
      simp only [FFmpegResizer.readFrames, bind, pure,
        Method.andThen, Method.ret, Method.update, Method.log, Method.self, h1,
        if_false, List.append_assoc, List.singleton_append]
      simp only [List.takeWhile_cons, List.find?_cons, hd, Bool.not_false, if_true]
      simp [packetsRead, packetsSent, scaledPictures, jpegCalls, h1] at hi ⊢
      exact hi

/-- C6: once the set-up of `resize` has succeeded with selected stream index `v`, the call
reads the packets of the input in demux order up to and including the first one that belongs
to stream `v` and decodes to a frame, and none after it; of the packets read it sends to the
decoder exactly those of stream `v`; it scales exactly the picture of that first packet and
enters `writeJPEG` exactly once, with that picture in the buffer and the size asked for; when
no packet decodes to a frame nothing is scaled, `writeJPEG` is not entered and the call
returns without error. -/
theorem resize_encodes_first_decoded_frame (input : MediaFile) (lib : LibAv)
    (dstWidth dstHeight : Int) (s s1 : FFmpegResizer)
    (hsetup : FFmpegResizer.setup input lib dstWidth dstHeight s = (Outcome.returned (), s1)) :
    packetsRead (FFmpegResizer.resize input lib dstWidth dstHeight s).2.trace
        = packetsRead s1.trace
          ++ (input.packets.takeWhile (fun p => !decodesToFrame s1.videoStreamIndex p)
            ++ (input.packets.find? (decodesToFrame s1.videoStreamIndex)).toList)
      ∧ packetsSent (FFmpegResizer.resize input lib dstWidth dstHeight s).2.trace
        = packetsSent s1.trace
          ++ ((input.packets.takeWhile (fun p => !decodesToFrame s1.videoStreamIndex p)
            ++ (input.packets.find? (decodesToFrame s1.videoStreamIndex)).toList).filter
              (fun p => decide (p.stream_index = s1.videoStreamIndex)))
      ∧ scaledPictures (FFmpegResizer.resize input lib dstWidth dstHeight s).2.trace
        = scaledPictures s1.trace
          ++ ((input.packets.find? (decodesToFrame s1.videoStreamIndex)).map
                (fun p => p.picture)).toList
      ∧ jpegCalls (FFmpegResizer.resize input lib dstWidth dstHeight s).2.trace
        = jpegCalls s1.trace
          ++ ((input.packets.find? (decodesToFrame s1.videoStreamIndex)).map
                (fun p => (some p.picture, dstWidth, dstHeight))).toList
      ∧ (input.packets.find? (decodesToFrame s1.videoStreamIndex) = none →
          (FFmpegResizer.resize input lib dstWidth dstHeight s).1 = Outcome.returned ()) := by
  have hloop := FFmpegResizer.readFrames_spec lib dstWidth dstHeight input.packets s1
  obtain ⟨hr, hs, hsc, hj, hret⟩ := hloop
  rcases hloop2 : FFmpegResizer.readFrames lib dstWidth dstHeight input.packets s1 with ⟨o, s2⟩
  rw [hloop2] at hr hs hsc hj hret
  cases o with
  | returned u =>
    have hresize : FFmpegResizer.resize input lib dstWidth dstHeight s
        = FFmpegResizer.cleanup s2 := by
      simp only [FFmpegResizer.resize, bind, Method.andThen, hsetup, hloop2]
    obtain ⟨c1, -, -, -, -, -, -, c8, c9, c10, c11⟩ := FFmpegResizer.cleanup_spec s2
    rw [hresize, c8, c9, c10, c11]
    exact ⟨hr, hs, hsc, hj, fun _ => c1⟩
  | threw e =>
    have hresize : FFmpegResizer.resize input lib dstWidth dstHeight s
        = (Outcome.threw e, s2) := by
      simp only [FFmpegResizer.resize, bind, Method.andThen, hsetup, hloop2]
    rw [hresize]
    refine ⟨hr, hs, hsc, hj, ?_⟩
    intro hnone
    exact absurd (hret hnone) (by simp)
  | undefined =>
    have hresize : FFmpegResizer.resize input lib dstWidth dstHeight s
        = (Outcome.undefined, s2) := by
      simp only [FFmpegResizer.resize, bind, Method.andThen, hsetup, hloop2]
    rw [hresize]
    refine ⟨hr, hs, hsc, hj, ?_⟩
    intro hnone
    exact absurd (hret hnone) (by simp)

theorem getOriginalDimensions_first_video_stream_witness :
    FFmpegResizer.getOriginalDimensions sampleFile {}
      = (Outcome.returned (some (650, 488)),
          { trace := [Event.acquire Resource.inputFormatContext,
                      Event.release Resource.inputFormatContext] }) :=
  ((getOriginalDimensions_first_video_stream sampleFile {}).1 (by decide) (by decide)).1
    [audioStream] videoStream [] rfl (by decide) rfl

theorem resizeWithPreset_target_size_witness :
    FFmpegResizer.resizeWithPreset sampleFile okLib ImageSize.SMALL {}
      = FFmpegResizer.resize sampleFile okLib 250 188
          (FFmpegResizer.getOriginalDimensions sampleFile {}).2 :=
  (resizeWithPreset_target_size sampleFile okLib {}
      (FFmpegResizer.getOriginalDimensions sampleFile {}).2 650 488
      (by decide) (by decide)).1 188
    (resizeWithPreset_target_size sampleFile okLib {}
      (FFmpegResizer.getOriginalDimensions sampleFile {}).2 650 488
      (by decide) (by decide)).2.2.2.2

theorem resize_encodes_first_decoded_frame_witness :
    packetsRead (FFmpegResizer.resize sampleFile okLib 250 188 {}).2.trace
        = sampleFile.packets.take 3
      ∧ scaledPictures (FFmpegResizer.resize sampleFile okLib 250 188 {}).2.trace = [7]
      ∧ jpegCalls (FFmpegResizer.resize sampleFile okLib 250 188 {}).2.trace
          = [(some 7, 250, 188)] :=
  have h := resize_encodes_first_decoded_frame sampleFile okLib 250 188 {}
    (FFmpegResizer.setup sampleFile okLib 250 188 {}).2 (by decide)
  ⟨h.1, h.2.2.1, h.2.2.2.1⟩

/-- C5, the code at a failing input: for a probed width of 0 `calculateHeight` has no check
and reports nothing; the quotient is not a finite number, its conversion to `int` is
undefined, and `resizeWithPreset` has thrown no error when it gets there. -/
theorem resizeWithPreset_zero_width_reports_no_error :
    FFmpegResizer.getOriginalDimensions zeroWidthFile {}
        = (Outcome.returned (some (0, 0)),
            { trace := [Event.acquire Resource.inputFormatContext,
                        Event.release Resource.inputFormatContext] })
      ∧ (∀ targetWidth originalHeight : Int,
          FFmpegResizer.calculateHeight targetWidth 0 originalHeight = none)
      ∧ (FFmpegResizer.resizeWithPreset zeroWidthFile okLib ImageSize.SMALL {}).1
          = Outcome.undefined
      ∧ ∀ e, (FFmpegResizer.resizeWithPreset zeroWidthFile okLib ImageSize.SMALL {}).1
          ≠ Outcome.threw e := by
  have hprobe : FFmpegResizer.getOriginalDimensions zeroWidthFile {}
        = (Outcome.returned (some (0, 0)),
            { trace := [Event.acquire Resource.inputFormatContext,
                        Event.release Resource.inputFormatContext] }) := by decide
  have hout : (FFmpegResizer.resizeWithPreset zeroWidthFile okLib ImageSize.SMALL {}).1
      = Outcome.undefined := by
    simp [FFmpegResizer.resizeWithPreset, hprobe, bind, pure, Method.andThen, Method.ret,
      FFmpegResizer.calculateHeight_zero_width, Method.undefinedBehaviour]
  refine ⟨hprobe, FFmpegResizer.calculateHeight_zero_width, hout, ?_⟩
  intro e
  rw [hout]
  simp

/-- C7, the code at a failing input: no packet of the video stream decodes to a frame, and
`resize` returns normally, having entered `writeJPEG` never and written nothing. -/
theorem resize_without_frame_returns_normally :
    (FFmpegResizer.resize undecodableFile okLib 250 188 {}).1 = Outcome.returned ()
      ∧ jpegCalls (FFmpegResizer.resize undecodableFile okLib 250 188 {}).2.trace = []
      ∧ bytesWritten (FFmpegResizer.resize undecodableFile okLib 250 188 {}).2.trace = [] := by
  decide

/-- C8, the code at a failing input: after a `resize` of a video file has returned, the
object keeps `videoStreamIndex = 0`; a second `resize`, of an input with no video stream,
passes the `videoStreamIndex == -1` test, sets up a decoder for stream 0, an audio stream,
and does not fail with the missing-video-stream error. -/
theorem resize_reused_object_keeps_stale_index :
    (FFmpegResizer.resize videoOnlyFile okLib 250 188 {}).1 = Outcome.returned ()
      ∧ (FFmpegResizer.resize videoOnlyFile okLib 250 188 {}).2.videoStreamIndex = 0
      ∧ FFmpegResizer.findVideoStream audioOnlyFile.streams 0 = none
      ∧ (FFmpegResizer.resize audioOnlyFile okLib 250 188 {}).1
          = Outcome.threw Exception.couldNotFindVideoStream
      ∧ (FFmpegResizer.resize audioOnlyFile okLib 250 188
            (FFmpegResizer.resize videoOnlyFile okLib 250 188 {}).2).1
          = Outcome.threw Exception.couldNotInitializeScalingContext
      ∧ (FFmpegResizer.resize audioOnlyFile okLib 250 188
            (FFmpegResizer.resize videoOnlyFile okLib 250 188 {}).2).2.codecContext = true := by
  decide

/-- C9, the code at a failing input: the output path cannot be opened, `writeJPEG` throws,
and control leaves `resize` with all six handles of the object still held: nothing of the
object has been released. -/
theorem resize_throw_leaves_handles_held :
    (FFmpegResizer.resize sampleFile unwritableOutputLib 250 188 {}).1
        = Outcome.threw Exception.couldNotOpenOutputFile
      ∧ (FFmpegResizer.resize sampleFile unwritableOutputLib 250 188 {}).2.inputFormatContext
          = true
      ∧ (FFmpegResizer.resize sampleFile unwritableOutputLib 250 188 {}).2.codecContext = true
      ∧ (FFmpegResizer.resize sampleFile unwritableOutputLib 250 188 {}).2.swsContext = true
      ∧ (FFmpegResizer.resize sampleFile unwritableOutputLib 250 188 {}).2.frame = true
      ∧ (FFmpegResizer.resize sampleFile unwritableOutputLib 250 188 {}).2.packet = true
      ∧ (FFmpegResizer.resize sampleFile unwritableOutputLib 250 188 {}).2.dstData = true
      ∧ Event.release Resource.inputFormatContext
          ∉ (FFmpegResizer.resize sampleFile unwritableOutputLib 250 188 {}).2.trace := by
  decide

/-- C10, the code at a failing input: the encoder takes no frame and gives no packet, and
`writeJPEG` does not throw: it opens the output file, writes the empty packet (no bytes)
and returns. -/
theorem writeJPEG_ignores_encoder_failure :
    (FFmpegResizer.writeJPEG failingEncoderLib 250 188 {}).1 = Outcome.returned ()
      ∧ bytesWritten (FFmpegResizer.writeJPEG failingEncoderLib 250 188 {}).2.trace = [[]]
      ∧ Event.acquire Resource.outFile
          ∈ (FFmpegResizer.writeJPEG failingEncoderLib 250 188 {}).2.trace := by
  decide

/-! ## The converter: streams and packets of `convertToMP4` -/

theorem VideoConverter.addVideoStreams_all (mux : MuxLib)
    (streams : List AVCodecParameters) (s : ConvertToMP4)
    (hnew : ∀ k, k < (streams.filter
          (fun par => decide (par.codec_type = AVMediaType.VIDEO))).length →
        mux.new_stream (s.outStreams.length + k) = true) :
    VideoConverter.addVideoStreams mux streams s
      = (Outcome.returned (),
          { s with
            outStreams := s.outStreams ++ List.map (fun par => { par with codec_tag := 0 })
              (streams.filter (fun par => decide (par.codec_type = AVMediaType.VIDEO))) }) := by
  induction streams generalizing s with
  | nil => simp [VideoConverter.addVideoStreams, pure, Routine.ret]
  | cons par rest ih =>
    by_cases hv : par.codec_type = AVMediaType.VIDEO
    · have h0 : mux.new_stream s.outStreams.length = true := by
        have := hnew 0 (by simp [hv])
        simpa using this
      have hi := ih { s with outStreams := s.outStreams ++ [{ par with codec_tag := 0 }] }
        (by
          intro k hk
          have := hnew (k + 1) (by simp [hv]; omega)
          simp only [List.length_append, List.length_singleton]
          rw [show s.outStreams.length + 1 + k = s.outStreams.length + (k + 1) by omega]
          exact this)
      simp only [hv] at hi
      simp [VideoConverter.addVideoStreams, bind, Routine.andThen, Routine.self, Routine.update,
        hv, h0, hi]
    · have hi := ih s (by
        intro k hk
        exact hnew k (by simpa [hv] using hk))
      simp [VideoConverter.addVideoStreams, hv, hi]

theorem VideoConverter.copyPackets_spec (ps : List AVPacket) (s : ConvertToMP4) :
    VideoConverter.copyPackets ps s
      = (Outcome.returned (),
          { s with
            trace := s.trace ++ ps.flatMap (fun p => [Event.read p, Event.writeFrame p]) }) := by
  induction ps generalizing s with
  | nil => simp [VideoConverter.copyPackets, pure, Routine.ret]
  | cons p rest ih =>
    simp [VideoConverter.copyPackets, bind, Routine.andThen, Routine.update,
      VideoConverter.logMux, ih]

/-- C11: when the input opens, the output context is created and each
`avformat_new_stream` that is called succeeds, the output streams that `convertToMP4`
creates are the video-typed input streams, one each and in their order, with the input
parameters except that `codec_tag` is 0; the other input streams give no output stream. -/
theorem convertToMP4_output_streams (input : MediaFile) (mux : MuxLib)
    (hopen : 0 ≤ input.openRet) (halloc : mux.alloc_output_context2 = true)
    (hnew : ∀ k, k < (input.streams.filter
          (fun par => decide (par.codec_type = AVMediaType.VIDEO))).length →
        mux.new_stream k = true) :
    (VideoConverter.convertToMP4 input mux {}).2.outStreams
      = List.map (fun par => { par with codec_tag := 0 })
          (input.streams.filter (fun par => decide (par.codec_type = AVMediaType.VIDEO))) := by
  have h1 : ¬ input.openRet < 0 := by omega
  have hadd := VideoConverter.addVideoStreams_all mux input.streams
    { trace := [Event.acquire Resource.inputFormatContext,
                Event.acquire Resource.outputFormatContext] }
    (by simpa using hnew)
  simp only [VideoConverter.convertToMP4, bind, Routine.andThen, Routine.update,
    VideoConverter.logMux, Routine.raise, h1, halloc, if_false, Bool.not_true,
    List.nil_append, List.cons_append, hadd, VideoConverter.copyPackets_spec, ite_apply]
  split_ifs <;> first | contradiction | simp

theorem convertToMP4_output_streams_witness :
    (VideoConverter.convertToMP4 fourStreamFile okMux {}).2.outStreams
      = [ { codec_type := AVMediaType.VIDEO, codec_id := 27, width := 1280, height := 720,
            codec_tag := 0 },
          { codec_type := AVMediaType.VIDEO, codec_id := 7, width := 650, height := 488,
            codec_tag := 0 } ] :=
  convertToMP4_output_streams fourStreamFile okMux (by decide) rfl (fun _ _ => rfl)

@[simp] theorem heldAfter_append (live : List Resource) (xs ys : List Event) :
    heldAfter live (xs ++ ys) = (heldAfter live xs).bind (fun held => heldAfter held ys) := by
  induction xs generalizing live with
  | nil => rfl
  | cons e rest ih =>
    cases e <;> simp [heldAfter, ih]
    split_ifs <;> rfl

@[simp] theorem packetsWritten_append (xs ys : List Event) :
    packetsWritten (xs ++ ys) = packetsWritten xs ++ packetsWritten ys := by
  induction xs with
  | nil => rfl
  | cons e rest ih => cases e <;> simp [packetsWritten, ih]

/-- The stream loop either returns with the trace as it was, or it throws
"Could not allocate stream" after releasing the input and the output context. -/
theorem VideoConverter.addVideoStreams_trace (mux : MuxLib) (streams : List AVCodecParameters)
    (s : ConvertToMP4) :
    ((VideoConverter.addVideoStreams mux streams s).1 = Outcome.returned ()
        ∧ (VideoConverter.addVideoStreams mux streams s).2.trace = s.trace)
      ∨ ((VideoConverter.addVideoStreams mux streams s).1
            = Outcome.threw Exception.couldNotAllocateStream
        ∧ (VideoConverter.addVideoStreams mux streams s).2.trace
            = s.trace ++ [Event.release Resource.inputFormatContext,
                          Event.release Resource.outputFormatContext]) := by
  induction streams generalizing s with
  | nil => left; simp [VideoConverter.addVideoStreams, pure, Routine.ret]
  | cons par rest ih =>
    by_cases hv : par.codec_type = AVMediaType.VIDEO
    · by_cases hn : mux.new_stream s.outStreams.length = true
      · have hi := ih { s with outStreams := s.outStreams ++ [{ par with codec_tag := 0 }] }
        simpa [VideoConverter.addVideoStreams, bind, Routine.andThen, Routine.self,
          Routine.update, hv, hn] using hi
      · right
        simp [VideoConverter.addVideoStreams, bind, Routine.andThen, Routine.self,
          Routine.update, Routine.raise, VideoConverter.logMux, hv, hn]
    · simpa [VideoConverter.addVideoStreams, hv] using ih s

/-- The stream loop throws exactly when some `avformat_new_stream` it calls fails. -/
theorem VideoConverter.addVideoStreams_throws (mux : MuxLib) (streams : List AVCodecParameters)
    (s : ConvertToMP4) :
    (VideoConverter.addVideoStreams mux streams s).1
        = Outcome.threw Exception.couldNotAllocateStream
      ↔ ∃ k, k < (streams.filter (fun par => decide (par.codec_type = AVMediaType.VIDEO))).length
          ∧ mux.new_stream (s.outStreams.length + k) = false := by
  induction streams generalizing s with
  | nil => simp [VideoConverter.addVideoStreams, pure, Routine.ret]
  | cons par rest ih =>
    by_cases hv : par.codec_type = AVMediaType.VIDEO
    · by_cases hn : mux.new_stream s.outStreams.length = true
      · have hi := ih { s with outStreams := s.outStreams ++ [{ par with codec_tag := 0 }] }
        simp only [VideoConverter.addVideoStreams, bind, Routine.andThen, Routine.self,
          Routine.update, hv, hn, if_true, Bool.not_true, if_false, Bool.false_eq_true]
        simp only [hv] at hi
        rw [hi]
        have hlen : (s.outStreams ++ [{ par with codec_tag := 0 }]).length
            = s.outStreams.length + 1 := by simp
        simp only [hv] at hlen
        simp only [hlen, List.filter_cons, hv, decide_True, if_true, List.length_cons]
        constructor
        · rintro ⟨k, hk, hf⟩
          refine ⟨k + 1, by omega, ?_⟩
          rw [show s.outStreams.length + (k + 1) = s.outStreams.length + 1 + k by omega]
          exact hf
        · rintro ⟨k, hk, hf⟩
          cases k with
          | zero => simp [hn] at hf
          | succ j =>
            refine ⟨j, by omega, ?_⟩
            rw [show s.outStreams.length + 1 + j = s.outStreams.length + (j + 1) by omega]
            exact hf
      · have hn2 : mux.new_stream s.outStreams.length = false := by simpa using hn
        simp only [VideoConverter.addVideoStreams, bind, Routine.andThen, Routine.self,
          Routine.update, Routine.raise, VideoConverter.logMux, hv, hn2, if_true, Bool.not_false,
          true_iff]
        exact ⟨0, by simp [hv], by simpa using hn2⟩
    · simp only [VideoConverter.addVideoStreams, hv, if_false, List.filter_cons, decide_False,
        Bool.false_eq_true]
      exact ih s

/-- C16: each set-up failure of `convertToMP4` on an input that opens (the output context
is not created; an `avformat_new_stream` fails; `avio_open` fails; `avformat_write_header`
fails) makes it throw; and whenever `convertToMP4` throws, no packet has been read or
written and every resource acquired has been released exactly once (the replay of the
trace ends with nothing held and meets no release of a resource that is not held). -/
theorem convertToMP4_setup_failure_releases (input : MediaFile) (mux : MuxLib) :
    (0 ≤ input.openRet → mux.alloc_output_context2 = false →
        (VideoConverter.convertToMP4 input mux {}).1
          = Outcome.threw Exception.couldNotCreateOutputContext)
      ∧ (0 ≤ input.openRet → mux.alloc_output_context2 = true →
        (∃ k, k < (input.streams.filter
              (fun par => decide (par.codec_type = AVMediaType.VIDEO))).length
            ∧ mux.new_stream k = false) →
        (VideoConverter.convertToMP4 input mux {}).1
          = Outcome.threw Exception.couldNotAllocateStream)
      ∧ (0 ≤ input.openRet → mux.alloc_output_context2 = true →
        (∀ k, k < (input.streams.filter
              (fun par => decide (par.codec_type = AVMediaType.VIDEO))).length
            → mux.new_stream k = true) →
        mux.avio_open < 0 →
        (VideoConverter.convertToMP4 input mux {}).1
          = Outcome.threw Exception.couldNotOpenOutputFileForMux)
      ∧ (0 ≤ input.openRet → mux.alloc_output_context2 = true →
        (∀ k, k < (input.streams.filter
              (fun par => decide (par.codec_type = AVMediaType.VIDEO))).length
            → mux.new_stream k = true) →
        0 ≤ mux.avio_open → mux.write_header < 0 →
        (VideoConverter.convertToMP4 input mux {}).1
          = Outcome.threw Exception.couldNotWriteOutputHeader)
      ∧ (∀ e, (VideoConverter.convertToMP4 input mux {}).1 = Outcome.threw e →
        packetsRead (VideoConverter.convertToMP4 input mux {}).2.trace = []
          ∧ packetsWritten (VideoConverter.convertToMP4 input mux {}).2.trace = []
          ∧ heldAfter [] (VideoConverter.convertToMP4 input mux {}).2.trace = some []) := by
  have hthrows := VideoConverter.addVideoStreams_throws mux input.streams
    { trace := [Event.acquire Resource.inputFormatContext,
                Event.acquire Resource.outputFormatContext] }
  have htrace := VideoConverter.addVideoStreams_trace mux input.streams
    { trace := [Event.acquire Resource.inputFormatContext,
                Event.acquire Resource.outputFormatContext] }
  simp only [List.length_nil, Nat.zero_add] at hthrows
  rcases ha : VideoConverter.addVideoStreams mux input.streams
    { trace := [Event.acquire Resource.inputFormatContext,
                Event.acquire Resource.outputFormatContext] } with ⟨o, s1⟩
  rw [ha] at hthrows htrace
  simp only at hthrows htrace
  by_cases hopen : input.openRet < 0
  · have hno : ¬ 0 ≤ input.openRet := by omega
    simp [VideoConverter.convertToMP4, hopen, hno, Routine.raise, packetsRead, packetsWritten,
      heldAfter]
  · have hyes : 0 ≤ input.openRet := by omega
    by_cases halloc : mux.alloc_output_context2 = true
    · rcases htrace with ⟨ho, ht⟩ | ⟨ho, ht⟩
      · -- every stream was created
        subst ho
        have hall : ∀ k, k < (input.streams.filter
            (fun par => decide (par.codec_type = AVMediaType.VIDEO))).length
            → mux.new_stream k = true := by
          intro k hk
          by_contra hk2
          have : mux.new_stream k = false := by simpa using hk2
          have := hthrows.mpr ⟨k, hk, this⟩
          simp at this
        have hnone : ¬ ∃ k, k < (input.streams.filter
            (fun par => decide (par.codec_type = AVMediaType.VIDEO))).length
            ∧ mux.new_stream k = false := by
          rintro ⟨k, hk, hf⟩
          rw [hall k hk] at hf
          simp at hf
        by_cases hio : mux.avio_open < 0
        · have hio2 : ¬ 0 ≤ mux.avio_open := by omega
          simp [VideoConverter.convertToMP4, bind, Routine.andThen, Routine.update,
            VideoConverter.logMux, Routine.raise, hopen, hyes, halloc, ha, hio, hio2, hnone, ht,
            packetsRead, packetsWritten, heldAfter]
        · have hio2 : 0 ≤ mux.avio_open := by omega
          by_cases hhd : mux.write_header < 0
          · simp [VideoConverter.convertToMP4, bind, Routine.andThen, Routine.update,
              VideoConverter.logMux, Routine.raise, hopen, hyes, halloc, ha, hio, hio2, hhd,
              hnone, ht, packetsRead, packetsWritten, heldAfter]
          · simp [VideoConverter.convertToMP4, bind, Routine.andThen, Routine.update,
              VideoConverter.logMux, Routine.raise, hopen, hyes, halloc, ha, hio, hio2, hhd,
              hnone, VideoConverter.copyPackets_spec]
      · -- a stream could not be created
        subst ho
        have hex := hthrows.mp rfl
        have hnall : ¬ ∀ k, k < (input.streams.filter
            (fun par => decide (par.codec_type = AVMediaType.VIDEO))).length
            → mux.new_stream k = true := by
          intro hall
          obtain ⟨k, hk, hf⟩ := hex
          rw [hall k hk] at hf
          simp at hf
        simp [VideoConverter.convertToMP4, bind, Routine.andThen, Routine.update,
          VideoConverter.logMux, Routine.raise, hopen, hyes, halloc, ha, hnall, ht,
          packetsRead, packetsWritten, heldAfter]
    · have halloc2 : mux.alloc_output_context2 = false := by simpa using halloc
      simp [VideoConverter.convertToMP4, bind, Routine.andThen, Routine.update,
        VideoConverter.logMux, Routine.raise, hopen, hyes, halloc2, packetsRead, packetsWritten,
        heldAfter]

theorem convertToMP4_setup_failure_releases_witness :
    (VideoConverter.convertToMP4 fourStreamFile secondStreamFailsMux {}).1
        = Outcome.threw Exception.couldNotAllocateStream
      ∧ packetsRead (VideoConverter.convertToMP4 fourStreamFile secondStreamFailsMux {}).2.trace
          = []
      ∧ packetsWritten
          (VideoConverter.convertToMP4 fourStreamFile secondStreamFailsMux {}).2.trace = []
      ∧ heldAfter [] (VideoConverter.convertToMP4 fourStreamFile secondStreamFailsMux {}).2.trace
          = some [] :=
  have h := convertToMP4_setup_failure_releases fourStreamFile secondStreamFailsMux
  have h2 := h.2.1 (by decide) rfl ⟨1, by decide, rfl⟩
  ⟨h2, h.2.2.2.2 _ h2⟩

/-- C19, the code at a failing input: an input with an audio stream (index 0) and a video
stream (index 1). One output stream is created, from input stream 1; every packet read is
handed to the writer with its input `stream_index` unchanged, so the packets of the video
stream carry index 1, which is no output stream, and the audio packet carries index 0,
the output stream made from the video stream. -/
theorem convertToMP4_writes_input_stream_index :
    (VideoConverter.convertToMP4 sampleFile okMux {}).1 = Outcome.returned ()
      ∧ (VideoConverter.convertToMP4 sampleFile okMux {}).2.outStreams.length = 1
      ∧ (VideoConverter.convertToMP4 sampleFile okMux {}).2.outStreams = [videoStream]
      ∧ List.map (fun p => p.stream_index)
          (packetsWritten (VideoConverter.convertToMP4 sampleFile okMux {}).2.trace)
          = [0, 1, 1, 1]
      ∧ (∃ p ∈ packetsWritten (VideoConverter.convertToMP4 sampleFile okMux {}).2.trace,
          ¬ p.stream_index
              < ((VideoConverter.convertToMP4 sampleFile okMux {}).2.outStreams.length : Int))
      ∧ sampleFile.streams.get? 0 = some audioStream := by
  refine ⟨by decide, by decide, by decide, by decide, ?_, by decide⟩
  exact ⟨{ stream_index := 1, sendRet := 0, receiveRet := -11, picture := 6 },
    by decide, by decide⟩

/-- C14, the code at a failing input: no packet of the video stream yields a frame, the
input ends, and `extractThumbnail` returns normally: `saveFrameAsJPEG` was never entered,
the resizer never called, nothing written. -/
theorem extractThumbnail_without_frame_returns_normally :
    (VideoConverter.extractThumbnail undecodableFile "thumbnail.jpg" okThumbnailEnv {}).1
        = Outcome.returned ()
      ∧ savedFrames
          (VideoConverter.extractThumbnail undecodableFile "thumbnail.jpg" okThumbnailEnv {}).2.trace
          = []
      ∧ resizeCalls
          (VideoConverter.extractThumbnail undecodableFile "thumbnail.jpg" okThumbnailEnv {}).2.trace
          = []
      ∧ bytesWritten
          (VideoConverter.extractThumbnail undecodableFile "thumbnail.jpg" okThumbnailEnv {}).2.trace
          = [] := by
  decide

/-- C15, the code at a failing input: the converter program passes the intermediate path
`thumbnail.jpg`; the resizer is called three times on it, for SMALL, MEDIUM and LARGE in
this order, and the three output paths are `thumbnail.jpg_small.jpg`,
`thumbnail.jpg_medium.jpg` and `thumbnail.jpg_large.jpg`: the suffix is appended to the
whole path, extension included, so that none is a name the header of `task2.cpp` lists. -/
theorem extractThumbnail_output_names :
    (VideoConverter.extractThumbnail sampleFile "thumbnail.jpg" okThumbnailEnv {}).1
        = Outcome.returned ()
      ∧ resizeCalls
          (VideoConverter.extractThumbnail sampleFile "thumbnail.jpg" okThumbnailEnv {}).2.trace
          = [ ("thumbnail.jpg", "thumbnail.jpg_small.jpg", ImageSize.SMALL),
              ("thumbnail.jpg", "thumbnail.jpg_medium.jpg", ImageSize.MEDIUM),
              ("thumbnail.jpg", "thumbnail.jpg_large.jpg", ImageSize.LARGE) ]
      ∧ (∀ call ∈ resizeCalls
            (VideoConverter.extractThumbnail sampleFile "thumbnail.jpg" okThumbnailEnv {}).2.trace,
          call.2.1 ∉ ["thumbnail_small.jpg", "thumbail_small.jpg", "thumbnail_medium.jpg",
            "thumbnail_large.jpg"]) := by
  decide!

/-- C17, the code at a failing input: the thumbnail path cannot be opened for writing,
`saveFrameAsJPEG` throws, the handler frees `codecContext`, `formatContext`, `frame` and
`packet`, and `extractThumbnail` is left with `rgbFrame` and `swsContext` still held:
neither is ever released. When nothing fails every resource is released exactly once. -/
theorem extractThumbnail_leaks_when_save_throws :
    (VideoConverter.extractThumbnail sampleFile "thumbnail.jpg" unwritableThumbnailEnv {}).1
        = Outcome.threw Exception.couldNotOpenThumbnailFile
      ∧ heldAfter []
          (VideoConverter.extractThumbnail sampleFile "thumbnail.jpg"
            unwritableThumbnailEnv {}).2.trace
          = some [Resource.rgbFrame, Resource.swsContext]
      ∧ Event.release Resource.rgbFrame
          ∉ (VideoConverter.extractThumbnail sampleFile "thumbnail.jpg"
              unwritableThumbnailEnv {}).2.trace
      ∧ Event.release Resource.swsContext
          ∉ (VideoConverter.extractThumbnail sampleFile "thumbnail.jpg"
              unwritableThumbnailEnv {}).2.trace
      ∧ heldAfter []
          (VideoConverter.extractThumbnail sampleFile "thumbnail.jpg" okThumbnailEnv {}).2.trace
          = some [] := by
  decide!

/-! ## Seek target and decode loop of `extractThumbnail` -/

theorem VideoConverter.seekTarget_eq_zero_iff (duration : Int) :
    VideoConverter.seekTarget duration = 0 ↔ -10 < duration ∧ duration < 10 := by
  unfold VideoConverter.seekTarget
  rcases le_or_lt 0 duration with h | h
  · rw [Int.tdiv_eq_ediv h (by decide)]
    omega
  · obtain ⟨n, hn⟩ : ∃ n : Int, duration = -n := ⟨-duration, by omega⟩
    subst hn
    rw [Int.neg_tdiv, Int.tdiv_eq_ediv (by omega) (by decide)]
    omega

/-- C12 as stated fails: for the "no value" duration, the smallest 64-bit integer, the
seek target is -922337203685477580, not 0, and that is the target `extractThumbnail`
seeks to. -/
theorem seekTarget_unknown_duration_not_zero :
    VideoConverter.seekTarget AV_NOPTS_VALUE = -922337203685477580
      ∧ VideoConverter.seekTarget AV_NOPTS_VALUE ≠ 0
      ∧ unknownDurationFile.duration = AV_NOPTS_VALUE
      ∧ seekTargets
          (VideoConverter.extractThumbnail unknownDurationFile "thumbnail.jpg"
            okThumbnailEnv {}).2.trace
          = [-922337203685477580] := by
  refine ⟨by decide, by decide, by decide, by decide!⟩

/-- C12 amended: the seek target is the duration divided by 10 with the quotient truncated
towards zero (the floor quotient for a duration that is not negative, minus the floor
quotient of the negated duration otherwise); it is 0 exactly for durations between -9 and
9, in particular for duration 0. -/
theorem seekTarget_tenth_of_duration (duration : Int) :
    (0 ≤ duration → VideoConverter.seekTarget duration = duration / 10)
      ∧ (duration < 0 → VideoConverter.seekTarget duration = -((-duration) / 10))
      ∧ VideoConverter.seekTarget 0 = 0
      ∧ (VideoConverter.seekTarget duration = 0 ↔ -10 < duration ∧ duration < 10) := by
  refine ⟨?_, ?_, by decide, VideoConverter.seekTarget_eq_zero_iff duration⟩
  · intro h
    unfold VideoConverter.seekTarget
    exact Int.tdiv_eq_ediv h (by decide)
  · intro h
    unfold VideoConverter.seekTarget
    obtain ⟨n, hn⟩ : ∃ n : Int, duration = -n := ⟨-duration, by omega⟩
    subst hn
    rw [Int.neg_tdiv, Int.tdiv_eq_ediv (by omega) (by decide), neg_neg]

theorem seekTarget_tenth_of_duration_witness :
    VideoConverter.seekTarget 1234567 = 1234567 / 10 :=
  (seekTarget_tenth_of_duration 1234567).1 (by decide)

/-- C13 as stated fails: the decoder rejects the first packet of the selected stream with
`AVERROR_INVALIDDATA` when it is sent, which is neither `AVERROR(EAGAIN)` nor
`AVERROR_EOF`; the packet is skipped, the next one is decoded and the extraction
returns with the thumbnail of picture 9. -/
theorem extractThumbnail_skips_failed_send :
    AVERROR_INVALIDDATA ≠ AVERROR_EAGAIN ∧ AVERROR_INVALIDDATA ≠ AVERROR_EOF
      ∧ corruptFirstPacketFile.packets.head?
          = some { stream_index := 0, sendRet := AVERROR_INVALIDDATA, receiveRet := 0,
                   picture := 0 }
      ∧ (VideoConverter.extractThumbnail corruptFirstPacketFile "thumbnail.jpg"
            okThumbnailEnv {}).1 = Outcome.returned ()
      ∧ savedFrames
          (VideoConverter.extractThumbnail corruptFirstPacketFile "thumbnail.jpg"
            okThumbnailEnv {}).2.trace
          = [(9, "thumbnail.jpg")] := by
  refine ⟨by decide, by decide, by decide, by decide!, by decide!⟩

/-- C13 amended: in the decode loop a packet of the selected stream is skipped without
error exactly when `avcodec_send_packet` reports any error or, the packet once sent,
`avcodec_receive_frame` reports `AVERROR(EAGAIN)` or `AVERROR_EOF`; any other error of
`avcodec_receive_frame` ends the loop with "Error while decoding"; a packet that is
sent and gives a frame goes on to the thumbnail. -/
theorem decodeLoop_skip_or_abort (env : ThumbnailEnv) (videoStreamIndex : Int)
    (par : AVCodecParameters) (thumbnailPath : String) (p : AVPacket) (rest : List AVPacket)
    (s : ExtractThumbnail) (hp : p.stream_index = videoStreamIndex) :
    (p.sendRet < 0 →
        VideoConverter.decodeLoop env videoStreamIndex par thumbnailPath (p :: rest) s
          = VideoConverter.decodeLoop env videoStreamIndex par thumbnailPath rest
              { s with trace := s.trace ++ [Event.read p, Event.sendPacket p] })
      ∧ (0 ≤ p.sendRet → (p.receiveRet = AVERROR_EAGAIN ∨ p.receiveRet = AVERROR_EOF) →
        VideoConverter.decodeLoop env videoStreamIndex par thumbnailPath (p :: rest) s
          = VideoConverter.decodeLoop env videoStreamIndex par thumbnailPath rest
              { s with trace := s.trace ++ [Event.read p, Event.sendPacket p,
                                            Event.receiveFrame p] })
      ∧ (0 ≤ p.sendRet → p.receiveRet < 0 → p.receiveRet ≠ AVERROR_EAGAIN →
          p.receiveRet ≠ AVERROR_EOF →
        VideoConverter.decodeLoop env videoStreamIndex par thumbnailPath (p :: rest) s
          = (Outcome.threw Exception.errorWhileDecoding,
              { s with trace := s.trace ++ [Event.read p, Event.sendPacket p,
                                            Event.receiveFrame p] }))
      ∧ (0 ≤ p.sendRet → 0 ≤ p.receiveRet →
        VideoConverter.decodeLoop env videoStreamIndex par thumbnailPath (p :: rest) s
          = VideoConverter.makeThumbnails env par p.picture thumbnailPath
              { s with trace := s.trace ++ [Event.read p, Event.sendPacket p,
                                            Event.receiveFrame p] }) := by
  refine ⟨?_, ?_, ?_, ?_⟩
  · intro h1
    simp [VideoConverter.decodeLoop, bind, Routine.andThen, Routine.update,
      VideoConverter.log, hp, h1]
  · intro h1 h2
    have h1n : ¬ p.sendRet < 0 := by omega
    simp [VideoConverter.decodeLoop, bind, Routine.andThen, Routine.update,
      VideoConverter.log, hp, h1n, h2]
  · intro h1 h2 h3 h4
    have h1n : ¬ p.sendRet < 0 := by omega
    simp [VideoConverter.decodeLoop, bind, Routine.andThen, Routine.update,
      VideoConverter.log, Routine.raise, hp, h1n, h2, h3, h4]
  · intro h1 h2
    have h1n : ¬ p.sendRet < 0 := by omega
    have h2n : ¬ p.receiveRet < 0 := by omega
    have h3 : p.receiveRet ≠ AVERROR_EAGAIN := by
      intro h; rw [h] at h2; exact absurd h2 (by decide)
    have h4 : p.receiveRet ≠ AVERROR_EOF := by
      intro h; rw [h] at h2; exact absurd h2 (by decide)
    simp [VideoConverter.decodeLoop, bind, Routine.andThen, Routine.update,
      VideoConverter.log, hp, h1n, h2n, h3, h4]

theorem decodeLoop_skip_or_abort_witness :
    VideoConverter.decodeLoop okThumbnailEnv 0 videoStream "thumbnail.jpg"
        corruptFirstPacketFile.packets {}
      = VideoConverter.decodeLoop okThumbnailEnv 0 videoStream "thumbnail.jpg"
          (corruptFirstPacketFile.packets.drop 1)
          { trace := [Event.read { stream_index := 0, sendRet := AVERROR_INVALIDDATA,
                                   receiveRet := 0, picture := 0 },
                      Event.sendPacket { stream_index := 0, sendRet := AVERROR_INVALIDDATA,
                                         receiveRet := 0, picture := 0 }] } :=
  (decodeLoop_skip_or_abort okThumbnailEnv 0 videoStream "thumbnail.jpg"
    { stream_index := 0, sendRet := AVERROR_INVALIDDATA, receiveRet := 0, picture := 0 }
    (corruptFirstPacketFile.packets.drop 1) {} rfl).1 (by decide)

/-! ## Preset heights -/

/-- C20 as stated fails: a 1000x1 original resized to SMALL gets target height 0, and
`resizeWithPreset` passes that height on to `resize`. -/
theorem calculateHeight_preset_can_be_zero :
    FFmpegResizer.calculateHeight SMALL_WIDTH 1000 1 = some 0
      ∧ FFmpegResizer.getOriginalDimensions wideFile {}
          = (Outcome.returned (some (1000, 1)),
              { trace := [Event.acquire Resource.inputFormatContext,
                          Event.release Resource.inputFormatContext] })
      ∧ FFmpegResizer.resizeWithPreset wideFile okLib ImageSize.SMALL {}
          = FFmpegResizer.resize wideFile okLib 250 0
              { trace := [Event.acquire Resource.inputFormatContext,
                          Event.release Resource.inputFormatContext] } := by
  refine ⟨by decide!, by decide, by decide!⟩

/-- C20 amended: for an original size with `originalWidth ≥ 1` and `originalHeight ≥ 1`
and a preset width 250, 350 or 650 (the rounded height in `int` range) the target height
`calculateHeight` gives is never negative, and it is at least 1 exactly when
`originalWidth ≤ 2 * originalHeight * targetWidth`; for a wider original it is 0. -/
theorem calculateHeight_preset_positive_iff (targetWidth originalWidth originalHeight : Int)
    (hw : 1 ≤ originalWidth) (hh : 1 ≤ originalHeight)
    (ht : targetWidth ∈ [SMALL_WIDTH, MEDIUM_WIDTH, LARGE_WIDTH])
    (hr : (2 * originalHeight * targetWidth + originalWidth) / (2 * originalWidth) ≤ INT_MAX) :
    ∃ H, FFmpegResizer.calculateHeight targetWidth originalWidth originalHeight = some H
      ∧ 0 ≤ H
      ∧ (1 ≤ H ↔ originalWidth ≤ 2 * originalHeight * targetWidth)
      ∧ (2 * originalHeight * targetWidth < originalWidth → H = 0) := by
  have ht0 : 0 ≤ targetWidth := by
    simp only [SMALL_WIDTH, MEDIUM_WIDTH, LARGE_WIDTH, List.mem_cons, List.mem_singleton,
      List.not_mem_nil, or_false] at ht
    omega
  have hv := FFmpegResizer.calculateHeight_value targetWidth originalWidth originalHeight
    (by omega) (by omega) ht0
  rw [if_pos hr] at hv
  have hb := FFmpegResizer.half_up_bounds (originalHeight * targetWidth) originalWidth (by omega)
  rw [← mul_assoc] at hb
  have hprod : 0 ≤ originalHeight * targetWidth := by positivity
  have hnn : 0 ≤ (2 * originalHeight * targetWidth + originalWidth) / (2 * originalWidth) :=
    Int.ediv_nonneg (by nlinarith) (by omega)
  refine ⟨_, hv, hnn, ?_, ?_⟩
  · constructor
    · intro h1
      nlinarith [hb.1, hb.2]
    · intro h2
      by_contra hlt
      have h0 : (2 * originalHeight * targetWidth + originalWidth) / (2 * originalWidth) = 0 := by
        omega
      rw [h0] at hb
      nlinarith [hb.1, hb.2]
  · intro h3
    by_contra hne
    have h1 : 1 ≤ (2 * originalHeight * targetWidth + originalWidth) / (2 * originalWidth) := by
      omega
    nlinarith [hb.1, hb.2]

theorem calculateHeight_preset_positive_iff_witness :
    ∃ H, FFmpegResizer.calculateHeight 250 650 488 = some H
      ∧ 0 ≤ H
      ∧ (1 ≤ H ↔ (650 : Int) ≤ 2 * 488 * 250)
      ∧ ((2 : Int) * 488 * 250 < 650 → H = 0) :=
  calculateHeight_preset_positive_iff 250 650 488 (by decide) (by decide) (by decide)
    (by decide)

/-! ## Handles of the resizer across calls -/

/-- What `writeJPEG` leaves when it returns: the members as they were, and in the trace
its local resources acquired and released again. -/
theorem FFmpegResizer.writeJPEG_held (lib : LibAv) (w h : Int) (s : FFmpegResizer)
    (held : List Resource) (hheld : heldAfter [] s.trace = some held)
    (hret : (FFmpegResizer.writeJPEG lib w h s).1 = Outcome.returned ()) :
    heldAfter [] (FFmpegResizer.writeJPEG lib w h s).2.trace = some held
      ∧ (FFmpegResizer.writeJPEG lib w h s).2.allSet = s.allSet := by
  revert hret
  simp only [FFmpegResizer.writeJPEG, bind, pure, Method.andThen, Method.ret, Method.update,
    Method.log, Method.self, Method.raise, Method.undefinedBehaviour, ite_apply]
  split_ifs <;> simp [heldAfter, hheld, FFmpegResizer.allSet]

theorem FFmpegResizer.readFrames_held (lib : LibAv) (w h : Int) (ps : List AVPacket)
    (s : FFmpegResizer) (held : List Resource) (hheld : heldAfter [] s.trace = some held)
    (hret : (FFmpegResizer.readFrames lib w h ps s).1 = Outcome.returned ()) :
    heldAfter [] (FFmpegResizer.readFrames lib w h ps s).2.trace = some held
      ∧ (FFmpegResizer.readFrames lib w h ps s).2.allSet = s.allSet := by
  induction ps generalizing s with
  | nil => simpa [FFmpegResizer.readFrames, pure, Method.ret] using hheld
  | cons p rest ih =>
    by_cases h1 : p.stream_index = s.videoStreamIndex
    · by_cases h2 : p.sendRet < 0
      · have hi := ih { s with trace := s.trace ++ [Event.read p, Event.sendPacket p] }
          (by simp [heldAfter, hheld])
        simp only [FFmpegResizer.readFrames, FFmpegResizer.processPacket, bind, pure,
          Method.andThen, Method.ret, Method.update, Method.log, Method.self, h1, h2, if_true,
          List.append_assoc, List.singleton_append] at hret ⊢
        exact hi hret
      · by_cases h3 : p.receiveRet < 0
        · have hi := ih { s with trace := s.trace ++ [Event.read p, Event.sendPacket p,
            Event.receiveFrame p] } (by simp [heldAfter, hheld])
          simp only [FFmpegResizer.readFrames, FFmpegResizer.processPacket, bind, pure,
            Method.andThen, Method.ret, Method.update, Method.log, Method.self, h1, h2, h3,
            if_true, if_false, List.append_assoc, List.singleton_append] at hret ⊢
          exact hi hret
        · have hj := FFmpegResizer.writeJPEG_held lib w h
            { s with dstPicture := some p.picture,
                     trace := s.trace ++ [Event.read p, Event.sendPacket p,
                       Event.receiveFrame p, Event.scale p.picture] }
            held (by simp [heldAfter, hheld])
          simp only [FFmpegResizer.readFrames, FFmpegResizer.processPacket, bind, pure,
            Method.andThen, Method.ret, Method.update, Method.log, Method.self, h1, h2, h3,
            if_true, if_false, List.append_assoc, List.singleton_append] at hret ⊢
          exact hj hret
    · have hi := ih { s with trace := s.trace ++ [Event.read p] } (by simp [heldAfter, hheld])
      simp only [FFmpegResizer.readFrames, bind, pure,
        Method.andThen, Method.ret, Method.update, Method.log, Method.self, h1,
        if_false, List.append_assoc, List.singleton_append] at hret ⊢
      exact hi hret

/-- A set-up that returns has acquired the six resources of the object, in this order:
container, decoder context, frame, packet, scaler, destination buffer. -/
theorem FFmpegResizer.setup_held (input : MediaFile) (lib : LibAv) (w h : Int)
    (s : FFmpegResizer) (held : List Resource) (hheld : heldAfter [] s.trace = some held)
    (hret : (FFmpegResizer.setup input lib w h s).1 = Outcome.returned ()) :
    heldAfter [] (FFmpegResizer.setup input lib w h s).2.trace
        = some (Resource.dstData :: Resource.swsContext :: Resource.packet :: Resource.frame
            :: Resource.codecContext :: Resource.inputFormatContext :: held)
      ∧ (FFmpegResizer.setup input lib w h s).2.allSet = true := by
  revert hret
  rcases hf : FFmpegResizer.findVideoStream input.streams 0 with _ | ⟨i, par⟩
  · by_cases c1 : input.openRet = 0
    swap
    · simp [FFmpegResizer.setup, bind, pure, Method.andThen, Method.ret, Method.update,
      Method.log, Method.self, Method.raise, Method.undefinedBehaviour, heldAfter, hheld,
      FFmpegResizer.allSet, hf, c1]
    by_cases c2 : input.findStreamInfoRet < 0
    · simp [FFmpegResizer.setup, bind, pure, Method.andThen, Method.ret, Method.update,
      Method.log, Method.self, Method.raise, Method.undefinedBehaviour, heldAfter, hheld,
      FFmpegResizer.allSet, hf, c1, c2]
    by_cases c3 : s.videoStreamIndex = -1
    · simp [FFmpegResizer.setup, bind, pure, Method.andThen, Method.ret, Method.update,
      Method.log, Method.self, Method.raise, Method.undefinedBehaviour, heldAfter, hheld,
      FFmpegResizer.allSet, hf, c1, c2, c3]
    rcases hs : FFmpegResizer.streamAt input.streams (s.videoStreamIndex) with _ | codecParams
    · simp [FFmpegResizer.setup, bind, pure, Method.andThen, Method.ret, Method.update,
      Method.log, Method.self, Method.raise, Method.undefinedBehaviour, heldAfter, hheld,
      FFmpegResizer.allSet, hf, c1, c2, c3, hs]
    by_cases c4 : lib.find_decoder codecParams.codec_id = true
    swap
    · simp [FFmpegResizer.setup, bind, pure, Method.andThen, Method.ret, Method.update,
      Method.log, Method.self, Method.raise, Method.undefinedBehaviour, heldAfter, hheld,
      FFmpegResizer.allSet, hf, c1, c2, c3, hs, c4]
    by_cases c5 : lib.alloc_context3 = true
    swap
    · simp [FFmpegResizer.setup, bind, pure, Method.andThen, Method.ret, Method.update,
      Method.log, Method.self, Method.raise, Method.undefinedBehaviour, heldAfter, hheld,
      FFmpegResizer.allSet, hf, c1, c2, c3, hs, c4, c5]
    by_cases c6 : lib.parameters_to_context < 0
    · simp [FFmpegResizer.setup, bind, pure, Method.andThen, Method.ret, Method.update,
      Method.log, Method.self, Method.raise, Method.undefinedBehaviour, heldAfter, hheld,
      FFmpegResizer.allSet, hf, c1, c2, c3, hs, c4, c5, c6]
    by_cases c7 : lib.open2 < 0
    · simp [FFmpegResizer.setup, bind, pure, Method.andThen, Method.ret, Method.update,
      Method.log, Method.self, Method.raise, Method.undefinedBehaviour, heldAfter, hheld,
      FFmpegResizer.allSet, hf, c1, c2, c3, hs, c4, c5, c6, c7]
    by_cases c8 : lib.frame_alloc = true
    swap
    · by_cases c9 : lib.packet_alloc = true <;>
        simp [FFmpegResizer.setup, bind, pure, Method.andThen, Method.ret, Method.update,
      Method.log, Method.self, Method.raise, Method.undefinedBehaviour, heldAfter, hheld,
      FFmpegResizer.allSet, hf, c1, c2, c3, hs, c4, c5, c6, c7, c8, c9]
    by_cases c9 : lib.packet_alloc = true
    swap
    · simp [FFmpegResizer.setup, bind, pure, Method.andThen, Method.ret, Method.update,
      Method.log, Method.self, Method.raise, Method.undefinedBehaviour, heldAfter, hheld,
      FFmpegResizer.allSet, hf, c1, c2, c3, hs, c4, c5, c6, c7, c8, c9]
    by_cases c10 : lib.sws_getContext codecParams.width codecParams.height w h = true
    swap
    · simp [FFmpegResizer.setup, bind, pure, Method.andThen, Method.ret, Method.update,
      Method.log, Method.self, Method.raise, Method.undefinedBehaviour, heldAfter, hheld,
      FFmpegResizer.allSet, hf, c1, c2, c3, hs, c4, c5, c6, c7, c8, c9, c10]
    by_cases c11 : lib.image_alloc < 0
    · simp [FFmpegResizer.setup, bind, pure, Method.andThen, Method.ret, Method.update,
      Method.log, Method.self, Method.raise, Method.undefinedBehaviour, heldAfter, hheld,
      FFmpegResizer.allSet, hf, c1, c2, c3, hs, c4, c5, c6, c7, c8, c9, c10, c11]
    simp [FFmpegResizer.setup, bind, pure, Method.andThen, Method.ret, Method.update,
      Method.log, Method.self, Method.raise, Method.undefinedBehaviour, heldAfter, hheld,
      FFmpegResizer.allSet, hf, c1, c2, c3, hs, c4, c5, c6, c7, c8, c9, c10, c11]
  · by_cases c1 : input.openRet = 0
    swap
    · simp [FFmpegResizer.setup, bind, pure, Method.andThen, Method.ret, Method.update,
      Method.log, Method.self, Method.raise, Method.undefinedBehaviour, heldAfter, hheld,
      FFmpegResizer.allSet, hf, c1]
    by_cases c2 : input.findStreamInfoRet < 0
    · simp [FFmpegResizer.setup, bind, pure, Method.andThen, Method.ret, Method.update,
      Method.log, Method.self, Method.raise, Method.undefinedBehaviour, heldAfter, hheld,
      FFmpegResizer.allSet, hf, c1, c2]
    by_cases c3 : (i : Int) = -1
    · simp [FFmpegResizer.setup, bind, pure, Method.andThen, Method.ret, Method.update,
      Method.log, Method.self, Method.raise, Method.undefinedBehaviour, heldAfter, hheld,
      FFmpegResizer.allSet, hf, c1, c2, c3]
    rcases hs : FFmpegResizer.streamAt input.streams ((i : Int)) with _ | codecParams
    · simp [FFmpegResizer.setup, bind, pure, Method.andThen, Method.ret, Method.update,
      Method.log, Method.self, Method.raise, Method.undefinedBehaviour, heldAfter, hheld,
      FFmpegResizer.allSet, hf, c1, c2, c3, hs]
    by_cases c4 : lib.find_decoder codecParams.codec_id = true
    swap
    · simp [FFmpegResizer.setup, bind, pure, Method.andThen, Method.ret, Method.update,
      Method.log, Method.self, Method.raise, Method.undefinedBehaviour, heldAfter, hheld,
      FFmpegResizer.allSet, hf, c1, c2, c3, hs, c4]
    by_cases c5 : lib.alloc_context3 = true
    swap
    · simp [FFmpegResizer.setup, bind, pure, Method.andThen, Method.ret, Method.update,
      Method.log, Method.self, Method.raise, Method.undefinedBehaviour, heldAfter, hheld,
      FFmpegResizer.allSet, hf, c1, c2, c3, hs, c4, c5]
    by_cases c6 : lib.parameters_to_context < 0
    · simp [FFmpegResizer.setup, bind, pure, Method.andThen, Method.ret, Method.update,
      Method.log, Method.self, Method.raise, Method.undefinedBehaviour, heldAfter, hheld,
      FFmpegResizer.allSet, hf, c1, c2, c3, hs, c4, c5, c6]
    by_cases c7 : lib.open2 < 0
    · simp [FFmpegResizer.setup, bind, pure, Method.andThen, Method.ret, Method.update,
      Method.log, Method.self, Method.raise, Method.undefinedBehaviour, heldAfter, hheld,
      FFmpegResizer.allSet, hf, c1, c2, c3, hs, c4, c5, c6, c7]
    by_cases c8 : lib.frame_alloc = true
    swap
    · by_cases c9 : lib.packet_alloc = true <;>
        simp [FFmpegResizer.setup, bind, pure, Method.andThen, Method.ret, Method.update,
      Method.log, Method.self, Method.raise, Method.undefinedBehaviour, heldAfter, hheld,
      FFmpegResizer.allSet, hf, c1, c2, c3, hs, c4, c5, c6, c7, c8, c9]
    by_cases c9 : lib.packet_alloc = true
    swap
    · simp [FFmpegResizer.setup, bind, pure, Method.andThen, Method.ret, Method.update,
      Method.log, Method.self, Method.raise, Method.undefinedBehaviour, heldAfter, hheld,
      FFmpegResizer.allSet, hf, c1, c2, c3, hs, c4, c5, c6, c7, c8, c9]
    by_cases c10 : lib.sws_getContext codecParams.width codecParams.height w h = true
    swap
    · simp [FFmpegResizer.setup, bind, pure, Method.andThen, Method.ret, Method.update,
      Method.log, Method.self, Method.raise, Method.undefinedBehaviour, heldAfter, hheld,
      FFmpegResizer.allSet, hf, c1, c2, c3, hs, c4, c5, c6, c7, c8, c9, c10]
    by_cases c11 : lib.image_alloc < 0
    · simp [FFmpegResizer.setup, bind, pure, Method.andThen, Method.ret, Method.update,
      Method.log, Method.self, Method.raise, Method.undefinedBehaviour, heldAfter, hheld,
      FFmpegResizer.allSet, hf, c1, c2, c3, hs, c4, c5, c6, c7, c8, c9, c10, c11]
    simp [FFmpegResizer.setup, bind, pure, Method.andThen, Method.ret, Method.update,
      Method.log, Method.self, Method.raise, Method.undefinedBehaviour, heldAfter, hheld,
      FFmpegResizer.allSet, hf, c1, c2, c3, hs, c4, c5, c6, c7, c8, c9, c10, c11]

/-- With all six handles set and the six resources held, `cleanup` releases each once
and leaves every handle null. -/
theorem FFmpegResizer.cleanup_releases_all (s : FFmpegResizer) (held : List Resource)
    (hset : s.allSet = true)
    (hheld : heldAfter [] s.trace
      = some (Resource.dstData :: Resource.swsContext :: Resource.packet :: Resource.frame
          :: Resource.codecContext :: Resource.inputFormatContext :: held)) :
    (FFmpegResizer.cleanup s).1 = Outcome.returned ()
      ∧ (FFmpegResizer.cleanup s).2.allNull = true
      ∧ heldAfter [] (FFmpegResizer.cleanup s).2.trace = some held := by
  obtain ⟨a, b, c, d, e, f, v, ow, oh, pic, t⟩ := s
  simp only [FFmpegResizer.allSet, Bool.and_eq_true] at hset
  obtain ⟨⟨⟨⟨⟨ha, hb⟩, hc⟩, hd⟩, he⟩, hf⟩ := hset
  subst ha hb hc hd he hf
  simp only at hheld
  simp [FFmpegResizer.cleanup, bind, pure, Method.andThen, Method.ret, Method.update,
    Method.log, Method.self, FFmpegResizer.allNull, heldAfter, hheld]

/-- With every handle null, `cleanup` does nothing. -/
theorem FFmpegResizer.cleanup_of_allNull (s : FFmpegResizer) (hnull : s.allNull = true) :
    FFmpegResizer.cleanup s = (Outcome.returned (), s) := by
  obtain ⟨a, b, c, d, e, f, v, ow, oh, pic, t⟩ := s
  simp only [FFmpegResizer.allNull, Bool.and_eq_true, Bool.not_eq_true'] at hnull
  obtain ⟨⟨⟨⟨⟨ha, hb⟩, hc⟩, hd⟩, he⟩, hf⟩ := hnull
  subst ha hb hc hd he hf
  simp [FFmpegResizer.cleanup, bind, pure, Method.andThen, Method.ret, Method.update,
    Method.log, Method.self]

/-- After `cleanup` every handle is null, whatever the state before. -/
theorem FFmpegResizer.cleanup_allNull (s : FFmpegResizer) :
    (FFmpegResizer.cleanup s).2.allNull = true := by
  obtain ⟨-, h1, h2, h3, h4, h5, h6, -⟩ := FFmpegResizer.cleanup_spec s
  simp [FFmpegResizer.allNull, h1, h2, h3, h4, h5, h6]

/-- The probe keeps "no handle set, nothing held". -/
theorem FFmpegResizer.getOriginalDimensions_keeps_null (input : MediaFile) (s : FFmpegResizer)
    (hnull : s.allNull = true) (hheld : heldAfter [] s.trace = some []) :
    (∃ r, (FFmpegResizer.getOriginalDimensions input s).1 = Outcome.returned r)
      ∧ (FFmpegResizer.getOriginalDimensions input s).2.allNull = true
      ∧ heldAfter [] (FFmpegResizer.getOriginalDimensions input s).2.trace = some [] := by
  simp only [FFmpegResizer.allNull, Bool.and_eq_true, Bool.not_eq_true'] at hnull
  obtain ⟨⟨⟨⟨⟨ha, hb⟩, hc⟩, hd⟩, he⟩, hf⟩ := hnull
  by_cases h1 : input.openRet < 0
  · simp [FFmpegResizer.getOriginalDimensions, h1, bind, pure, Method.andThen, Method.ret,
      Method.update, FFmpegResizer.allNull, hb, hc, hd, he, hf, hheld]
  · by_cases h2 : input.findStreamInfoRet < 0
    · simp [FFmpegResizer.getOriginalDimensions, h1, h2, bind, pure, Method.andThen, Method.ret,
        Method.update, Method.log, FFmpegResizer.allNull, hb, hc, hd, he, hf, hheld, heldAfter]
    · cases hfv : FFmpegResizer.findVideoStream input.streams 0 with
      | none =>
        simp [FFmpegResizer.getOriginalDimensions, h1, h2, hfv, bind, pure, Method.andThen,
          Method.ret, Method.update, Method.log, FFmpegResizer.allNull, hb, hc, hd, he, hf,
          hheld, heldAfter]
      | some ip =>
        simp [FFmpegResizer.getOriginalDimensions, h1, h2, hfv, bind, pure, Method.andThen,
          Method.ret, Method.update, Method.log, FFmpegResizer.allNull, hb, hc, hd, he, hf,
          hheld, heldAfter]

/-- A `resize` that returns keeps "no handle set, nothing held": what it acquired it has
released, each resource once. -/
theorem FFmpegResizer.resize_keeps_null (input : MediaFile) (lib : LibAv) (w h : Int)
    (s : FFmpegResizer) (hheld : heldAfter [] s.trace = some [])
    (hret : (FFmpegResizer.resize input lib w h s).1 = Outcome.returned ()) :
    (FFmpegResizer.resize input lib w h s).2.allNull = true
      ∧ heldAfter [] (FFmpegResizer.resize input lib w h s).2.trace = some [] := by
  have hsetup := FFmpegResizer.setup_held input lib w h s [] hheld
  rcases h1 : FFmpegResizer.setup input lib w h s with ⟨o1, s1⟩
  rw [h1] at hsetup
  cases o1 with
  | returned u =>
    obtain ⟨hs1, hset1⟩ := hsetup rfl
    have hloop := FFmpegResizer.readFrames_held lib w h input.packets s1 _ hs1
    rcases h2 : FFmpegResizer.readFrames lib w h input.packets s1 with ⟨o2, s2⟩
    rw [h2] at hloop
    cases o2 with
    | returned u2 =>
      obtain ⟨hs2, hset2⟩ := hloop rfl
      have hresize : FFmpegResizer.resize input lib w h s = FFmpegResizer.cleanup s2 := by
        simp only [FFmpegResizer.resize, bind, Method.andThen, h1, h2]
      have hc := FFmpegResizer.cleanup_releases_all s2 [] (by rw [hset2]; exact hset1) hs2
      rw [hresize]
      exact ⟨hc.2.1, hc.2.2⟩
    | threw e =>
      have hresize : FFmpegResizer.resize input lib w h s = (Outcome.threw e, s2) := by
        simp only [FFmpegResizer.resize, bind, Method.andThen, h1, h2]
      rw [hresize] at hret
      simp at hret
    | undefined =>
      have hresize : FFmpegResizer.resize input lib w h s = (Outcome.undefined, s2) := by
        simp only [FFmpegResizer.resize, bind, Method.andThen, h1, h2]
      rw [hresize] at hret
      simp at hret
  | threw e =>
    have hresize : FFmpegResizer.resize input lib w h s = (Outcome.threw e, s1) := by
      simp only [FFmpegResizer.resize, bind, Method.andThen, h1]
    rw [hresize] at hret
    simp at hret
  | undefined =>
    have hresize : FFmpegResizer.resize input lib w h s = (Outcome.undefined, s1) := by
      simp only [FFmpegResizer.resize, bind, Method.andThen, h1]
    rw [hresize] at hret
    simp at hret

/-- A sequence of calls that all return keeps "no handle set, nothing held". -/
theorem runCalls_keeps_null (calls : List Call) (s : FFmpegResizer)
    (hnull : s.allNull = true) (hheld : heldAfter [] s.trace = some [])
    (hret : (runCalls calls s).1 = Outcome.returned ()) :
    (runCalls calls s).2.allNull = true ∧ heldAfter [] (runCalls calls s).2.trace = some [] := by
  induction calls generalizing s with
  | nil => exact ⟨hnull, hheld⟩
  | cons c rest ih =>
    cases c with
    | getOriginalDimensions input =>
      obtain ⟨⟨r, hr⟩, hn1, hh1⟩ :=
        FFmpegResizer.getOriginalDimensions_keeps_null input s hnull hheld
      rcases hp : FFmpegResizer.getOriginalDimensions input s with ⟨o1, s1⟩
      rw [hp] at hr hn1 hh1
      simp only at hr hn1 hh1
      subst hr
      have hrun : runCalls (Call.getOriginalDimensions input :: rest) s = runCalls rest s1 := by
        simp only [runCalls, bind, Method.andThen, hp]
      rw [hrun] at hret ⊢
      exact ih s1 hn1 hh1 hret
    | resize input lib w h =>
      rcases hp : FFmpegResizer.resize input lib w h s with ⟨o1, s1⟩
      cases o1 with
      | returned u =>
        have hk := FFmpegResizer.resize_keeps_null input lib w h s hheld (by rw [hp])
        rw [hp] at hk
        have hrun : runCalls (Call.resize input lib w h :: rest) s = runCalls rest s1 := by
          simp only [runCalls, bind, Method.andThen, hp]
        rw [hrun] at hret ⊢
        exact ih s1 hk.1 hk.2 hret
      | threw e =>
        have hrun : runCalls (Call.resize input lib w h :: rest) s = (Outcome.threw e, s1) := by
          simp only [runCalls, bind, Method.andThen, hp]
        rw [hrun] at hret
        simp at hret
      | undefined =>
        have hrun : runCalls (Call.resize input lib w h :: rest) s = (Outcome.undefined, s1) := by
          simp only [runCalls, bind, Method.andThen, hp]
        rw [hrun] at hret
        simp at hret

/-- C18: `cleanup` leaves every handle member null, so a second `cleanup` changes nothing and
releases nothing; and after any sequence of `getOriginalDimensions` and `resize` calls on a
new object that all return, the object holds no handle, the destructor releases nothing,
and in the whole trace every release meets a resource that is held: no handle is released
twice, and none is left held. -/
theorem cleanup_leaves_handles_null (calls : List Call)
    (hrun : (runCalls calls {}).1 = Outcome.returned ()) :
    (∀ s0 : FFmpegResizer,
        (FFmpegResizer.cleanup s0).2.allNull = true
          ∧ FFmpegResizer.cleanup (FFmpegResizer.cleanup s0).2
              = (Outcome.returned (), (FFmpegResizer.cleanup s0).2))
      ∧ (runCalls calls {}).2.allNull = true
      ∧ FFmpegResizer.destroy (runCalls calls {}).2 = (Outcome.returned (), (runCalls calls {}).2)
      ∧ heldAfter [] (FFmpegResizer.destroy (runCalls calls {}).2).2.trace = some [] := by
  have hk := runCalls_keeps_null calls {} rfl rfl hrun
  have hd : FFmpegResizer.destroy (runCalls calls {}).2
      = (Outcome.returned (), (runCalls calls {}).2) :=
    FFmpegResizer.cleanup_of_allNull _ hk.1
  refine ⟨?_, hk.1, hd, ?_⟩
  · intro s0
    exact ⟨FFmpegResizer.cleanup_allNull s0,
      FFmpegResizer.cleanup_of_allNull _ (FFmpegResizer.cleanup_allNull s0)⟩
  · rw [hd]
    exact hk.2

theorem cleanup_leaves_handles_null_witness :
    (runCalls [Call.getOriginalDimensions sampleFile, Call.resize sampleFile okLib 250 188,
        Call.resize videoOnlyFile okLib 350 263, Call.getOriginalDimensions audioOnlyFile] {}).2.allNull
        = true
      ∧ heldAfter []
          (FFmpegResizer.destroy
            (runCalls [Call.getOriginalDimensions sampleFile, Call.resize sampleFile okLib 250 188,
              Call.resize videoOnlyFile okLib 350 263,
              Call.getOriginalDimensions audioOnlyFile] {}).2).2.trace
          = some [] :=
  have h := cleanup_leaves_handles_null
    [Call.getOriginalDimensions sampleFile, Call.resize sampleFile okLib 250 188,
      Call.resize videoOnlyFile okLib 350 263, Call.getOriginalDimensions audioOnlyFile]
    (by decide)
  ⟨h.2.1, h.2.2.2⟩

/-! ## Stream search of `ImageResizer::resizeImage` -/

theorem ImageResizer.searchVideoStream_first (pre : List AVCodecParameters)
    (par : AVCodecParameters) (post : List AVCodecParameters)
    (codecParameters : Option AVCodecParameters)
    (hpre : ∀ q ∈ pre, q.codec_type ≠ AVMediaType.VIDEO)
    (hpar : par.codec_type = AVMediaType.VIDEO) :
    ImageResizer.searchVideoStream (pre ++ par :: post) codecParameters = some par := by
  induction pre generalizing codecParameters with
  | nil => simp [ImageResizer.searchVideoStream, hpar]
  | cons q rest ih =>
    have hq : q.codec_type ≠ AVMediaType.VIDEO := hpre q (by simp)
    have hrest : ∀ r ∈ rest, r.codec_type ≠ AVMediaType.VIDEO := fun r hr => hpre r (by simp [hr])
    show ImageResizer.searchVideoStream (q :: (rest ++ par :: post)) codecParameters = _
    simp only [ImageResizer.searchVideoStream, hq, if_false]
    exact ih (some q) hrest

/-- With no video-typed stream the search loop ends with the pointer at the parameters of
the last stream; it is null only when there is no stream at all. -/
theorem ImageResizer.searchVideoStream_no_video (streams : List AVCodecParameters)
    (codecParameters : Option AVCodecParameters)
    (hno : ∀ q ∈ streams, q.codec_type ≠ AVMediaType.VIDEO) :
    ImageResizer.searchVideoStream streams codecParameters
      = if streams = [] then codecParameters else streams.getLast? := by
  induction streams generalizing codecParameters with
  | nil => simp [ImageResizer.searchVideoStream]
  | cons q rest ih =>
    have hq : q.codec_type ≠ AVMediaType.VIDEO := hno q (by simp)
    have hrest : ∀ r ∈ rest, r.codec_type ≠ AVMediaType.VIDEO := fun r hr => hno r (by simp [hr])
    simp only [ImageResizer.searchVideoStream, hq, if_false, ih (some q) hrest]
    cases rest with
    | nil => simp
    | cons r rest2 => simp [List.getLast?_cons_cons]

/-- The read loop writes nothing to `std::cerr` and leaves `codecParameters` alone. -/
theorem ImageResizer.decodeAndScale_keeps (swsContext : Bool) (ps : List AVPacket)
    (s : ResizeImage) :
    (ImageResizer.decodeAndScale swsContext ps s).2.cerr = s.cerr
      ∧ (ImageResizer.decodeAndScale swsContext ps s).2.codecParameters
          = s.codecParameters := by
  induction ps generalizing s with
  | nil => simp [ImageResizer.decodeAndScale, pure, Routine.ret]
  | cons p rest ih =>
    by_cases h1 : p.stream_index = 0
    · by_cases h2 : 0 ≤ p.receiveRet
      · cases swsContext with
        | false =>
          simp [ImageResizer.decodeAndScale, bind, Routine.andThen, Routine.update,
            ImageResizer.log, Routine.undefinedBehaviour, h1, h2]
        | true =>
          have hi := ih { s with trace := s.trace ++ [Event.read p, Event.sendPacket p,
            Event.receiveFrame p, Event.scale p.picture] }
          simpa [ImageResizer.decodeAndScale, bind, Routine.andThen, Routine.update,
            ImageResizer.log, h1, h2] using hi
      · have hi := ih { s with trace := s.trace ++ [Event.read p, Event.sendPacket p,
          Event.receiveFrame p] }
        simpa [ImageResizer.decodeAndScale, bind, Routine.andThen, Routine.update,
          ImageResizer.log, h1, h2] using hi
    · have hi := ih { s with trace := s.trace ++ [Event.read p] }
      simpa [ImageResizer.decodeAndScale, bind, Routine.andThen, Routine.update,
        ImageResizer.log, h1] using hi

/-- On an input that opens, with stream info found and at least one stream but no
video-typed one, `resizeImage` leaves the search with the parameters of the last stream
and never writes the missing-video-stream line. -/
theorem ImageResizer.resizeImage_no_video (input : MediaFile) (lib : LibAv)
    (scaled_frame_alloc : Bool) (size : ImageResizer.Size)
    (hopen : 0 ≤ input.openRet) (hinfo : 0 ≤ input.findStreamInfoRet)
    (hne : input.streams ≠ [])
    (hno : ∀ q ∈ input.streams, q.codec_type ≠ AVMediaType.VIDEO) :
    (ImageResizer.resizeImage input lib scaled_frame_alloc size {}).2.codecParameters
        = input.streams.getLast?
      ∧ "Could not find a video stream in: "
          ∉ (ImageResizer.resizeImage input lib scaled_frame_alloc size {}).2.cerr := by
  have h1 : ¬ input.openRet < 0 := by omega
  have h2 : ¬ input.findStreamInfoRet < 0 := by omega
  obtain ⟨last, hlast⟩ : ∃ last, input.streams.getLast? = some last := by
    cases hs : input.streams.getLast? with
    | none => exact absurd (List.getLast?_eq_none_iff.mp hs) hne
    | some l => exact ⟨l, rfl⟩
  have hsearch : ImageResizer.searchVideoStream input.streams none = some last := by
    rw [ImageResizer.searchVideoStream_no_video input.streams none hno, if_neg hne, hlast]
  rw [hlast]
  by_cases c1 : lib.find_decoder last.codec_id = true
  swap
  · simp [ImageResizer.resizeImage, bind, pure, Routine.andThen, Routine.ret, Routine.update,
      Routine.self, ImageResizer.log, ImageResizer.say, h1, h2, hsearch, c1]
  by_cases c2 : lib.alloc_context3 = true
  swap
  · simp [ImageResizer.resizeImage, bind, pure, Routine.andThen, Routine.ret, Routine.update,
      Routine.self, ImageResizer.log, ImageResizer.say, h1, h2, hsearch, c1, c2]
  by_cases c3 : lib.parameters_to_context < 0
  · simp [ImageResizer.resizeImage, bind, pure, Routine.andThen, Routine.ret, Routine.update,
      Routine.self, ImageResizer.log, ImageResizer.say, h1, h2, hsearch, c1, c2, c3]
  by_cases c4 : lib.open2 < 0
  · simp [ImageResizer.resizeImage, bind, pure, Routine.andThen, Routine.ret, Routine.update,
      Routine.self, ImageResizer.log, ImageResizer.say, h1, h2, hsearch, c1, c2, c3, c4]
  by_cases c5 : lib.frame_alloc = true
  swap
  · cases scaled_frame_alloc <;>
      simp [ImageResizer.resizeImage, bind, pure, Routine.andThen, Routine.ret, Routine.update,
        Routine.self, ImageResizer.log, ImageResizer.say, h1, h2, hsearch, c1, c2, c3, c4, c5]
  cases scaled_frame_alloc with
  | false =>
    simp [ImageResizer.resizeImage, bind, pure, Routine.andThen, Routine.ret, Routine.update,
      Routine.self, ImageResizer.log, ImageResizer.say, h1, h2, hsearch, c1, c2, c3, c4, c5]
  | true =>
    by_cases c6 : size.toInt * last.width < INT_MIN ∨ INT_MAX < size.toInt * last.width
        ∨ size.toInt * last.height < INT_MIN ∨ INT_MAX < size.toInt * last.height
    · simp [ImageResizer.resizeImage, bind, pure, Routine.andThen, Routine.ret, Routine.update,
        Routine.self, ImageResizer.log, ImageResizer.say, Routine.undefinedBehaviour, h1, h2,
        hsearch, c1, c2, c3, c4, c5, c6]
    · cases c7 : lib.sws_getContext last.width last.height
          (Int.tdiv (size.toInt * last.width) 1024) (Int.tdiv (size.toInt * last.height) 1024)
      · have hk := ImageResizer.decodeAndScale_keeps false input.packets
          { codecParameters := some last,
            trace := [Event.acquire Resource.formatContext, Event.acquire Resource.codecContext,
              Event.acquire Resource.frame, Event.acquire Resource.scaledFrame] }
        rcases hd : ImageResizer.decodeAndScale false input.packets
          { codecParameters := some last,
            trace := [Event.acquire Resource.formatContext, Event.acquire Resource.codecContext,
              Event.acquire Resource.frame, Event.acquire Resource.scaledFrame] } with ⟨o, s2⟩
        rw [hd] at hk
        obtain ⟨hk1, hk2⟩ := hk
        simp only at hk1 hk2
        cases o <;>
          simp [ImageResizer.resizeImage, bind, pure, Routine.andThen, Routine.ret,
            Routine.update, Routine.self, ImageResizer.log, ImageResizer.say,
            Routine.undefinedBehaviour, h1, h2, hsearch, c1, c2, c3, c4, c5, c6, c7, hd, hk1,
            hk2]
      · have hk := ImageResizer.decodeAndScale_keeps true input.packets
          { codecParameters := some last,
            trace := [Event.acquire Resource.formatContext, Event.acquire Resource.codecContext,
              Event.acquire Resource.frame, Event.acquire Resource.scaledFrame,
              Event.acquire Resource.swsContext] }
        rcases hd : ImageResizer.decodeAndScale true input.packets
          { codecParameters := some last,
            trace := [Event.acquire Resource.formatContext, Event.acquire Resource.codecContext,
              Event.acquire Resource.frame, Event.acquire Resource.scaledFrame,
              Event.acquire Resource.swsContext] } with ⟨o, s2⟩
        rw [hd] at hk
        obtain ⟨hk1, hk2⟩ := hk
        simp only at hk1 hk2
        cases o <;>
          simp [ImageResizer.resizeImage, bind, pure, Routine.andThen, Routine.ret,
            Routine.update, Routine.self, ImageResizer.log, ImageResizer.say,
            Routine.undefinedBehaviour, h1, h2, hsearch, c1, c2, c3, c4, c5, c6, c7, hd, hk1,
            hk2]

/-- C21, the code at a failing input: an input whose only stream is audio. The search loop
assigns `codecParameters` before it tests the stream type, so the pointer is left at the
audio stream, the null test does not fire, no line is written to `std::cerr` and
`resizeImage` sets up a decoder with the audio parameters instead of returning `false`
(here it then reaches `sws_scale` with no scaler). The missing-video-stream line appears
only for an input with no stream at all; the same holds for every input that has streams
but no video-typed one. When there is a video-typed stream the parameters are those of the
first one, while the read loop decodes the packets of stream 0 whichever stream that is. -/
theorem resizeImage_without_video_stream_proceeds :
    (∀ q ∈ audioOnlyFile.streams, q.codec_type ≠ AVMediaType.VIDEO)
      ∧ (ImageResizer.resizeImage audioOnlyFile okLib true ImageResizer.Size.SMALL {}).2.codecParameters
          = some audioStream
      ∧ (ImageResizer.resizeImage audioOnlyFile okLib true ImageResizer.Size.SMALL {}).2.cerr = []
      ∧ (ImageResizer.resizeImage audioOnlyFile okLib true ImageResizer.Size.SMALL {}).1
          = Outcome.undefined
      ∧ Event.acquire Resource.codecContext
          ∈ (ImageResizer.resizeImage audioOnlyFile okLib true ImageResizer.Size.SMALL {}).2.trace
      ∧ ImageResizer.resizeImage { audioOnlyFile with streams := [] } okLib true
            ImageResizer.Size.SMALL {}
          = (Outcome.returned false,
              { cerr := ["Could not find a video stream in: "],
                trace := [Event.acquire Resource.formatContext,
                          Event.release Resource.formatContext] })
      ∧ (∀ (input : MediaFile) (lib : LibAv) (scaled_frame_alloc : Bool)
          (size : ImageResizer.Size),
          0 ≤ input.openRet → 0 ≤ input.findStreamInfoRet → input.streams ≠ [] →
          (∀ q ∈ input.streams, q.codec_type ≠ AVMediaType.VIDEO) →
          (ImageResizer.resizeImage input lib scaled_frame_alloc size {}).2.codecParameters
              = input.streams.getLast?
            ∧ "Could not find a video stream in: "
                ∉ (ImageResizer.resizeImage input lib scaled_frame_alloc size {}).2.cerr)
      ∧ (∀ (pre : List AVCodecParameters) (par : AVCodecParameters)
          (post : List AVCodecParameters),
          (∀ q ∈ pre, q.codec_type ≠ AVMediaType.VIDEO) → par.codec_type = AVMediaType.VIDEO →
          ImageResizer.searchVideoStream (pre ++ par :: post) none = some par)
      ∧ (ImageResizer.resizeImage sampleFile okLib true ImageResizer.Size.SMALL {}).2.codecParameters
          = some videoStream
      ∧ List.map (fun p => p.stream_index)
          (packetsSent
            (ImageResizer.resizeImage sampleFile okLib true ImageResizer.Size.SMALL {}).2.trace)
          = [0] := by
  refine ⟨by decide, by decide, by decide, by decide, by decide, by decide, ?_, ?_, by decide,
    by decide⟩
  · intro input lib scaled_frame_alloc size hopen hinfo hne hno
    exact ImageResizer.resizeImage_no_video input lib scaled_frame_alloc size hopen hinfo hne hno
  · intro pre par post hpre hpar
    exact ImageResizer.searchVideoStream_first pre par post none hpre hpar
